import Mathlib

/-!
# Flow dissector (net/core/flow_dissector.c)

A shallow embedding of the flow-key extraction and hashing code of
`net/core/flow_dissector.c`, and theorems about it.

Conventions of the embedding.

* Machine integers are natural numbers; a truncating store is written with an
  explicit `%`. Offsets and lengths (`int` in C) are natural numbers: the
  embedding covers calls with `nhoff >= 0` and `hlen >= 0`.
* A `__be16` / `__be32` object is represented by the number its bytes spell in
  network order (so `htons(ETH_P_IP)` is `0x0800`); the value the CPU sees
  through a `(__force u32)` or `(__force u16)` cast is obtained with
  `force_u32` / `force_u16`, which take the byte order of the CPU as argument.
* The target container is the record `flow_keys` of the key targets; the
  pointer arithmetic of `skb_flow_dissector_target` (container plus
  `offset[key_id]`) is not modelled, each key identifier denotes its target.
* The `goto` structure of `__skb_flow_dissect` is a step function on a state
  that carries the label to execute next; `run a n` performs `n` steps and
  `__skb_flow_dissect a fuel` is `none` when the walk has not ended after
  `fuel` steps.
* Objects that the C code reads without having initialised them (`ip_proto`,
  the scratch array `_opthdr`) get their content from explicit arguments.
* A dereference of a null `skb` ends the walk in the state `oops`.
* Headers that are not part of the sources at hand (`skbuff.h`,
  `flow_dissector.h`, the protocol headers) are modelled from the spec and
  marked so. The table `proto_ports_offset` and the helper
  `skb_vlan_tag_get_id` are parameters of a call.
-/

namespace FlowDissector

/-! ## Key registry -/

/-- Modelled from the spec: the enumeration `flow_dissector_key_id` of
`include/net/flow_dissector.h` (not part of the sources at hand), with the
field kinds the spec lists, in the order it lists them. -/
inductive flow_dissector_key_id
  | FLOW_DISSECTOR_KEY_CONTROL
  | FLOW_DISSECTOR_KEY_BASIC
  | FLOW_DISSECTOR_KEY_IPV4_ADDRS
  | FLOW_DISSECTOR_KEY_IPV6_ADDRS
  | FLOW_DISSECTOR_KEY_TIPC_ADDRS
  | FLOW_DISSECTOR_KEY_PORTS
  | FLOW_DISSECTOR_KEY_VLANID
  | FLOW_DISSECTOR_KEY_FLOW_LABEL
  | FLOW_DISSECTOR_KEY_GRE_KEYID
  | FLOW_DISSECTOR_KEY_MPLS_ENTROPY
  | FLOW_DISSECTOR_KEY_ETH_ADDRS
  deriving DecidableEq, Repr

open flow_dissector_key_id

/-- The integer value of an enumerator: its position in the declaration. -/
def flow_dissector_key_id.val : flow_dissector_key_id → Nat
  | FLOW_DISSECTOR_KEY_CONTROL => 0
  | FLOW_DISSECTOR_KEY_BASIC => 1
  | FLOW_DISSECTOR_KEY_IPV4_ADDRS => 2
  | FLOW_DISSECTOR_KEY_IPV6_ADDRS => 3
  | FLOW_DISSECTOR_KEY_TIPC_ADDRS => 4
  | FLOW_DISSECTOR_KEY_PORTS => 5
  | FLOW_DISSECTOR_KEY_VLANID => 6
  | FLOW_DISSECTOR_KEY_FLOW_LABEL => 7
  | FLOW_DISSECTOR_KEY_GRE_KEYID => 8
  | FLOW_DISSECTOR_KEY_MPLS_ENTROPY => 9
  | FLOW_DISSECTOR_KEY_ETH_ADDRS => 10

/-- The constant `USHRT_MAX`. -/
def USHRT_MAX : Nat := 65535

/-- A key descriptor, `struct flow_dissector_key`: a key identifier and the
offset (a `size_t`) of its target in the container. -/
structure flow_dissector_key where
  key_id : flow_dissector_key_id
  offset : Nat
  deriving DecidableEq, Repr

/-- The dissector, `struct flow_dissector`: the bit set `used_keys` (an
`unsigned int`; every enumerator is below 32, so no shift overflows) and the
table `offset[]` of `unsigned short`. -/
structure flow_dissector where
  used_keys : Nat
  offset : flow_dissector_key_id → Nat

/-- The test `flow_dissector->used_keys & (1 << key_id)`, as a `bool`. -/
def skb_flow_dissector_uses_key (fd : flow_dissector)
    (key_id : flow_dissector_key_id) : Bool :=
  fd.used_keys &&& (1 <<< key_id.val) != 0

/-- The update `flow_dissector->used_keys |= (1 << key_id)`. -/
def skb_flow_dissector_set_key (fd : flow_dissector)
    (key_id : flow_dissector_key_id) : flow_dissector :=
  { fd with used_keys := fd.used_keys ||| (1 <<< key_id.val) }

/-- The body of the `for` loop of `skb_flow_dissector_init`, over the
descriptors that remain; `none` when a `BUG_ON` fires. -/
def skb_flow_dissector_init_loop :
    flow_dissector → List flow_dissector_key → Option flow_dissector
  | fd, [] => some fd
  | fd, key :: rest =>
    if key.offset > USHRT_MAX then none
    else if skb_flow_dissector_uses_key fd key.key_id then none
    else
      let fd1 := skb_flow_dissector_set_key fd key.key_id
      let fd2 : flow_dissector :=
        { fd1 with offset := fun k =>
            if k = key.key_id then key.offset % 65536 else fd1.offset k }
      skb_flow_dissector_init_loop fd2 rest

/-- The function `skb_flow_dissector_init`: clears the dissector, registers the
descriptors one by one, then insists on the control and basic keys. The first
argument is the dissector as it was before the call; `none` is a `BUG_ON`. -/
def skb_flow_dissector_init (_flow_dissector : flow_dissector)
    (key : List flow_dissector_key) : Option flow_dissector :=
  let zeroed : flow_dissector := { used_keys := 0, offset := fun _ => 0 }
  match skb_flow_dissector_init_loop zeroed key with
  | none => none
  | some fd =>
    if !skb_flow_dissector_uses_key fd FLOW_DISSECTOR_KEY_CONTROL then none
    else if !skb_flow_dissector_uses_key fd FLOW_DISSECTOR_KEY_BASIC then none
    else some fd

/-! ## Flow keys -/

/-- Modelled from the spec: `struct flow_dissector_key_control`, the transport
header offset (`u16`) and the address family tag (`u16`, a key identifier). -/
structure flow_dissector_key_control where
  thoff : Nat
  addr_type : Nat
  deriving DecidableEq, Repr

/-- Modelled from the spec: `struct flow_dissector_key_basic`, the network
protocol (`__be16`), the ip-protocol (`u8`) and one byte of padding. -/
structure flow_dissector_key_basic where
  n_proto : Nat
  ip_proto : Nat
  padding : Nat
  deriving DecidableEq, Repr

/-- Modelled from the spec: `struct flow_dissector_key_tags`, the bit fields
`vlan_id:12` and `flow_label:20` of one `u32`. -/
structure flow_dissector_key_tags where
  vlan_id : Nat
  flow_label : Nat
  deriving DecidableEq, Repr

/-- Modelled from the spec: `struct flow_dissector_key_keyid`, a tunnel key
(`__be32`). -/
structure flow_dissector_key_keyid where
  keyid : Nat
  deriving DecidableEq, Repr

/-- Modelled from the spec: `struct flow_dissector_key_ports`, the union of the
word `ports` (`__be32`) with the pair `src`, `dst` (`__be16` each): `ports` is
`src` followed by `dst`. -/
structure flow_dissector_key_ports where
  src : Nat
  dst : Nat
  deriving DecidableEq, Repr

/-- The member `ports` of the union: the two ports as one `__be32`. -/
def flow_dissector_key_ports.ports (p : flow_dissector_key_ports) : Nat :=
  p.src * 65536 + p.dst

/-- Modelled from the spec: `struct flow_dissector_key_addrs`, a union of 32
bytes, here its eight `__be32` words. `v4addrs` is `a0` (src), `a1` (dst);
`v6addrs` is `a0..a3` (src), `a4..a7` (dst); `tipcaddrs.srcnode` is `a0`. -/
structure flow_dissector_key_addrs where
  a0 : Nat
  a1 : Nat
  a2 : Nat
  a3 : Nat
  a4 : Nat
  a5 : Nat
  a6 : Nat
  a7 : Nat
  deriving DecidableEq, Repr

/-- Modelled from the spec: `struct flow_dissector_key_eth_addrs`, the twelve
bytes of the destination and source MAC addresses. -/
structure flow_dissector_key_eth_addrs where
  bytes : List Nat
  deriving DecidableEq, Repr

/-- Modelled from the spec: the flow key output. Its members are the targets of
the key identifiers: `skb_flow_dissector_target` (container plus the offset
stored for the key) denotes `control`, `basic`, `addrs` (the three address
keys), `ports`, `tags` (VLAN id and flow label), `keyid` (GRE key id and MPLS
entropy) and `eth_addrs`, as for `struct flow_keys` where every offset is the
`offsetof` of the matching member. The member `eth_addrs` is the target of the
Ethernet addresses key in a container that has one; it is no part of the range
that is hashed. -/
structure flow_keys where
  control : flow_dissector_key_control
  basic : flow_dissector_key_basic
  tags : flow_dissector_key_tags
  keyid : flow_dissector_key_keyid
  ports : flow_dissector_key_ports
  addrs : flow_dissector_key_addrs
  eth_addrs : flow_dissector_key_eth_addrs
  deriving DecidableEq, Repr

/-- The container after the caller has zeroed it. -/
def flow_keys.zero : flow_keys :=
  { control := ⟨0, 0⟩, basic := ⟨0, 0, 0⟩, tags := ⟨0, 0⟩, keyid := ⟨0⟩,
    ports := ⟨0, 0⟩, addrs := ⟨0, 0, 0, 0, 0, 0, 0, 0⟩,
    eth_addrs := ⟨List.replicate 12 0⟩ }

/-- Every member holds a value of its C type. -/
def flow_keys.wf (k : flow_keys) : Prop :=
  k.control.thoff < 65536 ∧ k.control.addr_type < 65536 ∧
  k.basic.n_proto < 65536 ∧ k.basic.ip_proto < 256 ∧ k.basic.padding < 256 ∧
  k.tags.vlan_id < 4096 ∧ k.tags.flow_label < 1048576 ∧
  k.keyid.keyid < 4294967296 ∧
  k.ports.src < 65536 ∧ k.ports.dst < 65536 ∧
  k.addrs.a0 < 4294967296 ∧ k.addrs.a1 < 4294967296 ∧
  k.addrs.a2 < 4294967296 ∧ k.addrs.a3 < 4294967296 ∧
  k.addrs.a4 < 4294967296 ∧ k.addrs.a5 < 4294967296 ∧
  k.addrs.a6 < 4294967296 ∧ k.addrs.a7 < 4294967296

instance (k : flow_keys) : Decidable k.wf := by
  unfold flow_keys.wf; infer_instance

/-! ## Byte order -/

/-- The four bytes of a `__be32`, in memory order. -/
def be32_bytes (v : Nat) : List Nat :=
  [v / 16777216 % 256, v / 65536 % 256, v / 256 % 256, v % 256]

/-- The two bytes of a `__be16`, in memory order. -/
def be16_bytes (v : Nat) : List Nat :=
  [v / 256 % 256, v % 256]

/-- The `u32` a CPU loads from four bytes of memory; `le` tells whether the
CPU is little-endian. -/
def load_u32 (le : Bool) (b0 b1 b2 b3 : Nat) : Nat :=
  if le then b0 + b1 * 256 + b2 * 65536 + b3 * 16777216
  else b0 * 16777216 + b1 * 65536 + b2 * 256 + b3

/-- The `u16` a CPU loads from two bytes of memory. -/
def load_u16 (le : Bool) (b0 b1 : Nat) : Nat :=
  if le then b0 + b1 * 256 else b0 * 256 + b1

/-- The cast `(__force u32)` of a `__be32`. -/
def force_u32 (le : Bool) (v : Nat) : Nat :=
  load_u32 le (v / 16777216 % 256) (v / 65536 % 256) (v / 256 % 256) (v % 256)

/-- The cast `(__force u16)` of a `__be16`. -/
def force_u16 (le : Bool) (v : Nat) : Nat :=
  load_u16 le (v / 256 % 256) (v % 256)

/-- The value of a `u32` converted to `int`. -/
def to_s32 (x : Nat) : Int :=
  if x % 4294967296 < 2147483648 then (x % 4294967296 : Nat)
  else ((x % 4294967296 : Nat) : Int) - 4294967296

/-- The library function `memcmp` on two byte sequences of one length: the
difference of the first two bytes that differ, zero when there is none. -/
def memcmp : List Nat → List Nat → Int
  | a :: as, b :: bs => if a = b then memcmp as bs else (a : Int) - (b : Int)
  | _, _ => 0

/-! ## Hash canonicaliser and hasher -/

/-- The bytes of `keys->addrs.v6addrs.src`. -/
def flow_dissector_key_addrs.v6src_bytes (a : flow_dissector_key_addrs) : List Nat :=
  be32_bytes a.a0 ++ be32_bytes a.a1 ++ be32_bytes a.a2 ++ be32_bytes a.a3

/-- The bytes of `keys->addrs.v6addrs.dst`. -/
def flow_dissector_key_addrs.v6dst_bytes (a : flow_dissector_key_addrs) : List Nat :=
  be32_bytes a.a4 ++ be32_bytes a.a5 ++ be32_bytes a.a6 ++ be32_bytes a.a7

/-- The function `__flow_hash_consistentify`; `le` is the byte order of the
CPU, which the `__force` casts expose. -/
def __flow_hash_consistentify (le : Bool) (keys : flow_keys) : flow_keys :=
  if keys.control.addr_type = FLOW_DISSECTOR_KEY_IPV4_ADDRS.val then
    let addr_diff : Int :=
      to_s32 (force_u32 le keys.addrs.a1 + 4294967296 - force_u32 le keys.addrs.a0)
    if addr_diff < 0 ∨
        (addr_diff = 0 ∧ force_u16 le keys.ports.dst < force_u16 le keys.ports.src) then
      { keys with
        addrs := { keys.addrs with a0 := keys.addrs.a1, a1 := keys.addrs.a0 },
        ports := { src := keys.ports.dst, dst := keys.ports.src } }
    else keys
  else if keys.control.addr_type = FLOW_DISSECTOR_KEY_IPV6_ADDRS.val then
    let addr_diff : Int := memcmp keys.addrs.v6dst_bytes keys.addrs.v6src_bytes
    if addr_diff < 0 ∨
        (addr_diff = 0 ∧ force_u16 le keys.ports.dst < force_u16 le keys.ports.src) then
      { keys with
        addrs := { a0 := keys.addrs.a4, a1 := keys.addrs.a5, a2 := keys.addrs.a6,
                   a3 := keys.addrs.a7, a4 := keys.addrs.a0, a5 := keys.addrs.a1,
                   a6 := keys.addrs.a2, a7 := keys.addrs.a3 },
        ports := { src := keys.ports.dst, dst := keys.ports.src } }
    else keys
  else keys

/-- Modelled from the spec: `offsetof(struct flow_keys, basic)`, the start of
the hashed range (the end of the control area, 4 bytes). -/
def FLOW_KEYS_HASH_OFFSET : Nat := 4

/-- Modelled from the spec: `sizeof(struct flow_keys)`: control, basic, tags,
keyid and ports of 4 bytes each, then the address union of 32 bytes. -/
def sizeof_flow_keys : Nat := 52

/-- Modelled from the spec: `sizeof(flow->addrs)`. -/
def sizeof_addrs : Nat := 32

/-- The 32-bit words of a `struct flow_keys` in memory from
`flow_keys_hash_start` to its end, as the CPU loads them. -/
def flow_keys_hash_start (le : Bool) (flow : flow_keys) : List Nat :=
  [ load_u32 le (flow.basic.n_proto / 256 % 256) (flow.basic.n_proto % 256)
      (flow.basic.ip_proto % 256) (flow.basic.padding % 256),
    (if le then flow.tags.vlan_id % 4096 + (flow.tags.flow_label % 1048576) * 4096
     else (flow.tags.vlan_id % 4096) * 1048576 + flow.tags.flow_label % 1048576),
    force_u32 le flow.keyid.keyid,
    load_u32 le (flow.ports.src / 256 % 256) (flow.ports.src % 256)
      (flow.ports.dst / 256 % 256) (flow.ports.dst % 256),
    force_u32 le flow.addrs.a0, force_u32 le flow.addrs.a1,
    force_u32 le flow.addrs.a2, force_u32 le flow.addrs.a3,
    force_u32 le flow.addrs.a4, force_u32 le flow.addrs.a5,
    force_u32 le flow.addrs.a6, force_u32 le flow.addrs.a7 ]

/-- The function `flow_keys_hash_length`: the number of 32-bit words to hash. -/
def flow_keys_hash_length (flow : flow_keys) : Nat :=
  let diff := FLOW_KEYS_HASH_OFFSET + sizeof_addrs
  let diff :=
    if flow.control.addr_type = FLOW_DISSECTOR_KEY_IPV4_ADDRS.val then diff - 8
    else if flow.control.addr_type = FLOW_DISSECTOR_KEY_IPV6_ADDRS.val then diff - 32
    else if flow.control.addr_type = FLOW_DISSECTOR_KEY_TIPC_ADDRS.val then diff - 4
    else diff
  (sizeof_flow_keys - diff) / 4

/-- The function `__flow_hash_words`: the word hash `jhash2` (an argument of
the model, of type words, seed to `u32`) on the first `length` words. -/
def __flow_hash_words (jhash2 : List Nat → Nat → Nat) (words : List Nat)
    (length : Nat) (keyval : Nat) : Nat :=
  jhash2 (words.take length) keyval

/-- The function `__flow_hash_from_keys`: the hash, and the keys as the call
leaves them (they are canonicalised in place). -/
def __flow_hash_from_keys (le : Bool) (jhash2 : List Nat → Nat → Nat)
    (keys : flow_keys) (keyval : Nat) : Nat × flow_keys :=
  let keys1 := __flow_hash_consistentify le keys
  let hash := __flow_hash_words jhash2 (flow_keys_hash_start le keys1)
    (flow_keys_hash_length keys1) keyval
  let hash := if hash = 0 then 1 else hash
  (hash, keys1)

/-! ## Digest builder -/

/-- Modelled from the spec: `struct flow_keys_digest`, the sixteen bytes of a digest. -/
structure flow_keys_digest where
  data : List Nat
  deriving DecidableEq, Repr

/-- A store of some bytes into a buffer at a byte offset. -/
def store_bytes (buf : List Nat) (offset : Nat) (bytes : List Nat) : List Nat :=
  buf.take offset ++ bytes ++ buf.drop (offset + bytes.length)

/-- The function `make_flow_keys_digest`. The first argument is the digest as
it was before the call. The digest is cleared, then the members of
`struct _flow_keys_digest_data` are stored at their offsets: `n_proto` at 0,
`ip_proto` at 2 (`padding` at 3 is not stored), `ports` at 4, `src` at 8 and
`dst` at 12. -/
def make_flow_keys_digest (_digest : flow_keys_digest) (flow : flow_keys) :
    flow_keys_digest :=
  let data := List.replicate 16 0
  let data := store_bytes data 0 (be16_bytes flow.basic.n_proto)
  let data := store_bytes data 2 [flow.basic.ip_proto % 256]
  let data := store_bytes data 4 (be16_bytes flow.ports.src ++ be16_bytes flow.ports.dst)
  let data := store_bytes data 8 (be32_bytes flow.addrs.a0)
  let data := store_bytes data 12 (be32_bytes flow.addrs.a1)
  ⟨data⟩

/-! ## Packets and the bounded byte reader -/

/-- Modelled from the spec: the members of `struct sk_buff` that this file
uses. `data` gives the bytes of the packet counted from `skb->data`, the
linear part (`headlen` bytes) followed by the fragments, `len` bytes in all;
`mac_header` gives the bytes at `eth_hdr(skb)`; `vlan_tci` is a tag that the
`skb` carries outside its packet bytes, which only the sample helper
`vlan_tci_id` reads. -/
structure sk_buff where
  data : Nat → Nat
  len : Nat
  headlen : Nat
  protocol : Nat
  network_offset : Nat
  vlan_tci : Nat
  mac_header : Nat → Nat
  hash : Nat
  sw_hash : Nat
  l4_hash : Nat

/-- The `len` bytes of a buffer that start at `offset`. -/
def get_bytes (data : Nat → Nat) (offset len : Nat) : List Nat :=
  (List.range len).map (fun i => data (offset + i) % 256)

/-- The byte at index `i` of a header. -/
def u8_at (h : List Nat) (i : Nat) : Nat := h.getD i 0

/-- The `__be16` at index `i` of a header. -/
def be16_at (h : List Nat) (i : Nat) : Nat := h.getD i 0 * 256 + h.getD (i + 1) 0

/-- The `__be32` at index `i` of a header. -/
def be32_at (h : List Nat) (i : Nat) : Nat :=
  ((h.getD i 0 * 256 + h.getD (i + 1) 0) * 256 + h.getD (i + 2) 0) * 256 + h.getD (i + 3) 0

/-- Modelled from the spec: `skb_copy_bits`, the copy of `len` bytes at
`offset` of a possibly segmented packet into a scratch buffer; it fails when
the packet ends before `offset + len`. -/
def skb_copy_bits (skb : sk_buff) (offset len : Nat) : Option (List Nat) :=
  if offset + len ≤ skb.len then some (get_bytes skb.data offset len) else none

/-- What `__skb_header_pointer` returns: a pointer into the linear buffer, the
scratch buffer after the bytes were copied into it, or `NULL`. -/
inductive header_pointer
  | direct (bytes : List Nat)
  | copied (bytes : List Nat)
  | null
  deriving DecidableEq, Repr

/-- The bytes a header pointer gives access to. -/
def header_pointer.bytes : header_pointer → Option (List Nat)
  | .direct b => some b
  | .copied b => some b
  | .null => none

/-- Modelled from the spec: `__skb_header_pointer`, the bounded byte reader.
When `hlen - offset >= len` it points into `data`; otherwise, with an `skb`, it
copies from the segmented packet into the scratch buffer; otherwise `NULL`. -/
def __skb_header_pointer (skb : Option sk_buff) (offset len : Nat)
    (data : Nat → Nat) (hlen : Nat) : header_pointer :=
  if offset + len ≤ hlen then .direct (get_bytes data offset len)
  else
    match skb with
    | none => .null
    | some s =>
      match skb_copy_bits s offset len with
      | none => .null
      | some b => .copied b

/-- Modelled from the spec: `proto_ports_offset`, the table of the protocols
with ports (TCP, UDP, DCCP, SCTP, UDP-Lite), whose port pair starts the
transport header; `none` is the negative result for every other protocol. -/
def proto_ports_offset (proto : Nat) : Option Nat :=
  if proto = 6 ∨ proto = 17 ∨ proto = 33 ∨ proto = 132 ∨ proto = 136 then some 0
  else none

/-- The function `__skb_flow_get_ports`. The table `proto_ports_offset` is its
first argument here. The result is `none` when the code dereferences a null
`skb` (no `data` and no `skb`). -/
def __skb_flow_get_ports (ports_offset : Nat → Option Nat) (skb : Option sk_buff)
    (thoff : Nat) (ip_proto : Nat) (data : Option (Nat → Nat)) (hlen : Nat) :
    Option Nat :=
  let poff := ports_offset ip_proto
  let resolved : Option ((Nat → Nat) × Nat) :=
    match data with
    | some d => some (d, hlen)
    | none =>
      match skb with
      | some s => some (s.data, s.headlen)
      | none => none
  match resolved with
  | none => none
  | some (d, hl) =>
    match poff with
    | some po =>
      match (__skb_header_pointer skb (thoff + po) 4 d hl).bytes with
      | some ports => some (be32_at ports 0)
      | none => some 0
    | none => some 0

/-! ## Constants of the protocol headers

The values of `if_ether.h`, `in.h`, `ipv6.h`, `if_tunnel.h`, `ip.h`, `if_vlan.h`,
`mpls.h`, `ppp_defs.h`, `if_pppox.h` and `fc_fcoe.h`; the `__be16` constants are
given in network order. -/

def ETH_P_IP : Nat := 0x0800
def ETH_P_IPV6 : Nat := 0x86DD
def ETH_P_8021AD : Nat := 0x88A8
def ETH_P_8021Q : Nat := 0x8100
def ETH_P_PPP_SES : Nat := 0x8864
def ETH_P_TIPC : Nat := 0x88CA
def ETH_P_MPLS_UC : Nat := 0x8847
def ETH_P_MPLS_MC : Nat := 0x8848
def ETH_P_FCOE : Nat := 0x8906
def ETH_P_TEB : Nat := 0x6558
def PPP_IP : Nat := 0x21
def PPP_IPV6 : Nat := 0x57
def PPPOE_SES_HLEN : Nat := 8
def FCOE_HEADER_LEN : Nat := 38
def IPPROTO_GRE : Nat := 47
def NEXTHDR_HOP : Nat := 0
def NEXTHDR_ROUTING : Nat := 43
def NEXTHDR_DEST : Nat := 60
def IPPROTO_IPIP : Nat := 4
def IPPROTO_IPV6 : Nat := 41
def IPPROTO_MPLS : Nat := 137
def IPPROTO_ICMP : Nat := 1
def IPPROTO_IGMP : Nat := 2
def IPPROTO_TCP : Nat := 6
def IPPROTO_UDP : Nat := 17
def IPPROTO_DCCP : Nat := 33
def IPPROTO_ICMPV6 : Nat := 58
def IPPROTO_SCTP : Nat := 132
def IPPROTO_UDPLITE : Nat := 136
def GRE_CSUM : Nat := 0x8000
def GRE_ROUTING : Nat := 0x4000
def GRE_KEY : Nat := 0x2000
def GRE_SEQ : Nat := 0x1000
def GRE_VERSION : Nat := 0x0007
def IP_MF : Nat := 0x2000
def IP_OFFSET : Nat := 0x1FFF
def IPV6_FLOWLABEL_MASK : Nat := 0x000FFFFF
def VLAN_VID_MASK : Nat := 0x0fff
def MPLS_LS_LABEL_MASK : Nat := 0xFFFFF000
def MPLS_LS_LABEL_SHIFT : Nat := 12
def MPLS_LABEL_ENTROPY : Nat := 7

/-- Modelled from the spec: the helper `ip_is_fragment` of `net/ip.h`, true when
the more-fragments bit is set or the fragment offset is not zero. -/
def ip_is_fragment (iph : List Nat) : Bool :=
  be16_at iph 6 &&& (IP_MF ||| IP_OFFSET) != 0

/-- Modelled from the spec: the helper `ip6_flowlabel` of `net/ipv6.h`, the first
word of the header under `IPV6_FLOWLABEL_MASK`. -/
def ip6_flowlabel (iph : List Nat) : Nat :=
  be32_at iph 0 &&& IPV6_FLOWLABEL_MASK

/-- A value of the parameter `skb_vlan_tag_get_id` for the sample calls: the
twelve low bits of the member `vlan_tci` of the `skb`. -/
def vlan_tci_id (skb : sk_buff) : Nat :=
  skb.vlan_tci % 65536 &&& VLAN_VID_MASK

/-! ## Protocol walker -/

/-- The arguments of `__skb_flow_dissect`, with two values the C code reads
from its stack frame before writing them: `ip_proto`, the content of the local
`ip_proto` on entry, and `_opthdr`, the content of the scratch array `_opthdr`
on entry. `ports_offset` is the table `proto_ports_offset`, and
`skb_vlan_tag_get_id` is the helper of that name, of `linux/if_vlan.h`; both are
declared outside this source file and are parameters here. The only argument of
the helper is the `skb`. -/
structure dissect_args where
  skb : Option sk_buff
  flow_dissector : flow_dissector
  target_container : flow_keys
  data : Option (Nat → Nat)
  proto : Nat
  nhoff : Nat
  hlen : Nat
  ip_proto : Nat
  _opthdr : Nat × Nat
  ports_offset : Nat → Option Nat
  skb_vlan_tag_get_id : sk_buff → Nat

/-- The headers the walker reads. -/
inductive header_kind
  | IPHDR | IPV6HDR | VLAN_HDR | PPPOE_HDR | TIPC_HDR | MPLS_LABELS
  | GRE_HDR | GRE_KEYID | ETHHDR | OPTHDR | PORTS
  deriving DecidableEq, Repr

/-- One call of `__skb_header_pointer`: the header wanted, the offset and
length asked for, and whether the bytes were obtained. -/
structure header_read where
  what : header_kind
  offset : Nat
  len : Nat
  ok : Bool
  deriving DecidableEq, Repr

/-- Where the walker stands: at one of the labels of `__skb_flow_dissect`,
after a `return`, or after the dereference of a null `skb`. -/
inductive label
  | again | ip | ipv6 | mpls | ip_proto_again
  | ret (r : Bool)
  | oops
  deriving DecidableEq, Repr

/-- The state of the walk: the label to execute, the locals `proto`, `nhoff`,
`ip_proto` and `_opthdr`, the target container, and the reads made so far (a
record of the calls of `__skb_header_pointer`; nothing depends on it). -/
structure walk where
  pc : label
  proto : Nat
  nhoff : Nat
  ip_proto : Nat
  _opthdr : Nat × Nat
  target : flow_keys
  reads : List header_read
  deriving DecidableEq, Repr

/-- The buffer after `if (!data) data = skb->data`. -/
def dissect_args.buf (a : dissect_args) : Nat → Nat :=
  match a.data with
  | some d => d
  | none =>
    match a.skb with
    | some s => s.data
    | none => fun _ => 0

/-- The length after `if (!data) hlen = skb_headlen(skb)`. -/
def dissect_args.buflen (a : dissect_args) : Nat :=
  match a.data with
  | some _ => a.hlen
  | none =>
    match a.skb with
    | some s => s.headlen
    | none => 0

/-- The test `skb_flow_dissector_uses_key(flow_dissector, key_id)`. -/
def dissect_args.uses (a : dissect_args) (key_id : flow_dissector_key_id) : Bool :=
  skb_flow_dissector_uses_key a.flow_dissector key_id

/-- A call `__skb_header_pointer(skb, nhoff, len, data, hlen, &buffer)` of the
walker, with the read recorded. -/
def walk.header (a : dissect_args) (s : walk) (what : header_kind) (len : Nat) :
    header_pointer × walk :=
  let p := __skb_header_pointer a.skb s.nhoff len a.buf a.buflen
  (p, { s with reads := s.reads ++ [⟨what, s.nhoff, len, p.bytes.isSome⟩] })

/-- The start of `__skb_flow_dissect`, down to the label `again`: the defaults
taken from the `skb` when `data` is null, and the copy of the Ethernet
addresses when they are requested. -/
def dissect_start (a : dissect_args) : walk :=
  let s0 : walk :=
    { pc := .again, proto := a.proto % 65536, nhoff := a.nhoff,
      ip_proto := a.ip_proto % 256,
      _opthdr := (a._opthdr.1 % 256, a._opthdr.2 % 256),
      target := a.target_container, reads := [] }
  let s1 : walk :=
    match a.data with
    | some _ => s0
    | none =>
      match a.skb with
      | some skb => { s0 with proto := skb.protocol % 65536, nhoff := skb.network_offset }
      | none => { s0 with pc := .oops }
  if s1.pc = .oops then s1
  else if a.uses FLOW_DISSECTOR_KEY_ETH_ADDRS then
    match a.skb with
    | none => { s1 with pc := .oops }
    | some skb =>
      { s1 with target := { s1.target with eth_addrs := ⟨get_bytes skb.mac_header 0 12⟩ } }
  else s1

/-- The code from the label `ip` to the end of the IPv4 case. -/
def dissect_ip (a : dissect_args) (s : walk) : walk :=
  let (p, s) := s.header a .IPHDR 20
  match p.bytes with
  | none => { s with pc := .ret false }
  | some iph =>
    if u8_at iph 0 % 16 < 5 then { s with pc := .ret false }
    else
      let s := { s with nhoff := s.nhoff + (u8_at iph 0 % 16) * 4 }
      let s := { s with ip_proto := u8_at iph 9 }
      let s := if ip_is_fragment iph then { s with ip_proto := 0 } else s
      if !a.uses FLOW_DISSECTOR_KEY_IPV4_ADDRS then { s with pc := .ip_proto_again }
      else
        { s with
          target := { s.target with
            addrs := { s.target.addrs with a0 := be32_at iph 12, a1 := be32_at iph 16 },
            control := { s.target.control with
              addr_type := FLOW_DISSECTOR_KEY_IPV4_ADDRS.val } },
          pc := .ip_proto_again }

/-- The code from the label `ipv6` to the end of the IPv6 case. -/
def dissect_ipv6 (a : dissect_args) (s : walk) : walk :=
  let (p, s) := s.header a .IPV6HDR 40
  match p.bytes with
  | none => { s with pc := .ret false }
  | some iph =>
    let s := { s with ip_proto := u8_at iph 6 }
    let s := { s with nhoff := s.nhoff + 40 }
    let s :=
      if a.uses FLOW_DISSECTOR_KEY_IPV6_ADDRS then
        { s with
          target := { s.target with
            addrs := { a0 := be32_at iph 8, a1 := be32_at iph 12, a2 := be32_at iph 16,
                       a3 := be32_at iph 20, a4 := be32_at iph 24, a5 := be32_at iph 28,
                       a6 := be32_at iph 32, a7 := be32_at iph 36 },
            control := { s.target.control with
              addr_type := FLOW_DISSECTOR_KEY_IPV6_ADDRS.val } } }
      else s
    let flow_label := ip6_flowlabel iph
    let s :=
      if flow_label ≠ 0 then
        if a.uses FLOW_DISSECTOR_KEY_FLOW_LABEL then
          { s with target := { s.target with
              tags := { s.target.tags with flow_label := flow_label } } }
        else s
      else s
    { s with pc := .ip_proto_again }

/-- The case of the tags `ETH_P_8021AD` and `ETH_P_8021Q`. The VLAN id that is
recorded is what `skb_vlan_tag_get_id(skb)` returns; the TCI of the tag that was
read is not used. With a null `skb` the helper is handed the null pointer,
which is the fault `oops`. -/
def dissect_vlan (a : dissect_args) (s : walk) : walk :=
  let (p, s) := s.header a .VLAN_HDR 4
  match p.bytes with
  | none => { s with pc := .ret false }
  | some vlan =>
    let s :=
      if a.uses FLOW_DISSECTOR_KEY_VLANID then
        match a.skb with
        | none => { s with pc := .oops }
        | some skb =>
          { s with target := { s.target with
              tags := { s.target.tags with vlan_id := a.skb_vlan_tag_get_id skb } } }
      else s
    if s.pc = .oops then s
    else { s with proto := be16_at vlan 2, nhoff := s.nhoff + 4, pc := .again }

/-- The case of the tag `ETH_P_PPP_SES`. -/
def dissect_pppoe (a : dissect_args) (s : walk) : walk :=
  let (p, s) := s.header a .PPPOE_HDR 8
  match p.bytes with
  | none => { s with pc := .ret false }
  | some hdr =>
    let s := { s with proto := be16_at hdr 6, nhoff := s.nhoff + PPPOE_SES_HLEN }
    if s.proto = PPP_IP then { s with pc := .ip }
    else if s.proto = PPP_IPV6 then { s with pc := .ipv6 }
    else { s with pc := .ret false }

/-- The case of the tag `ETH_P_TIPC`. -/
def dissect_tipc (a : dissect_args) (s : walk) : walk :=
  let (p, s) := s.header a .TIPC_HDR 16
  match p.bytes with
  | none => { s with pc := .ret false }
  | some hdr =>
    let s := { s with target := { s.target with
      basic := { s.target.basic with n_proto := s.proto },
      control := { s.target.control with thoff := s.nhoff % 65536 } } }
    let s :=
      if a.uses FLOW_DISSECTOR_KEY_TIPC_ADDRS then
        { s with target := { s.target with
            addrs := { s.target.addrs with a0 := be32_at hdr 12 },
            control := { s.target.control with
              addr_type := FLOW_DISSECTOR_KEY_TIPC_ADDRS.val } } }
      else s
    { s with pc := .ret true }

/-- The code from the label `mpls` to the end of the MPLS case. -/
def dissect_mpls (a : dissect_args) (s : walk) : walk :=
  let (p, s) := s.header a .MPLS_LABELS 8
  match p.bytes with
  | none => { s with pc := .ret false }
  | some hdr =>
    if (be32_at hdr 0 &&& MPLS_LS_LABEL_MASK) >>> MPLS_LS_LABEL_SHIFT
        = MPLS_LABEL_ENTROPY then
      let s :=
        if a.uses FLOW_DISSECTOR_KEY_MPLS_ENTROPY then
          { s with target := { s.target with
              keyid := { keyid := be32_at hdr 4 &&& MPLS_LS_LABEL_MASK } } }
        else s
      let s := { s with target := { s.target with
        basic := { s.target.basic with n_proto := s.proto, ip_proto := s.ip_proto },
        control := { s.target.control with thoff := s.nhoff % 65536 } } }
      { s with pc := .ret true }
    else { s with pc := .ret true }

/-- The `switch (proto)` at the label `again`. -/
def dissect_again (a : dissect_args) (s : walk) : walk :=
  if s.proto = ETH_P_IP then dissect_ip a s
  else if s.proto = ETH_P_IPV6 then dissect_ipv6 a s
  else if s.proto = ETH_P_8021AD ∨ s.proto = ETH_P_8021Q then dissect_vlan a s
  else if s.proto = ETH_P_PPP_SES then dissect_pppoe a s
  else if s.proto = ETH_P_TIPC then dissect_tipc a s
  else if s.proto = ETH_P_MPLS_UC ∨ s.proto = ETH_P_MPLS_MC then dissect_mpls a s
  else if s.proto = ETH_P_FCOE then
    { s with
      target := { s.target with
        control := { s.target.control with
          thoff := (s.nhoff + FCOE_HEADER_LEN) % 65536 } },
      pc := .ret false }
  else { s with pc := .ret false }

/-- The code after the `switch (ip_proto)`: the basic and control keys, the
ports when they are requested, and `return true`. -/
def dissect_out (a : dissect_args) (s : walk) : walk :=
  let s := { s with target := { s.target with
    basic := { s.target.basic with n_proto := s.proto, ip_proto := s.ip_proto },
    control := { s.target.control with thoff := s.nhoff % 65536 } } }
  if a.uses FLOW_DISSECTOR_KEY_PORTS then
    match __skb_flow_get_ports a.ports_offset a.skb s.nhoff s.ip_proto
        (some a.buf) a.buflen with
    | none => { s with pc := .oops }
    | some ports =>
      let reads :=
        match a.ports_offset s.ip_proto with
        | some po =>
          s.reads ++ [⟨.PORTS, s.nhoff + po, 4,
            (__skb_header_pointer a.skb (s.nhoff + po) 4 a.buf a.buflen).bytes.isSome⟩]
        | none => s.reads
      { s with
        target := { s.target with
          ports := { src := ports / 65536, dst := ports % 65536 } },
        reads := reads, pc := .ret true }
  else { s with pc := .ret true }

/-- The end of the case `IPPROTO_GRE`, from the test of `GRE_SEQ` to the
`goto again`; `flags` is `hdr->flags`. -/
def dissect_gre_seq (a : dissect_args) (flags : Nat) (s : walk) : walk :=
  let s := if flags &&& GRE_SEQ ≠ 0 then { s with nhoff := s.nhoff + 4 } else s
  if s.proto = ETH_P_TEB then
    let (p, s) := s.header a .ETHHDR 14
    match p.bytes with
    | none => { s with pc := .ret false }
    | some eth => { s with proto := be16_at eth 12, nhoff := s.nhoff + 14, pc := .again }
  else { s with pc := .again }

/-- The case `IPPROTO_GRE`. -/
def dissect_gre (a : dissect_args) (s : walk) : walk :=
  let (p, s) := s.header a .GRE_HDR 4
  match p.bytes with
  | none => { s with pc := .ret false }
  | some hdr =>
    let flags := be16_at hdr 0
    if flags &&& (GRE_VERSION ||| GRE_ROUTING) ≠ 0 then dissect_out a s
    else
      let s := { s with proto := be16_at hdr 2, nhoff := s.nhoff + 4 }
      let s := if flags &&& GRE_CSUM ≠ 0 then { s with nhoff := s.nhoff + 4 } else s
      if flags &&& GRE_KEY ≠ 0 then
        let (pk, s) := s.header a .GRE_KEYID 4
        match pk.bytes with
        | none => { s with pc := .ret false }
        | some keyid =>
          let s :=
            if a.uses FLOW_DISSECTOR_KEY_GRE_KEYID then
              { s with target := { s.target with keyid := { keyid := be32_at keyid 0 } } }
            else s
          dissect_gre_seq a flags { s with nhoff := s.nhoff + 4 }
      else dissect_gre_seq a flags s

/-- The cases `NEXTHDR_HOP`, `NEXTHDR_ROUTING` and `NEXTHDR_DEST`. The result
of `__skb_header_pointer` is not looked at; the code reads the scratch array
`_opthdr`, which holds the bytes of the packet only when they were copied. -/
def dissect_opthdr (a : dissect_args) (s : walk) : walk :=
  if s.proto ≠ ETH_P_IPV6 then dissect_out a s
  else
    let (opthdr, s) := s.header a .OPTHDR 2
    let s :=
      match opthdr with
      | .copied b => { s with _opthdr := (u8_at b 0, u8_at b 1) }
      | _ => s
    { s with
      ip_proto := s._opthdr.1,
      nhoff := s.nhoff + ((s._opthdr.2 + 1) <<< 3),
      pc := .ip_proto_again }

/-- The `switch (ip_proto)` at the label `ip_proto_again`. -/
def dissect_ip_proto_again (a : dissect_args) (s : walk) : walk :=
  if s.ip_proto = IPPROTO_GRE then dissect_gre a s
  else if s.ip_proto = NEXTHDR_HOP ∨ s.ip_proto = NEXTHDR_ROUTING
      ∨ s.ip_proto = NEXTHDR_DEST then dissect_opthdr a s
  else if s.ip_proto = IPPROTO_IPIP then { s with proto := ETH_P_IP, pc := .ip }
  else if s.ip_proto = IPPROTO_IPV6 then { s with proto := ETH_P_IPV6, pc := .ipv6 }
  else if s.ip_proto = IPPROTO_MPLS then { s with proto := ETH_P_MPLS_UC, pc := .mpls }
  else dissect_out a s

/-- One step of the walk: the code from the current label to the next jump or
`return`. A walk that has returned stays where it is. -/
def step (a : dissect_args) (s : walk) : walk :=
  match s.pc with
  | .again => dissect_again a s
  | .ip => dissect_ip a s
  | .ipv6 => dissect_ipv6 a s
  | .mpls => dissect_mpls a s
  | .ip_proto_again => dissect_ip_proto_again a s
  | .ret _ => s
  | .oops => s

/-- The state after `n` steps. -/
def run (a : dissect_args) : Nat → walk → walk
  | 0, s => s
  | n + 1, s => run a n (step a s)

/-- How a call of `__skb_flow_dissect` ends: it returns a `bool` and leaves
the target container in some state, or it dereferences a null `skb`. -/
inductive outcome
  | returned (r : Bool) (target : flow_keys)
  | oops
  deriving DecidableEq, Repr

/-- The function `__skb_flow_dissect`, run for at most `fuel` steps: `none`
when the walk has not ended by then. -/
def __skb_flow_dissect (a : dissect_args) (fuel : Nat) : Option outcome :=
  let s := run a fuel (dissect_start a)
  match s.pc with
  | .ret r => some (.returned r s.target)
  | .oops => some .oops
  | _ => none

/-- The table `flow_keys_dissector_keys`, with the offsets of the members of
`struct flow_keys`. -/
def flow_keys_dissector_keys : List flow_dissector_key :=
  [ ⟨FLOW_DISSECTOR_KEY_CONTROL, 0⟩, ⟨FLOW_DISSECTOR_KEY_BASIC, 4⟩,
    ⟨FLOW_DISSECTOR_KEY_IPV4_ADDRS, 20⟩, ⟨FLOW_DISSECTOR_KEY_IPV6_ADDRS, 20⟩,
    ⟨FLOW_DISSECTOR_KEY_TIPC_ADDRS, 20⟩, ⟨FLOW_DISSECTOR_KEY_PORTS, 16⟩,
    ⟨FLOW_DISSECTOR_KEY_VLANID, 8⟩, ⟨FLOW_DISSECTOR_KEY_FLOW_LABEL, 8⟩,
    ⟨FLOW_DISSECTOR_KEY_GRE_KEYID, 12⟩ ]

/-- The table `flow_keys_buf_dissector_keys`. -/
def flow_keys_buf_dissector_keys : List flow_dissector_key :=
  [ ⟨FLOW_DISSECTOR_KEY_CONTROL, 0⟩, ⟨FLOW_DISSECTOR_KEY_BASIC, 4⟩ ]

/-! ## Predicates used in the statements -/

/-- The key of the reverse direction of an IPv4 flow. -/
def flow_keys.reverse_v4 (k : flow_keys) : flow_keys :=
  { k with
    addrs := { k.addrs with a0 := k.addrs.a1, a1 := k.addrs.a0 },
    ports := { src := k.ports.dst, dst := k.ports.src } }

/-- The key of the reverse direction of an IPv6 flow. -/
def flow_keys.reverse_v6 (k : flow_keys) : flow_keys :=
  { k with
    addrs := { a0 := k.addrs.a4, a1 := k.addrs.a5, a2 := k.addrs.a6, a3 := k.addrs.a7,
               a4 := k.addrs.a0, a5 := k.addrs.a1, a6 := k.addrs.a2, a7 := k.addrs.a3 },
    ports := { src := k.ports.dst, dst := k.ports.src } }

/-- The members of unregistered keys hold in `t` what they hold in `t0`. -/
def frame (a : dissect_args) (t0 t : flow_keys) : Prop :=
  (a.uses FLOW_DISSECTOR_KEY_IPV4_ADDRS = false → a.uses FLOW_DISSECTOR_KEY_IPV6_ADDRS = false →
    a.uses FLOW_DISSECTOR_KEY_TIPC_ADDRS = false → t.addrs.a0 = t0.addrs.a0) ∧
  (a.uses FLOW_DISSECTOR_KEY_IPV4_ADDRS = false → a.uses FLOW_DISSECTOR_KEY_IPV6_ADDRS = false →
    t.addrs.a1 = t0.addrs.a1) ∧
  (a.uses FLOW_DISSECTOR_KEY_IPV6_ADDRS = false →
    t.addrs.a2 = t0.addrs.a2 ∧ t.addrs.a3 = t0.addrs.a3 ∧ t.addrs.a4 = t0.addrs.a4 ∧
    t.addrs.a5 = t0.addrs.a5 ∧ t.addrs.a6 = t0.addrs.a6 ∧ t.addrs.a7 = t0.addrs.a7) ∧
  (a.uses FLOW_DISSECTOR_KEY_PORTS = false → t.ports = t0.ports) ∧
  (a.uses FLOW_DISSECTOR_KEY_VLANID = false → t.tags.vlan_id = t0.tags.vlan_id) ∧
  (a.uses FLOW_DISSECTOR_KEY_FLOW_LABEL = false → t.tags.flow_label = t0.tags.flow_label) ∧
  (a.uses FLOW_DISSECTOR_KEY_GRE_KEYID = false → a.uses FLOW_DISSECTOR_KEY_MPLS_ENTROPY = false →
    t.keyid = t0.keyid) ∧
  (a.uses FLOW_DISSECTOR_KEY_ETH_ADDRS = false → t.eth_addrs = t0.eth_addrs)

/-- The walk has returned `true`, or the basic key and the ports are those of `t0`. -/
def keeps (t0 : flow_keys) (s : walk) : Prop :=
  s.pc = .ret true ∨ (s.target.basic = t0.basic ∧ s.target.ports = t0.ports)

/-- Every read of the list that failed is a read of an extension header prefix. -/
def clean_reads (l : List header_read) : Prop :=
  ∀ r ∈ l, r.ok = false → r.what = .OPTHDR

/-- Every read that failed so far is a read of an extension header prefix. -/
def clean (s : walk) : Prop := clean_reads s.reads

/-- Every read that failed is a read of an extension header prefix, or a read
other than that of the ports and the walk has returned `false`, or the read of
the ports and the walk has returned `true` with the ports set to zero. -/
def settled (s : walk) : Prop :=
  ∀ r ∈ s.reads, r.ok = false →
    r.what = .OPTHDR ∨ (r.what ≠ .PORTS ∧ s.pc = .ret false) ∨
    (r.what = .PORTS ∧ s.pc = .ret true ∧ s.target.ports = ⟨0, 0⟩)

/-- The packet has no bytes outside the linear buffer. -/
def contiguous (a : dissect_args) : Prop :=
  ∀ skb, a.skb = some skb → skb.len ≤ a.buflen

/-- Every read of the list that obtained its bytes ends within `L` bytes. -/
def within_reads (L : Nat) (l : List header_read) : Prop :=
  ∀ r ∈ l, r.ok = true → r.offset + r.len ≤ L

/-- The state of a walk that is caught in the extension header loop: at the
label `ip_proto_again` of an IPv6 packet, on an extension header, with the
scratch array `_opthdr` naming that same extension header as the next one. -/
def in_opthdr_loop (s : walk) : Prop :=
  s.pc = .ip_proto_again ∧ s.proto = ETH_P_IPV6 ∧
  (s.ip_proto = NEXTHDR_HOP ∨ s.ip_proto = NEXTHDR_ROUTING ∨ s.ip_proto = NEXTHDR_DEST) ∧
  s._opthdr.1 = s.ip_proto

/-- The ip-protocol values that `switch (ip_proto)` has a case for. -/
def ip_proto_handled (p : Nat) : Prop :=
  p = IPPROTO_GRE ∨ p = NEXTHDR_HOP ∨ p = NEXTHDR_ROUTING ∨ p = NEXTHDR_DEST ∨
  p = IPPROTO_IPIP ∨ p = IPPROTO_IPV6 ∨ p = IPPROTO_MPLS

/-- The protocol tags that `switch (proto)` has a case for. -/
def proto_handled (p : Nat) : Prop :=
  p = ETH_P_IP ∨ p = ETH_P_IPV6 ∨ p = ETH_P_8021AD ∨ p = ETH_P_8021Q ∨ p = ETH_P_PPP_SES ∨
  p = ETH_P_TIPC ∨ p = ETH_P_MPLS_UC ∨ p = ETH_P_MPLS_MC ∨ p = ETH_P_FCOE

/-- A VLAN tag was read among the reads of the list. -/
def has_vlan_read (l : List header_read) : Prop :=
  ∃ r ∈ l, r.what = .VLAN_HDR ∧ r.ok = true

/-- Once a VLAN tag was read, the VLAN id of the target is `vid`. -/
def vlan_recorded (vid : Nat) (s : walk) : Prop :=
  has_vlan_read s.reads → s.target.tags.vlan_id = vid

/-- The protocol tag that goes with the labels inside the cases of
`switch (proto)`: at `ip` the tag is `PPP_IP` or `ETH_P_IP`, at `ipv6` it is
`PPP_IPV6` or `ETH_P_IPV6`, at `mpls` it is `ETH_P_MPLS_UC`. -/
def label_ok (s : walk) : Prop :=
  (s.pc = .ip → s.proto = PPP_IP ∨ s.proto = ETH_P_IP) ∧
  (s.pc = .ipv6 → s.proto = PPP_IPV6 ∨ s.proto = ETH_P_IPV6) ∧
  (s.pc = .mpls → s.proto = ETH_P_MPLS_UC)

/-- The state without the record of the reads. -/
def walk.unlog (s : walk) : walk := { s with reads := [] }

/-- The buffer seen from the offset `base` on. -/
def window (base : Nat) (d : Nat → Nat) : Nat → Nat := fun i => d (base + i)

/-- The buffer without the `k` bytes at offset `o`. -/
def strip_bytes (o k : Nat) (d : Nat → Nat) : Nat → Nat :=
  fun i => if i < o then d i else d (i + k)

/-- The state of a walk that runs `base` bytes further in its buffer, with its
own record of reads and its own transport header offset. -/
def walk.moved (s : walk) (base : Nat) (r : List header_read) (t : Nat) : walk :=
  { s with
    nhoff := s.nhoff + base, reads := r,
    target := { s.target with control := { s.target.control with thoff := t } } }

/-- Two calls without an `skb`, the first on a buffer that holds at `off + base`
what the buffer of the second holds at `off`. -/
def shifted (a b : dissect_args) (base : Nat) : Prop :=
  a.skb = none ∧ b.skb = none ∧ a.flow_dissector = b.flow_dissector ∧
  a.ports_offset = b.ports_offset ∧
  ∀ off len, __skb_header_pointer none off len b.buf b.buflen
    = __skb_header_pointer none (off + base) len a.buf a.buflen

/-- The first state is the second one, `base` bytes further in its buffer; the
records of reads and the transport header offsets are not compared. -/
def sim (base : Nat) (s s' : walk) : Prop := s.moved 0 [] 0 = s'.moved base [] 0

/-- The keys without the transport header offset. -/
def flow_keys.without_thoff (t : flow_keys) : flow_keys :=
  { t with control := { t.control with thoff := 0 } }

/-- The outcome of a call without the transport header offset. -/
def outcome.without_thoff : outcome → outcome
  | .returned r t => .returned r t.without_thoff
  | .oops => .oops

/-! ## Default dissectors and sample packets -/

/-- The dissector `flow_keys_dissector`, as `init_default_flow_dissectors`
builds it from `flow_keys_dissector_keys`. -/
def flow_keys_dissector : flow_dissector :=
  (skb_flow_dissector_init ⟨0, fun _ => 0⟩ flow_keys_dissector_keys).getD ⟨0, fun _ => 0⟩

/-- The dissector `flow_keys_buf_dissector`, as `init_default_flow_dissectors`
builds it from `flow_keys_buf_dissector_keys`. -/
def flow_keys_buf_dissector : flow_dissector :=
  (skb_flow_dissector_init ⟨0, fun _ => 0⟩ flow_keys_buf_dissector_keys).getD ⟨0, fun _ => 0⟩

/-- A buffer that holds the bytes of a list, and zeros after them. -/
def buffer (l : List Nat) : Nat → Nat := fun i => l.getD i 0

/-- A linear `skb` (no fragments) that holds a packet, its network header at
`skb->data`, with no VLAN tag and a zero link header. -/
def linear_skb (packet : List Nat) (protocol : Nat) : sk_buff :=
  { data := buffer packet, len := packet.length, headlen := packet.length,
    protocol := protocol, network_offset := 0, vlan_tci := 0,
    mac_header := fun _ => 0, hash := 0, sw_hash := 0, l4_hash := 0 }

/-- The call `__skb_flow_dissect(skb, &flow_keys_dissector, flow, NULL, 0, 0, 0)`
that `skb_flow_dissect_flow_keys` makes on a zeroed `flow`, on a stack that
holds zeros, with the table of the spec and the sample helper `vlan_tci_id`. -/
def flow_keys_call (skb : sk_buff) : dissect_args :=
  { skb := some skb, flow_dissector := flow_keys_dissector,
    target_container := flow_keys.zero, data := none, proto := 0, nhoff := 0, hlen := 0,
    ip_proto := 0, _opthdr := (0, 0), ports_offset := proto_ports_offset,
    skb_vlan_tag_get_id := vlan_tci_id }

/-- The call `__skb_flow_dissect(NULL, &flow_keys_buf_dissector, &keys, data,
proto, nhoff, hlen)` that `eth_get_headlen` makes on a zeroed `keys`, on a
stack that holds zeros, with the table of the spec and the sample helper
`vlan_tci_id`. -/
def flow_keys_buf_call (data : Nat → Nat) (proto nhoff hlen : Nat) : dissect_args :=
  { skb := none, flow_dissector := flow_keys_buf_dissector,
    target_container := flow_keys.zero, data := some data, proto := proto, nhoff := nhoff,
    hlen := hlen, ip_proto := 0, _opthdr := (0, 0), ports_offset := proto_ports_offset,
    skb_vlan_tag_get_id := vlan_tci_id }

/-- An IPv4 packet 10.0.0.1 to 10.0.0.129 that carries UDP, ports 4660 to 53. -/
def ipv4_udp_packet : List Nat :=
  [0x45, 0, 0, 28, 0, 0, 0, 0, 64, 17, 0, 0, 10, 0, 0, 1, 10, 0, 0, 129,
   0x12, 0x34, 0, 0x35, 0, 8, 0, 0]

/-- An IPv4 packet that carries ICMP (ip-protocol 1). -/
def ipv4_icmp_packet : List Nat :=
  [0x45, 0, 0, 28, 0, 0, 0, 0, 64, 1, 0, 0, 10, 0, 0, 1, 10, 0, 0, 129,
   8, 0, 0, 0, 0, 1, 0, 1]

/-- The IPv4 header of a GRE packet, cut after its 20 bytes. -/
def ipv4_gre_header : List Nat :=
  [0x45, 0, 0, 52, 0, 0, 0, 0, 64, 47, 0, 0, 10, 0, 0, 1, 10, 0, 0, 129]

/-- An IPv6 packet ::1 to ::2 with a hop-by-hop header (8 bytes, next header
UDP) followed by a UDP header, ports 4660 to 53. -/
def ipv6_hop_udp_packet : List Nat :=
  [0x60, 0, 0, 0, 0, 16, 0, 64] ++
  [0, 0, 0, 0, 0, 0, 0, 0, 0, 0, 0, 0, 0, 0, 0, 1] ++
  [0, 0, 0, 0, 0, 0, 0, 0, 0, 0, 0, 0, 0, 0, 0, 2] ++
  [17, 0, 1, 4, 0, 0, 0, 0] ++
  [0x12, 0x34, 0, 0x35, 0, 8, 0, 0]

/-- The key of an IPv6 flow 2001:db8::1 to 2001:db8::2, UDP ports 4660 to 53. -/
def key_v6_example : flow_keys :=
  { flow_keys.zero with
    control := ⟨40, FLOW_DISSECTOR_KEY_IPV6_ADDRS.val⟩,
    basic := ⟨0x86DD, 17, 0⟩,
    ports := ⟨4660, 53⟩,
    addrs := ⟨0x20010db8, 0, 0, 1, 0x20010db8, 0, 0, 2⟩ }

/-- The key of an IPv4 flow 10.0.0.1 to 10.0.0.129, UDP ports 4660 to 53. -/
def key_v4_example : flow_keys :=
  { flow_keys.zero with
    control := ⟨20, FLOW_DISSECTOR_KEY_IPV4_ADDRS.val⟩,
    basic := ⟨0x0800, 17, 0⟩,
    ports := ⟨4660, 53⟩,
    addrs := ⟨0x0A000001, 0x0A000081, 0, 0, 0, 0, 0, 0⟩ }

/-- Two MPLS label stack entries: the entropy label indicator (label 7), then
an entropy label. -/
def mpls_entropy_packet : List Nat :=
  [0, 0, 0x71, 0xff, 0xAB, 0xCD, 0xEF, 0xFF]

/-- A buffer that holds the bytes of a list from offset `off` on, and zeros
elsewhere. -/
def buffer_at (off : Nat) (l : List Nat) : Nat → Nat :=
  fun i => if off ≤ i then l.getD (i - off) 0 else 0

/-- An IPv6 packet ::1 to ::2, flow label 0x12345, that carries UDP, ports
4660 to 53. -/
def ipv6_udp_packet : List Nat :=
  [0x60, 0x01, 0x23, 0x45, 0, 8, 17, 64] ++
  [0, 0, 0, 0, 0, 0, 0, 0, 0, 0, 0, 0, 0, 0, 0, 1] ++
  [0, 0, 0, 0, 0, 0, 0, 0, 0, 0, 0, 0, 0, 0, 0, 2] ++
  [0x12, 0x34, 0, 0x35, 0, 8, 0, 0]

/-- An IPv4 packet that carries GRE (checksum and key flags, key 0xDEADBEEF,
protocol TEB), an inner Ethernet header with ethertype IPv6, and the IPv6
packet `ipv6_udp_packet`. -/
def ipv4_gre_teb_ipv6_udp_packet : List Nat :=
  [0x45, 0, 0, 134, 0, 0, 0, 0, 64, 47, 0, 0, 10, 0, 0, 1, 10, 0, 0, 2] ++
  [0xA0, 0x00, 0x65, 0x58] ++ [0, 0, 0, 0] ++ [0xDE, 0xAD, 0xBE, 0xEF] ++
  [1, 2, 3, 4, 5, 6, 7, 8, 9, 10, 11, 12, 0x86, 0xDD] ++
  ipv6_udp_packet

/-- An IPv4 packet preceded by one 802.1Q tag, VLAN id 5. -/
def vlan_ipv4_udp_packet : List Nat := [0x00, 0x05, 0x08, 0x00] ++ ipv4_udp_packet

/-- An IPv4 packet preceded by two stacked 802.1Q tags, VLAN id 5 outside and
VLAN id 7 inside. -/
def qinq_ipv4_udp_packet : List Nat :=
  [0x00, 0x05, 0x81, 0x00] ++ [0x00, 0x07, 0x08, 0x00] ++ ipv4_udp_packet

/-- A fragment: an IPv4 header with the more-fragments bit set, protocol GRE,
followed by 8 bytes. -/
def ipv4_fragment_packet : List Nat :=
  [0x45, 0, 0, 28, 0, 0, 0x20, 0, 64, 47, 0, 0, 10, 0, 0, 1, 10, 0, 0, 129,
   0x12, 0x34, 0, 0x35, 0, 8, 0, 0]

/-! ## Hash of a packet and payload offset -/

/-- Modelled from the spec: `sizeof(struct tcphdr)`. -/
def sizeof_tcphdr : Nat := 20

/-- Modelled from the spec: `sizeof(struct udphdr)`. -/
def sizeof_udphdr : Nat := 8

/-- Modelled from the spec: `sizeof(struct icmphdr)`. -/
def sizeof_icmphdr : Nat := 8

/-- Modelled from the spec: `sizeof(struct icmp6hdr)`. -/
def sizeof_icmp6hdr : Nat := 8

/-- Modelled from the spec: `sizeof(struct igmphdr)`. -/
def sizeof_igmphdr : Nat := 8

/-- Modelled from the spec: `sizeof(struct dccp_hdr)`. -/
def sizeof_dccp_hdr : Nat := 12

/-- Modelled from the spec: `sizeof(struct sctphdr)`. -/
def sizeof_sctphdr : Nat := 12

/-- What a call of `__skb_flow_dissect` finds outside its arguments: the
content of its stack frame where the locals `ip_proto` and `_opthdr` lie, the
table `proto_ports_offset` and the helper `skb_vlan_tag_get_id`. -/
structure dissect_env where
  ip_proto : Nat
  _opthdr : Nat × Nat
  ports_offset : Nat → Option Nat
  skb_vlan_tag_get_id : sk_buff → Nat

/-- Modelled from the spec: the inline function `skb_flow_dissect_flow_keys` of
`net/flow_dissector.h`, which zeroes `flow` and returns
`__skb_flow_dissect(skb, &flow_keys_dissector, flow, NULL, 0, 0, 0)`. -/
def skb_flow_dissect_flow_keys (env : dissect_env) (skb : sk_buff) (fuel : Nat) :
    Option outcome :=
  __skb_flow_dissect
    { flow_keys_call skb with
      ip_proto := env.ip_proto, _opthdr := env._opthdr, ports_offset := env.ports_offset,
      skb_vlan_tag_get_id := env.skb_vlan_tag_get_id } fuel

/-- The function `flow_hash_from_keys`; `hashrnd` is the random seed that
`__flow_hash_secret_init` has drawn. The result is the hash, and the keys as
the call leaves them. -/
def flow_hash_from_keys (le : Bool) (jhash2 : List Nat → Nat → Nat) (hashrnd : Nat)
    (keys : flow_keys) : Nat × flow_keys :=
  __flow_hash_from_keys le jhash2 keys hashrnd

/-- The function `___skb_get_hash`: the value it returns and the keys as it
leaves them; `none` when the dissection has not returned after `fuel` steps. -/
def ___skb_get_hash (le : Bool) (jhash2 : List Nat → Nat → Nat) (env : dissect_env)
    (skb : sk_buff) (keyval : Nat) (fuel : Nat) : Option (Nat × flow_keys) :=
  match skb_flow_dissect_flow_keys env skb fuel with
  | some (.returned false keys) => some (0, keys)
  | some (.returned true keys) => some (__flow_hash_from_keys le jhash2 keys keyval)
  | _ => none

/-- The function `__skb_get_hash`: the `skb` as the call leaves it; `none` when
the dissection has not returned after `fuel` steps. -/
def __skb_get_hash (le : Bool) (jhash2 : List Nat → Nat → Nat) (env : dissect_env)
    (hashrnd : Nat) (skb : sk_buff) (fuel : Nat) : Option sk_buff :=
  match ___skb_get_hash le jhash2 env skb hashrnd fuel with
  | none => none
  | some (hash, keys) =>
    if hash = 0 then some skb
    else
      let skb := if keys.ports.ports ≠ 0 then { skb with l4_hash := 1 } else skb
      let skb := { skb with sw_hash := 1 }
      some { skb with hash := hash }

/-- The function `__skb_get_poff`; `poff` is a `u32`. -/
def __skb_get_poff (skb : Option sk_buff) (data : Nat → Nat) (keys : flow_keys)
    (hlen : Nat) : Nat :=
  let poff := keys.control.thoff
  if keys.basic.ip_proto = IPPROTO_TCP then
    match (__skb_header_pointer skb (poff + 12) 1 data hlen).bytes with
    | none => poff
    | some doff => (poff + max sizeof_tcphdr ((u8_at doff 0 &&& 0xF0) >>> 2)) % 4294967296
  else if keys.basic.ip_proto = IPPROTO_UDP ∨ keys.basic.ip_proto = IPPROTO_UDPLITE then
    (poff + sizeof_udphdr) % 4294967296
  else if keys.basic.ip_proto = IPPROTO_ICMP then (poff + sizeof_icmphdr) % 4294967296
  else if keys.basic.ip_proto = IPPROTO_ICMPV6 then (poff + sizeof_icmp6hdr) % 4294967296
  else if keys.basic.ip_proto = IPPROTO_IGMP then (poff + sizeof_igmphdr) % 4294967296
  else if keys.basic.ip_proto = IPPROTO_DCCP then (poff + sizeof_dccp_hdr) % 4294967296
  else if keys.basic.ip_proto = IPPROTO_SCTP then (poff + sizeof_sctphdr) % 4294967296
  else poff

/-- The function `skb_get_poff`; `none` when the dissection has not returned
after `fuel` steps. -/
def skb_get_poff (env : dissect_env) (skb : sk_buff) (fuel : Nat) : Option Nat :=
  match skb_flow_dissect_flow_keys env skb fuel with
  | some (.returned false _) => some 0
  | some (.returned true keys) => some (__skb_get_poff (some skb) skb.data keys skb.headlen)
  | _ => none

/-- The stack frame that holds zeros, the table of the spec and the sample value
of the helper `skb_vlan_tag_get_id`. -/
def zero_env : dissect_env := ⟨0, (0, 0), proto_ports_offset, vlan_tci_id⟩

/-- Two keys hold the same bytes in the range that is hashed: the members from
`basic` to `ports`, and the variant of the address union that the address type
selects. -/
def same_hashed (k k' : flow_keys) : Prop :=
  k.control.addr_type = k'.control.addr_type ∧ k.basic = k'.basic ∧ k.tags = k'.tags ∧
  k.keyid = k'.keyid ∧ k.ports = k'.ports ∧
  (k.control.addr_type = FLOW_DISSECTOR_KEY_IPV4_ADDRS.val →
    k.addrs.a0 = k'.addrs.a0 ∧ k.addrs.a1 = k'.addrs.a1) ∧
  (k.control.addr_type = FLOW_DISSECTOR_KEY_IPV6_ADDRS.val → k.addrs = k'.addrs) ∧
  (k.control.addr_type = FLOW_DISSECTOR_KEY_TIPC_ADDRS.val → k.addrs.a0 = k'.addrs.a0)

/-! ## More sample packets -/

/-- An IPv4 packet 10.0.0.1 to 10.0.0.129 that carries TCP, ports 4660 to 80,
data offset 8 (a TCP header of 32 bytes). -/
def ipv4_tcp_packet : List Nat :=
  [0x45, 0, 0, 52, 0, 0, 0, 0, 64, 6, 0, 0, 10, 0, 0, 1, 10, 0, 0, 129] ++
  [0x12, 0x34, 0, 80, 0, 0, 0, 1, 0, 0, 0, 0, 0x80, 0x10, 0xff, 0xff, 0, 0, 0, 0] ++
  [1, 1, 8, 10, 0, 0, 0, 1, 0, 0, 0, 2]

/-- An IPv4 header (protocol GRE) followed by a GRE header of version 1 and a
UDP header. -/
def ipv4_gre_v1_packet : List Nat :=
  [0x45, 0, 0, 32, 0, 0, 0, 0, 64, 47, 0, 0, 10, 0, 0, 1, 10, 0, 0, 129] ++
  [0x00, 0x01, 0x08, 0x00] ++ [0x12, 0x34, 0, 0x35, 0, 8, 0, 0]

/-- A dissector for the control and basic keys and the MPLS entropy key, the
latter stored in the member `keyid`. -/
def mpls_entropy_dissector : flow_dissector :=
  (skb_flow_dissector_init ⟨0, fun _ => 0⟩
    [⟨FLOW_DISSECTOR_KEY_CONTROL, 0⟩, ⟨FLOW_DISSECTOR_KEY_BASIC, 4⟩,
     ⟨FLOW_DISSECTOR_KEY_MPLS_ENTROPY, 12⟩]).getD ⟨0, fun _ => 0⟩

/-- A PPPoE session header (version 1, type 1, session 1) with the given PPP
protocol id. -/
def pppoe_header (ppp_proto : Nat) : List Nat :=
  [0x11, 0, 0, 1, 0, 58, ppp_proto / 256, ppp_proto % 256]

/-- An `skb` that holds a packet, with only its first `headlen` bytes in the
linear part, and the network header at `network_offset`. -/
def paged_skb (packet : List Nat) (protocol network_offset headlen : Nat) : sk_buff :=
  { linear_skb packet protocol with network_offset := network_offset, headlen := headlen }

/-- An IPv4 packet preceded by one 802.1Q tag, VLAN id 7. -/
def vlan7_ipv4_udp_packet : List Nat := [0x00, 0x07, 0x08, 0x00] ++ ipv4_udp_packet

/-- The call `__skb_flow_dissect(skb, &flow_keys_dissector, flow, data,
htons(ETH_P_8021Q), 0, hlen)` on a zeroed `flow`, on a stack that holds zeros:
the packet bytes are those of the buffer `data`, which starts with a VLAN tag;
`get_id` is the helper `skb_vlan_tag_get_id`. -/
def flow_keys_vlan_data_call (get_id : sk_buff → Nat) (skb : sk_buff) (packet : List Nat) :
    dissect_args :=
  { flow_keys_call skb with
    data := some (buffer packet), proto := ETH_P_8021Q, nhoff := 0, hlen := packet.length,
    skb_vlan_tag_get_id := get_id }

/-! # Theorems -/

/-! ## Lemmas on the key registry -/

theorem key_id_val_injective (k k' : flow_dissector_key_id) (h : k.val = k'.val) : k = k' := by
  cases k <;> cases k' <;> first | rfl | (exact absurd h (by decide))

theorem uses_key_eq_testBit (fd : flow_dissector) (k : flow_dissector_key_id) :
    skb_flow_dissector_uses_key fd k = fd.used_keys.testBit k.val := by
  unfold skb_flow_dissector_uses_key
  rw [Nat.one_shiftLeft, Nat.and_two_pow]
  cases h : fd.used_keys.testBit k.val <;> simp

theorem uses_key_set_key (fd : flow_dissector) (k k' : flow_dissector_key_id) :
    skb_flow_dissector_uses_key (skb_flow_dissector_set_key fd k) k'
      = (skb_flow_dissector_uses_key fd k' || decide (k' = k)) := by
  simp only [uses_key_eq_testBit, skb_flow_dissector_set_key, Nat.one_shiftLeft,
    Nat.testBit_or, Nat.testBit_two_pow]
  congr 1
  by_cases h : k' = k
  · simp [h]
  · have : k.val ≠ k'.val := fun e => h (key_id_val_injective _ _ e.symm)
    simp [h, this]

theorem init_loop_some (keys : List flow_dissector_key) :
    ∀ fd : flow_dissector,
    (skb_flow_dissector_init_loop fd keys).isSome = true ↔
      ((∀ d ∈ keys, d.offset ≤ 65535) ∧ (keys.map (·.key_id)).Nodup ∧
        ∀ d ∈ keys, skb_flow_dissector_uses_key fd d.key_id = false) := by
  induction keys with
  | nil => intro fd; simp [skb_flow_dissector_init_loop]
  | cons d rest ih =>
    intro fd
    unfold skb_flow_dissector_init_loop
    by_cases h1 : d.offset > USHRT_MAX
    · simp only [h1, if_true]
      simp only [USHRT_MAX] at h1
      simp
      intro h; omega
    · rw [if_neg h1]
      simp only [USHRT_MAX, not_lt] at h1
      by_cases h2 : skb_flow_dissector_uses_key fd d.key_id = true
      · simp [h2]
      · rw [if_neg h2]
        simp only [Bool.not_eq_true] at h2
        rw [ih]
        have hu : ∀ k, skb_flow_dissector_uses_key
            { skb_flow_dissector_set_key fd d.key_id with
              offset := fun k => if k = d.key_id then d.offset % 65536
                else (skb_flow_dissector_set_key fd d.key_id).offset k } k
            = (skb_flow_dissector_uses_key fd k || decide (k = d.key_id)) := by
          intro k
          rw [← uses_key_set_key]
          rfl
        simp only [hu, List.map_cons, List.nodup_cons, List.mem_cons, forall_eq_or_imp,
          Bool.or_eq_false_iff, decide_eq_false_iff_not, List.mem_map, not_exists, not_and]
        constructor
        · rintro ⟨a, b, c⟩
          refine ⟨⟨h1, a⟩, ⟨?_, b⟩, h2, fun x hx => (c x hx).1⟩
          intro x hx e
          exact (c x hx).2 e
        · rintro ⟨⟨_, a⟩, ⟨n, b⟩, _, c⟩
          exact ⟨a, b, fun x hx => ⟨c x hx, fun e => n x hx e⟩⟩

theorem init_loop_spec (keys : List flow_dissector_key) :
    ∀ fd fd' : flow_dissector, skb_flow_dissector_init_loop fd keys = some fd' →
      (∀ k, skb_flow_dissector_uses_key fd' k
          = (skb_flow_dissector_uses_key fd k || decide (k ∈ keys.map (·.key_id)))) ∧
      (∀ d ∈ keys, fd'.offset d.key_id = d.offset) ∧
      (∀ k, k ∉ keys.map (·.key_id) → fd'.offset k = fd.offset k) := by
  induction keys with
  | nil =>
    intro fd fd' h
    simp only [skb_flow_dissector_init_loop, Option.some.injEq] at h
    subst h
    simp
  | cons d rest ih =>
    intro fd fd' h
    have hs := (init_loop_some (d :: rest) fd).1 (by rw [h]; rfl)
    obtain ⟨hoff, hnd, _⟩ := hs
    unfold skb_flow_dissector_init_loop at h
    split at h
    · exact absurd h (by simp)
    · split at h
      · exact absurd h (by simp)
      · obtain ⟨i1, i2, i3⟩ := ih _ _ h
        have hu : ∀ k, skb_flow_dissector_uses_key
            { skb_flow_dissector_set_key fd d.key_id with
              offset := fun k => if k = d.key_id then d.offset % 65536
                else (skb_flow_dissector_set_key fd d.key_id).offset k } k
            = (skb_flow_dissector_uses_key fd k || decide (k = d.key_id)) := by
          intro k
          rw [← uses_key_set_key]
          rfl
        have hd : d.key_id ∉ rest.map (·.key_id) := (List.nodup_cons.1 hnd).1
        have hdo : d.offset % 65536 = d.offset :=
          Nat.mod_eq_of_lt (by have := hoff d (List.mem_cons_self _ _); omega)
        refine ⟨?_, ?_, ?_⟩
        · intro k
          rw [i1, hu]
          by_cases e : k = d.key_id <;> simp [e, Bool.or_assoc]
        · intro x hx
          rcases List.mem_cons.1 hx with rfl | hx
          · rw [i3 _ hd]; simpa using hdo
          · exact i2 x hx
        · intro k hk
          simp only [List.map_cons, List.mem_cons, not_or] at hk
          rw [i3 k hk.2]
          simp [hk.1, skb_flow_dissector_set_key]

theorem uses_key_zeroed (k : flow_dissector_key_id) :
    skb_flow_dissector_uses_key { used_keys := 0, offset := fun _ => 0 } k = false := by
  simp [uses_key_eq_testBit]

/-! ## Lemmas on the hash canonicaliser -/

theorem memcmp_antisymm (a : List Nat) : ∀ b : List Nat, memcmp a b = - memcmp b a := by
  induction a with
  | nil => intro b; cases b <;> simp [memcmp]
  | cons x xs ih =>
    intro b
    cases b with
    | nil => simp [memcmp]
    | cons y ys =>
      simp only [memcmp]
      by_cases h : x = y
      · simp [h, ih ys]
      · have h' : ¬ y = x := fun e => h e.symm
        simp [h, h']

theorem memcmp_eq_zero (a : List Nat) :
    ∀ b : List Nat, a.length = b.length → memcmp a b = 0 → a = b := by
  induction a with
  | nil => intro b hl _; cases b <;> simp_all
  | cons x xs ih =>
    intro b hl h
    cases b with
    | nil => simp at hl
    | cons y ys =>
      simp only [memcmp] at h
      by_cases e : x = y
      · simp only [e, if_true] at h
        rw [e, ih ys (by simpa using hl) h]
      · simp only [e, if_false] at h
        omega

theorem force_u16_inj (le : Bool) (x y : Nat) (hx : x < 65536) (hy : y < 65536)
    (h : force_u16 le x = force_u16 le y) : x = y := by
  cases le <;> simp only [force_u16, load_u16] at h <;> simp at h <;> omega

theorem v6_bytes_inj (a b c d a' b' c' d' : Nat)
    (ha : a < 4294967296) (hb : b < 4294967296) (hc : c < 4294967296) (hd : d < 4294967296)
    (ha' : a' < 4294967296) (hb' : b' < 4294967296) (hc' : c' < 4294967296)
    (hd' : d' < 4294967296)
    (h : be32_bytes a ++ be32_bytes b ++ be32_bytes c ++ be32_bytes d
       = be32_bytes a' ++ be32_bytes b' ++ be32_bytes c' ++ be32_bytes d') :
    a = a' ∧ b = b' ∧ c = c' ∧ d = d' := by
  simp only [be32_bytes, List.cons_append, List.nil_append, List.cons.injEq, and_true] at h
  omega

theorem consistentify_reverse_v6 (le : Bool) (k : flow_keys) (hwf : k.wf)
    (ht : k.control.addr_type = FLOW_DISSECTOR_KEY_IPV6_ADDRS.val) :
    __flow_hash_consistentify le k = __flow_hash_consistentify le k.reverse_v6 := by
  obtain ⟨control, basic, tags, keyid, ports, addrs, eth⟩ := k
  obtain ⟨a0, a1, a2, a3, a4, a5, a6, a7⟩ := addrs
  obtain ⟨src, dst⟩ := ports
  simp only [flow_keys.wf] at hwf
  simp only at ht
  have h43 : ¬ (FLOW_DISSECTOR_KEY_IPV6_ADDRS.val = FLOW_DISSECTOR_KEY_IPV4_ADDRS.val) := by
    decide
  simp only [__flow_hash_consistentify, flow_keys.reverse_v6, ht, h43, if_false, if_true,
    flow_dissector_key_addrs.v6dst_bytes, flow_dissector_key_addrs.v6src_bytes]
  generalize hA : be32_bytes a0 ++ be32_bytes a1 ++ be32_bytes a2 ++ be32_bytes a3 = A
  generalize hB : be32_bytes a4 ++ be32_bytes a5 ++ be32_bytes a6 ++ be32_bytes a7 = B
  have hanti := memcmp_antisymm B A
  have hlen : B.length = A.length := by
    rw [← hA, ← hB]; simp [be32_bytes]
  rcases lt_trichotomy (memcmp B A) 0 with hlt | heq | hgt
  · have h1 : ¬ (memcmp A B < 0) := by omega
    have h2 : ¬ (memcmp A B = 0) := by omega
    simp [hlt, h1, h2]
  · have hAB : B = A := memcmp_eq_zero B A hlen heq
    have h0 : memcmp A B = 0 := by omega
    rw [← hA, ← hB] at hAB
    obtain ⟨e0, e1, e2, e3⟩ := v6_bytes_inj _ _ _ _ _ _ _ _
      (by omega) (by omega) (by omega) (by omega) (by omega) (by omega) (by omega) (by omega) hAB
    subst e0 e1 e2 e3
    simp only [heq, h0, lt_self_iff_false, true_and, false_or]
    rcases lt_trichotomy (force_u16 le dst) (force_u16 le src) with p | p | p
    · have : ¬ (force_u16 le src < force_u16 le dst) := by omega
      simp [p, this]
    · have e : dst = src := force_u16_inj le _ _ (by omega) (by omega) p
      subst e
      simp
    · have : ¬ (force_u16 le dst < force_u16 le src) := by omega
      simp [p, this]
  · have h1 : memcmp A B < 0 := by omega
    have h2 : ¬ (memcmp B A < 0) := by omega
    have h3 : ¬ (memcmp B A = 0) := by omega
    simp [h1, h2, h3]

/-! ## Lemmas on the protocol walker -/

theorem frame_dissect_ip (a : dissect_args) (t0 : flow_keys) (s : walk)
    (h : frame a t0 s.target) : frame a t0 (dissect_ip a s).target := by
  simp only [dissect_ip, walk.header]
  repeat' split
  all_goals simp_all [frame]

theorem frame_dissect_ipv6 (a : dissect_args) (t0 : flow_keys) (s : walk)
    (h : frame a t0 s.target) : frame a t0 (dissect_ipv6 a s).target := by
  simp only [dissect_ipv6, walk.header]
  repeat' split
  all_goals simp_all [frame]

theorem frame_dissect_vlan (a : dissect_args) (t0 : flow_keys) (s : walk)
    (h : frame a t0 s.target) : frame a t0 (dissect_vlan a s).target := by
  simp only [dissect_vlan, walk.header]
  repeat' split
  all_goals simp_all [frame]

theorem frame_dissect_pppoe (a : dissect_args) (t0 : flow_keys) (s : walk)
    (h : frame a t0 s.target) : frame a t0 (dissect_pppoe a s).target := by
  simp only [dissect_pppoe, walk.header]
  repeat' split
  all_goals simp_all [frame]

theorem frame_dissect_tipc (a : dissect_args) (t0 : flow_keys) (s : walk)
    (h : frame a t0 s.target) : frame a t0 (dissect_tipc a s).target := by
  simp only [dissect_tipc, walk.header]
  repeat' split
  all_goals simp_all [frame]

theorem frame_dissect_mpls (a : dissect_args) (t0 : flow_keys) (s : walk)
    (h : frame a t0 s.target) : frame a t0 (dissect_mpls a s).target := by
  simp only [dissect_mpls, walk.header]
  repeat' split
  all_goals simp_all [frame]

theorem frame_dissect_out (a : dissect_args) (t0 : flow_keys) (s : walk)
    (h : frame a t0 s.target) : frame a t0 (dissect_out a s).target := by
  simp only [dissect_out]
  repeat' split
  all_goals simp_all [frame]

theorem frame_dissect_gre_seq (a : dissect_args) (t0 : flow_keys) (flags : Nat) (s : walk)
    (h : frame a t0 s.target) : frame a t0 (dissect_gre_seq a flags s).target := by
  simp only [dissect_gre_seq, walk.header]
  repeat' split
  all_goals simp_all [frame]

theorem frame_dissect_gre (a : dissect_args) (t0 : flow_keys) (s : walk)
    (h : frame a t0 s.target) : frame a t0 (dissect_gre a s).target := by
  simp only [dissect_gre, walk.header]
  repeat' split
  all_goals first
    | exact h
    | (apply frame_dissect_out; exact h)
    | (apply frame_dissect_gre_seq; simp_all [frame])

theorem frame_dissect_opthdr (a : dissect_args) (t0 : flow_keys) (s : walk)
    (h : frame a t0 s.target) : frame a t0 (dissect_opthdr a s).target := by
  simp only [dissect_opthdr, walk.header]
  repeat' split
  all_goals first
    | exact h
    | (apply frame_dissect_out; exact h)

theorem frame_step (a : dissect_args) (t0 : flow_keys) (s : walk)
    (h : frame a t0 s.target) : frame a t0 (step a s).target := by
  simp only [step, dissect_again, dissect_ip_proto_again]
  repeat' split
  all_goals first
    | exact h
    | exact frame_dissect_ip a t0 s h
    | exact frame_dissect_ipv6 a t0 s h
    | exact frame_dissect_vlan a t0 s h
    | exact frame_dissect_pppoe a t0 s h
    | exact frame_dissect_tipc a t0 s h
    | exact frame_dissect_mpls a t0 s h
    | exact frame_dissect_gre a t0 s h
    | exact frame_dissect_opthdr a t0 s h
    | exact frame_dissect_out a t0 s h

theorem frame_run (a : dissect_args) (t0 : flow_keys) (n : Nat) :
    ∀ s : walk, frame a t0 s.target → frame a t0 (run a n s).target := by
  induction n with
  | zero => intro s h; exact h
  | succ n ih => intro s h; exact ih _ (frame_step a t0 s h)

theorem frame_dissect_start (a : dissect_args) :
    frame a a.target_container (dissect_start a).target := by
  simp only [dissect_start]
  repeat' split
  all_goals simp_all [frame]

/-! ### Failure leaves the basic key and the ports alone -/

theorem flow_get_ports_some (po : Nat → Option Nat) (skb : Option sk_buff)
    (thoff ip_proto : Nat) (d : Nat → Nat) (hlen : Nat) :
    __skb_flow_get_ports po skb thoff ip_proto (some d) hlen
      = some (match po ip_proto with
          | some o =>
            match (__skb_header_pointer skb (thoff + o) 4 d hlen).bytes with
            | some ports => be32_at ports 0
            | none => 0
          | none => 0) := by
  simp only [__skb_flow_get_ports]
  repeat' split
  all_goals simp_all

theorem keeps_dissect_ip (a : dissect_args) (t0 : flow_keys) (s : walk)
    (h : s.target.basic = t0.basic ∧ s.target.ports = t0.ports) :
    keeps t0 (dissect_ip a s) := by
  simp only [dissect_ip, walk.header]
  repeat' split
  all_goals simp_all [keeps]

theorem keeps_dissect_ipv6 (a : dissect_args) (t0 : flow_keys) (s : walk)
    (h : s.target.basic = t0.basic ∧ s.target.ports = t0.ports) :
    keeps t0 (dissect_ipv6 a s) := by
  simp only [dissect_ipv6, walk.header]
  repeat' split
  all_goals simp_all [keeps]

theorem keeps_dissect_vlan (a : dissect_args) (t0 : flow_keys) (s : walk)
    (h : s.target.basic = t0.basic ∧ s.target.ports = t0.ports) :
    keeps t0 (dissect_vlan a s) := by
  simp only [dissect_vlan, walk.header]
  repeat' split
  all_goals simp_all [keeps]

theorem keeps_dissect_pppoe (a : dissect_args) (t0 : flow_keys) (s : walk)
    (h : s.target.basic = t0.basic ∧ s.target.ports = t0.ports) :
    keeps t0 (dissect_pppoe a s) := by
  simp only [dissect_pppoe, walk.header]
  repeat' split
  all_goals simp_all [keeps]

theorem keeps_dissect_tipc (a : dissect_args) (t0 : flow_keys) (s : walk) :
    keeps t0 (dissect_tipc a s) ∨ (dissect_tipc a s).pc = .ret false ∧
      (dissect_tipc a s).target = s.target := by
  simp only [dissect_tipc, walk.header]
  repeat' split
  all_goals simp_all [keeps]

theorem keeps_dissect_mpls (a : dissect_args) (t0 : flow_keys) (s : walk)
    (h : s.target.basic = t0.basic ∧ s.target.ports = t0.ports) :
    keeps t0 (dissect_mpls a s) := by
  simp only [dissect_mpls, walk.header]
  repeat' split
  all_goals simp_all [keeps]

theorem keeps_dissect_out (a : dissect_args) (t0 : flow_keys) (s : walk) :
    keeps t0 (dissect_out a s) := by
  simp only [dissect_out, flow_get_ports_some]
  repeat' split
  all_goals simp_all [keeps]

theorem keeps_dissect_gre_seq (a : dissect_args) (t0 : flow_keys) (flags : Nat) (s : walk)
    (h : s.target.basic = t0.basic ∧ s.target.ports = t0.ports) :
    keeps t0 (dissect_gre_seq a flags s) := by
  simp only [dissect_gre_seq, walk.header]
  repeat' split
  all_goals simp_all [keeps]

theorem keeps_dissect_gre (a : dissect_args) (t0 : flow_keys) (s : walk)
    (h : s.target.basic = t0.basic ∧ s.target.ports = t0.ports) :
    keeps t0 (dissect_gre a s) := by
  simp only [dissect_gre, walk.header]
  repeat' split
  all_goals first
    | exact keeps_dissect_out a t0 _
    | (apply keeps_dissect_gre_seq; simp_all)
    | simp_all [keeps]

theorem keeps_dissect_opthdr (a : dissect_args) (t0 : flow_keys) (s : walk)
    (h : s.target.basic = t0.basic ∧ s.target.ports = t0.ports) :
    keeps t0 (dissect_opthdr a s) := by
  simp only [dissect_opthdr, walk.header]
  repeat' split
  all_goals first
    | exact keeps_dissect_out a t0 _
    | simp_all [keeps]

theorem keeps_step (a : dissect_args) (t0 : flow_keys) (s : walk) (h : keeps t0 s) :
    keeps t0 (step a s) := by
  rcases h with h | h
  · simp only [step, h]
    exact Or.inl h
  · simp only [step, dissect_again, dissect_ip_proto_again]
    repeat' split
    all_goals first
      | exact keeps_dissect_ip a t0 s h
      | exact keeps_dissect_ipv6 a t0 s h
      | exact keeps_dissect_vlan a t0 s h
      | exact keeps_dissect_pppoe a t0 s h
      | exact keeps_dissect_mpls a t0 s h
      | exact keeps_dissect_gre a t0 s h
      | exact keeps_dissect_opthdr a t0 s h
      | exact keeps_dissect_out a t0 _
      | (rcases keeps_dissect_tipc a t0 s with k | k
         · exact k
         · exact Or.inr (by rw [k.2]; exact h))
      | simp_all [keeps]

theorem keeps_run (a : dissect_args) (t0 : flow_keys) (n : Nat) :
    ∀ s : walk, keeps t0 s → keeps t0 (run a n s) := by
  induction n with
  | zero => intro s h; exact h
  | succ n ih => intro s h; exact ih _ (keeps_step a t0 s h)

theorem keeps_dissect_start (a : dissect_args) :
    keeps a.target_container (dissect_start a) := by
  simp only [dissect_start]
  repeat' split
  all_goals simp_all [keeps]

/-! ### Reads that fail -/

theorem clean_reads_nil : clean_reads [] := by
  simp [clean_reads]

theorem clean_reads_cons (x : header_read) (l : List header_read) :
    clean_reads (x :: l) ↔ (x.ok = false → x.what = .OPTHDR) ∧ clean_reads l := by
  simp [clean_reads]

theorem clean_reads_append (l1 l2 : List header_read) :
    clean_reads (l1 ++ l2) ↔ clean_reads l1 ∧ clean_reads l2 := by
  simp only [clean_reads, List.mem_append]
  constructor
  · intro h
    exact ⟨fun r hr => h r (Or.inl hr), fun r hr => h r (Or.inr hr)⟩
  · rintro ⟨h1, h2⟩ r (hr | hr)
    · exact h1 r hr
    · exact h2 r hr

theorem settled_dissect_ip (a : dissect_args) (s : walk) (h : clean s) :
    settled (dissect_ip a s) := by
  simp only [dissect_ip, walk.header]
  repeat' split
  all_goals
    intro r hr hok
    simp only [List.mem_append, List.mem_singleton] at hr
    rcases hr with hr | hr
    · exact Or.inl (h r hr hok)
    · subst hr; simp_all

theorem settled_dissect_ipv6 (a : dissect_args) (s : walk) (h : clean s) :
    settled (dissect_ipv6 a s) := by
  simp only [dissect_ipv6, walk.header]
  repeat' split
  all_goals
    intro r hr hok
    simp only [List.mem_append, List.mem_singleton] at hr
    rcases hr with hr | hr
    · exact Or.inl (h r hr hok)
    · subst hr; simp_all

theorem settled_dissect_vlan (a : dissect_args) (s : walk) (h : clean s) :
    settled (dissect_vlan a s) := by
  simp only [dissect_vlan, walk.header]
  repeat' split
  all_goals
    intro r hr hok
    simp only [List.mem_append, List.mem_singleton] at hr
    rcases hr with hr | hr
    · exact Or.inl (h r hr hok)
    · subst hr; simp_all

theorem settled_dissect_pppoe (a : dissect_args) (s : walk) (h : clean s) :
    settled (dissect_pppoe a s) := by
  simp only [dissect_pppoe, walk.header]
  repeat' split
  all_goals
    intro r hr hok
    simp only [List.mem_append, List.mem_singleton] at hr
    rcases hr with hr | hr
    · exact Or.inl (h r hr hok)
    · subst hr; simp_all

theorem settled_dissect_tipc (a : dissect_args) (s : walk) (h : clean s) :
    settled (dissect_tipc a s) := by
  simp only [dissect_tipc, walk.header]
  repeat' split
  all_goals
    intro r hr hok
    simp only [List.mem_append, List.mem_singleton] at hr
    rcases hr with hr | hr
    · exact Or.inl (h r hr hok)
    · subst hr; simp_all

theorem settled_dissect_mpls (a : dissect_args) (s : walk) (h : clean s) :
    settled (dissect_mpls a s) := by
  simp only [dissect_mpls, walk.header]
  repeat' split
  all_goals
    intro r hr hok
    simp only [List.mem_append, List.mem_singleton] at hr
    rcases hr with hr | hr
    · exact Or.inl (h r hr hok)
    · subst hr; simp_all

theorem settled_dissect_out (a : dissect_args) (s : walk) (h : clean s) :
    settled (dissect_out a s) := by
  simp only [dissect_out, flow_get_ports_some]
  repeat' split
  all_goals
    intro r hr hok
    first
      | exact Or.inl (h r hr hok)
      | (simp only [List.mem_append, List.mem_singleton] at hr
         rcases hr with hr | hr
         · exact Or.inl (h r hr hok)
         · subst hr; simp_all)

theorem settled_dissect_gre_seq (a : dissect_args) (flags : Nat) (s : walk) (h : clean s) :
    settled (dissect_gre_seq a flags s) := by
  simp only [dissect_gre_seq, walk.header]
  repeat' split
  all_goals
    intro r hr hok
    first
      | exact Or.inl (h r hr hok)
      | (simp only [List.mem_append, List.mem_singleton] at hr
         rcases hr with hr | hr
         · exact Or.inl (h r hr hok)
         · subst hr; simp_all)

theorem settled_dissect_gre (a : dissect_args) (s : walk) (h : clean s) :
    settled (dissect_gre a s) := by
  simp only [dissect_gre, walk.header]
  repeat' split
  all_goals first
    | (apply settled_dissect_out
       simp only [clean, clean_reads_append, clean_reads_cons] at *
       simp_all [clean_reads_nil])
    | (apply settled_dissect_gre_seq
       simp only [clean, clean_reads_append, clean_reads_cons] at *
       simp_all [clean_reads_nil])
    | (intro r hr hok
       simp only [List.mem_append, List.mem_singleton] at hr
       rcases hr with (hr | hr) | hr
       · exact Or.inl (h r hr hok)
       · subst hr; simp_all
       · subst hr; simp_all)
    | (intro r hr hok
       simp only [List.mem_append, List.mem_singleton] at hr
       rcases hr with hr | hr
       · exact Or.inl (h r hr hok)
       · subst hr; simp_all)

theorem settled_dissect_opthdr (a : dissect_args) (s : walk) (h : clean s) :
    settled (dissect_opthdr a s) := by
  simp only [dissect_opthdr, walk.header]
  repeat' split
  all_goals first
    | exact settled_dissect_out a _ h
    | (intro r hr hok
       simp only [List.mem_append, List.mem_singleton] at hr
       rcases hr with hr | hr
       · exact Or.inl (h r hr hok)
       · subst hr; simp_all)

theorem clean_of_settled (s : walk) (h : settled s) (h1 : s.pc ≠ .ret false)
    (h2 : s.pc ≠ .ret true) : clean s := by
  intro r hr hok
  rcases h r hr hok with k | k | k
  · exact k
  · exact absurd k.2 h1
  · exact absurd k.2.1 h2

theorem settled_step (a : dissect_args) (s : walk) (h : settled s) :
    settled (step a s) := by
  by_cases h1 : s.pc = .ret false
  · simp only [step, h1]; exact h
  · by_cases h2 : s.pc = .ret true
    · simp only [step, h2]; exact h
    · have c := clean_of_settled s h h1 h2
      simp only [step, dissect_again, dissect_ip_proto_again]
      repeat' split
      all_goals first
        | exact settled_dissect_ip a s c
        | exact settled_dissect_ipv6 a s c
        | exact settled_dissect_vlan a s c
        | exact settled_dissect_pppoe a s c
        | exact settled_dissect_tipc a s c
        | exact settled_dissect_mpls a s c
        | exact settled_dissect_gre a s c
        | exact settled_dissect_opthdr a s c
        | exact settled_dissect_out a _ c
        | exact h
        | (intro r hr hok; exact Or.inl (c r hr hok))

theorem settled_run (a : dissect_args) (n : Nat) :
    ∀ s : walk, settled s → settled (run a n s) := by
  induction n with
  | zero => intro s h; exact h
  | succ n ih => intro s h; exact ih _ (settled_step a s h)

theorem settled_dissect_start (a : dissect_args) : settled (dissect_start a) := by
  simp only [dissect_start]
  repeat' split
  all_goals simp_all [settled]

/-! ### The bytes that are looked at -/

theorem get_bytes_agree (d1 d2 : Nat → Nat) (hlen offset len : Nat)
    (hag : ∀ i, i < hlen → d1 i = d2 i) (h : offset + len ≤ hlen) :
    get_bytes d1 offset len = get_bytes d2 offset len := by
  simp only [get_bytes]
  apply List.map_congr_left
  intro i hi
  rw [hag (offset + i) (by have := List.mem_range.1 hi; omega)]

theorem header_pointer_agree (skb : Option sk_buff) (d1 d2 : Nat → Nat) (hlen : Nat)
    (hag : ∀ i, i < hlen → d1 i = d2 i) (offset len : Nat) :
    __skb_header_pointer skb offset len d1 hlen = __skb_header_pointer skb offset len d2 hlen := by
  simp only [__skb_header_pointer]
  by_cases h : offset + len ≤ hlen
  · simp only [h, if_true, get_bytes_agree d1 d2 hlen offset len hag h]
  · simp only [h, if_false]

theorem step_agree (a : dissect_args) (d1 d2 : Nat → Nat)
    (hag : ∀ i, i < a.hlen → d1 i = d2 i) (s : walk) :
    step { a with data := some d1 } s = step { a with data := some d2 } s := by
  have hp := header_pointer_agree a.skb d1 d2 a.hlen hag
  simp only [step, dissect_again, dissect_ip_proto_again, dissect_ip, dissect_ipv6, dissect_vlan,
    dissect_pppoe, dissect_tipc, dissect_mpls, dissect_out, dissect_gre, dissect_gre_seq,
    dissect_opthdr, walk.header, dissect_args.buf, dissect_args.buflen, dissect_args.uses,
    flow_get_ports_some, hp]

theorem run_agree (a : dissect_args) (d1 d2 : Nat → Nat)
    (hag : ∀ i, i < a.hlen → d1 i = d2 i) (n : Nat) :
    ∀ s : walk, run { a with data := some d1 } n s = run { a with data := some d2 } n s := by
  induction n with
  | zero => intro s; rfl
  | succ n ih => intro s; simp only [run]; rw [step_agree a d1 d2 hag s, ih]

theorem dissect_start_agree (a : dissect_args) (d1 d2 : Nat → Nat) :
    dissect_start { a with data := some d1 } = dissect_start { a with data := some d2 } := by
  simp only [dissect_start, dissect_args.uses]

theorem within_reads_nil (L : Nat) : within_reads L [] := by
  simp [within_reads]

theorem within_reads_cons (L : Nat) (x : header_read) (l : List header_read) :
    within_reads L (x :: l) ↔ (x.ok = true → x.offset + x.len ≤ L) ∧ within_reads L l := by
  simp [within_reads]

theorem within_reads_append (L : Nat) (l1 l2 : List header_read) :
    within_reads L (l1 ++ l2) ↔ within_reads L l1 ∧ within_reads L l2 := by
  simp only [within_reads, List.mem_append]
  constructor
  · intro h
    exact ⟨fun r hr => h r (Or.inl hr), fun r hr => h r (Or.inr hr)⟩
  · rintro ⟨h1, h2⟩ r (hr | hr)
    · exact h1 r hr
    · exact h2 r hr

theorem header_pointer_within (a : dissect_args) (hc : contiguous a) (offset len : Nat)
    (h : (__skb_header_pointer a.skb offset len a.buf a.buflen).bytes.isSome = true) :
    offset + len ≤ a.buflen := by
  by_cases hl : offset + len ≤ a.buflen
  · exact hl
  · exfalso
    simp only [__skb_header_pointer, hl, if_false] at h
    cases hs : a.skb with
    | none => simp [hs, header_pointer.bytes] at h
    | some skb =>
      have := hc skb hs
      have hn : ¬ offset + len ≤ skb.len := by omega
      simp [hs, skb_copy_bits, hn, header_pointer.bytes] at h

theorem within_dissect_ip (a : dissect_args) (hc : contiguous a) (s : walk)
    (h : within_reads a.buflen s.reads) :
    within_reads a.buflen (dissect_ip a s).reads := by
  have key := header_pointer_within a hc
  simp only [dissect_ip, walk.header]
  repeat' split
  all_goals first
    | exact h
    | (simp only [within_reads_append, within_reads_cons, within_reads_nil, and_true]
       repeat' constructor
       all_goals first | exact h | exact key _ _)

theorem within_dissect_ipv6 (a : dissect_args) (hc : contiguous a) (s : walk)
    (h : within_reads a.buflen s.reads) :
    within_reads a.buflen (dissect_ipv6 a s).reads := by
  have key := header_pointer_within a hc
  simp only [dissect_ipv6, walk.header]
  repeat' split
  all_goals first
    | exact h
    | (simp only [within_reads_append, within_reads_cons, within_reads_nil, and_true]
       repeat' constructor
       all_goals first | exact h | exact key _ _)

theorem within_dissect_vlan (a : dissect_args) (hc : contiguous a) (s : walk)
    (h : within_reads a.buflen s.reads) :
    within_reads a.buflen (dissect_vlan a s).reads := by
  have key := header_pointer_within a hc
  simp only [dissect_vlan, walk.header]
  repeat' split
  all_goals first
    | exact h
    | (simp only [within_reads_append, within_reads_cons, within_reads_nil, and_true]
       repeat' constructor
       all_goals first | exact h | exact key _ _)

theorem within_dissect_pppoe (a : dissect_args) (hc : contiguous a) (s : walk)
    (h : within_reads a.buflen s.reads) :
    within_reads a.buflen (dissect_pppoe a s).reads := by
  have key := header_pointer_within a hc
  simp only [dissect_pppoe, walk.header]
  repeat' split
  all_goals first
    | exact h
    | (simp only [within_reads_append, within_reads_cons, within_reads_nil, and_true]
       repeat' constructor
       all_goals first | exact h | exact key _ _)

theorem within_dissect_tipc (a : dissect_args) (hc : contiguous a) (s : walk)
    (h : within_reads a.buflen s.reads) :
    within_reads a.buflen (dissect_tipc a s).reads := by
  have key := header_pointer_within a hc
  simp only [dissect_tipc, walk.header]
  repeat' split
  all_goals first
    | exact h
    | (simp only [within_reads_append, within_reads_cons, within_reads_nil, and_true]
       repeat' constructor
       all_goals first | exact h | exact key _ _)

theorem within_dissect_mpls (a : dissect_args) (hc : contiguous a) (s : walk)
    (h : within_reads a.buflen s.reads) :
    within_reads a.buflen (dissect_mpls a s).reads := by
  have key := header_pointer_within a hc
  simp only [dissect_mpls, walk.header]
  repeat' split
  all_goals first
    | exact h
    | (simp only [within_reads_append, within_reads_cons, within_reads_nil, and_true]
       repeat' constructor
       all_goals first | exact h | exact key _ _)

theorem within_dissect_gre_seq (a : dissect_args) (hc : contiguous a) (flags : Nat) (s : walk)
    (h : within_reads a.buflen s.reads) :
    within_reads a.buflen (dissect_gre_seq a flags s).reads := by
  have key := header_pointer_within a hc
  simp only [dissect_gre_seq, walk.header]
  repeat' split
  all_goals first
    | exact h
    | (simp only [within_reads_append, within_reads_cons, within_reads_nil, and_true]
       repeat' constructor
       all_goals first | exact h | exact key _ _)

theorem within_dissect_out (a : dissect_args) (hc : contiguous a) (s : walk)
    (h : within_reads a.buflen s.reads) :
    within_reads a.buflen (dissect_out a s).reads := by
  have key := header_pointer_within a hc
  simp only [dissect_out, flow_get_ports_some]
  repeat' split
  all_goals first
    | exact h
    | (simp only [within_reads_append, within_reads_cons, within_reads_nil, and_true]
       repeat' constructor
       all_goals first | exact h | exact key _ _)

theorem within_dissect_gre (a : dissect_args) (hc : contiguous a) (s : walk)
    (h : within_reads a.buflen s.reads) :
    within_reads a.buflen (dissect_gre a s).reads := by
  have key := header_pointer_within a hc
  simp only [dissect_gre, walk.header]
  repeat' split
  all_goals first
    | exact h
    | (first | apply within_dissect_out a hc | apply within_dissect_gre_seq a hc | skip
       simp only [within_reads_append, within_reads_cons, within_reads_nil, and_true]
       repeat' constructor
       all_goals first | exact h | exact key _ _)

theorem within_dissect_opthdr (a : dissect_args) (hc : contiguous a) (s : walk)
    (h : within_reads a.buflen s.reads) :
    within_reads a.buflen (dissect_opthdr a s).reads := by
  have key := header_pointer_within a hc
  simp only [dissect_opthdr, walk.header]
  repeat' split
  all_goals first
    | exact h
    | exact within_dissect_out a hc _ h
    | (simp only [within_reads_append, within_reads_cons, within_reads_nil, and_true]
       repeat' constructor
       all_goals first | exact h | exact key _ _)

theorem within_step (a : dissect_args) (hc : contiguous a) (s : walk)
    (h : within_reads a.buflen s.reads) :
    within_reads a.buflen (step a s).reads := by
  simp only [step, dissect_again, dissect_ip_proto_again]
  repeat' split
  all_goals first
    | exact h
    | exact within_dissect_ip a hc s h
    | exact within_dissect_ipv6 a hc s h
    | exact within_dissect_vlan a hc s h
    | exact within_dissect_pppoe a hc s h
    | exact within_dissect_tipc a hc s h
    | exact within_dissect_mpls a hc s h
    | exact within_dissect_gre a hc s h
    | exact within_dissect_opthdr a hc s h
    | exact within_dissect_out a hc s h

theorem within_run (a : dissect_args) (hc : contiguous a) (n : Nat) :
    ∀ s : walk, within_reads a.buflen s.reads → within_reads a.buflen (run a n s).reads := by
  induction n with
  | zero => intro s h; exact h
  | succ n ih => intro s h; exact ih _ (within_step a hc s h)

theorem within_dissect_start (a : dissect_args) :
    within_reads a.buflen (dissect_start a).reads := by
  simp only [dissect_start]
  repeat' split
  all_goals exact within_reads_nil _

/-! ## Lemmas on running the walk -/

theorem run_succ_outer (a : dissect_args) (n : Nat) :
    ∀ s : walk, run a (n + 1) s = step a (run a n s) := by
  induction n with
  | zero => intro s; rfl
  | succ n ih => intro s; rw [run, ih (step a s)]; rfl

theorem dissect_eq_of_pc (a : dissect_args) (n : Nat) (r : Bool)
    (h : (run a n (dissect_start a)).pc = .ret r) :
    __skb_flow_dissect a n = some (.returned r (run a n (dissect_start a)).target) := by
  simp only [__skb_flow_dissect, h]

theorem dissect_returned (a : dissect_args) (n : Nat) (r : Bool) (t : flow_keys)
    (h : __skb_flow_dissect a n = some (.returned r t)) :
    (run a n (dissect_start a)).pc = .ret r ∧ (run a n (dissect_start a)).target = t := by
  simp only [__skb_flow_dissect] at h
  split at h <;> simp_all

theorem header_pointer_not_copied (a : dissect_args) (hc : contiguous a) (offset len : Nat)
    (b : List Nat) :
    __skb_header_pointer a.skb offset len a.buf a.buflen ≠ .copied b := by
  intro h
  have hs : (__skb_header_pointer a.skb offset len a.buf a.buflen).bytes.isSome = true := by
    rw [h]; rfl
  have hle := header_pointer_within a hc offset len hs
  simp [__skb_header_pointer, hle] at h

theorem opthdr_loop_step (a : dissect_args) (hc : contiguous a) (s : walk)
    (h : in_opthdr_loop s) : in_opthdr_loop (step a s) := by
  obtain ⟨hpc, hproto, hip, hg⟩ := h
  have hgre : s.ip_proto ≠ IPPROTO_GRE := by
    simp only [NEXTHDR_HOP, NEXTHDR_ROUTING, NEXTHDR_DEST, IPPROTO_GRE] at *; omega
  have hproto' : ¬ s.proto ≠ ETH_P_IPV6 := by simp [hproto]
  have hnc := header_pointer_not_copied a hc s.nhoff 2
  simp only [step, hpc, dissect_ip_proto_again, hgre, if_false, hip, if_true, dissect_opthdr,
    hproto', walk.header]
  refine ⟨rfl, hproto, ?_, rfl⟩
  simp only [hg]
  exact hip

theorem opthdr_loop_run (a : dissect_args) (hc : contiguous a) (n : Nat) :
    ∀ s : walk, in_opthdr_loop s → in_opthdr_loop (run a n s) := by
  induction n with
  | zero => intro s h; exact h
  | succ n ih => intro s h; exact ih _ (opthdr_loop_step a hc s h)

theorem dissect_out_result (a : dissect_args) (s : walk) :
    (dissect_out a s).pc = .ret true ∧
    (dissect_out a s).target.basic.n_proto = s.proto ∧
    (dissect_out a s).target.basic.ip_proto = s.ip_proto ∧
    (dissect_out a s).target.basic.padding = s.target.basic.padding ∧
    (dissect_out a s).target.control.thoff = s.nhoff % 65536 ∧
    (dissect_out a s).target.control.addr_type = s.target.control.addr_type ∧
    (dissect_out a s).target.addrs = s.target.addrs ∧
    (dissect_out a s).target.tags = s.target.tags ∧
    (dissect_out a s).target.keyid = s.target.keyid ∧
    (dissect_out a s).target.eth_addrs = s.target.eth_addrs ∧
    (a.uses FLOW_DISSECTOR_KEY_PORTS = false →
      (dissect_out a s).target.ports = s.target.ports) := by
  simp only [dissect_out, flow_get_ports_some]
  split <;> simp_all

theorem init_uses_iff (fd0 : flow_dissector) (key : List flow_dissector_key)
    (fd : flow_dissector) (h : skb_flow_dissector_init fd0 key = some fd)
    (k : flow_dissector_key_id) :
    skb_flow_dissector_uses_key fd k = true ↔ k ∈ key.map (·.key_id) := by
  simp only [skb_flow_dissector_init] at h
  cases hl : skb_flow_dissector_init_loop { used_keys := 0, offset := fun _ => 0 } key with
  | none => rw [hl] at h; exact absurd h (by simp)
  | some fd1 =>
    rw [hl] at h
    simp only at h
    split at h
    · exact absurd h (by simp)
    · split at h
      · exact absurd h (by simp)
      · simp only [Option.some.injEq] at h
        subst h
        rw [(init_loop_spec key _ _ hl).1 k, uses_key_zeroed]
        simp

/-! ## Lemmas on the digest builder -/

theorem make_flow_keys_digest_data (d : flow_keys_digest) (k : flow_keys) :
    (make_flow_keys_digest d k).data =
      [k.basic.n_proto / 256 % 256, k.basic.n_proto % 256, k.basic.ip_proto % 256, 0,
       k.ports.src / 256 % 256, k.ports.src % 256, k.ports.dst / 256 % 256, k.ports.dst % 256,
       k.addrs.a0 / 16777216 % 256, k.addrs.a0 / 65536 % 256, k.addrs.a0 / 256 % 256,
       k.addrs.a0 % 256,
       k.addrs.a1 / 16777216 % 256, k.addrs.a1 / 65536 % 256, k.addrs.a1 / 256 % 256,
       k.addrs.a1 % 256] := rfl

theorem make_flow_keys_digest_eq_iff (d1 d2 : flow_keys_digest) (k1 k2 : flow_keys)
    (h1 : k1.wf) (h2 : k2.wf) :
    make_flow_keys_digest d1 k1 = make_flow_keys_digest d2 k2 ↔
      (k1.basic.n_proto = k2.basic.n_proto ∧ k1.basic.ip_proto = k2.basic.ip_proto ∧
       k1.ports = k2.ports ∧ k1.addrs.a0 = k2.addrs.a0 ∧ k1.addrs.a1 = k2.addrs.a1) := by
  have e : make_flow_keys_digest d1 k1 = make_flow_keys_digest d2 k2 ↔
      (make_flow_keys_digest d1 k1).data = (make_flow_keys_digest d2 k2).data := by
    constructor
    · intro h; rw [h]
    · intro h
      cases hx : make_flow_keys_digest d1 k1
      cases hy : make_flow_keys_digest d2 k2
      rw [hx, hy] at h
      simpa using h
  rw [e, make_flow_keys_digest_data, make_flow_keys_digest_data]
  simp only [flow_keys.wf] at h1 h2
  obtain ⟨control1, basic1, tags1, keyid1, ports1, addrs1, eth1⟩ := k1
  obtain ⟨control2, basic2, tags2, keyid2, ports2, addrs2, eth2⟩ := k2
  obtain ⟨s1, t1⟩ := ports1
  obtain ⟨s2, t2⟩ := ports2
  simp only [List.cons.injEq, and_true, flow_dissector_key_ports.mk.injEq] at *
  constructor
  · intro h
    refine ⟨?_, ?_, ⟨?_, ?_⟩, ?_, ?_⟩ <;> omega
  · rintro ⟨a, b, ⟨c, e⟩, f, g⟩
    rw [a, b, c, e, f, g]
    simp

/-! ## Lemmas on the VLAN id that is recorded -/

theorem has_vlan_read_nil : ¬ has_vlan_read [] := by
  simp [has_vlan_read]

theorem has_vlan_read_cons (x : header_read) (l : List header_read) :
    has_vlan_read (x :: l) ↔ (x.what = .VLAN_HDR ∧ x.ok = true) ∨ has_vlan_read l := by
  simp [has_vlan_read]

theorem has_vlan_read_append (l1 l2 : List header_read) :
    has_vlan_read (l1 ++ l2) ↔ has_vlan_read l1 ∨ has_vlan_read l2 := by
  simp only [has_vlan_read, List.mem_append]
  constructor
  · rintro ⟨r, hr | hr, h⟩
    · exact Or.inl ⟨r, hr, h⟩
    · exact Or.inr ⟨r, hr, h⟩
  · rintro (⟨r, hr, h⟩ | ⟨r, hr, h⟩)
    · exact ⟨r, Or.inl hr, h⟩
    · exact ⟨r, Or.inr hr, h⟩

theorem vlan_recorded_dissect_ip (a : dissect_args) (vid : Nat) (s : walk)
    (h : vlan_recorded vid s) : vlan_recorded vid (dissect_ip a s) := by
  simp only [dissect_ip, walk.header]
  repeat' split
  all_goals
    simp only [vlan_recorded, has_vlan_read_append, has_vlan_read_cons, has_vlan_read_nil] at *
    simp_all

theorem vlan_recorded_dissect_ipv6 (a : dissect_args) (vid : Nat) (s : walk)
    (h : vlan_recorded vid s) : vlan_recorded vid (dissect_ipv6 a s) := by
  simp only [dissect_ipv6, walk.header]
  repeat' split
  all_goals
    simp only [vlan_recorded, has_vlan_read_append, has_vlan_read_cons, has_vlan_read_nil] at *
    simp_all

theorem vlan_recorded_dissect_vlan (a : dissect_args) (skb : sk_buff) (s : walk)
    (hs : a.skb = some skb) (hu : a.uses FLOW_DISSECTOR_KEY_VLANID = true)
    (h : vlan_recorded (a.skb_vlan_tag_get_id skb) s) :
    vlan_recorded (a.skb_vlan_tag_get_id skb) (dissect_vlan a s) := by
  simp only [dissect_vlan, walk.header, hs, hu, if_true]
  repeat' split
  all_goals
    simp only [vlan_recorded, has_vlan_read_append, has_vlan_read_cons, has_vlan_read_nil] at *
    simp_all

theorem vlan_recorded_dissect_pppoe (a : dissect_args) (vid : Nat) (s : walk)
    (h : vlan_recorded vid s) : vlan_recorded vid (dissect_pppoe a s) := by
  simp only [dissect_pppoe, walk.header]
  repeat' split
  all_goals
    simp only [vlan_recorded, has_vlan_read_append, has_vlan_read_cons, has_vlan_read_nil] at *
    simp_all

theorem vlan_recorded_dissect_tipc (a : dissect_args) (vid : Nat) (s : walk)
    (h : vlan_recorded vid s) : vlan_recorded vid (dissect_tipc a s) := by
  simp only [dissect_tipc, walk.header]
  repeat' split
  all_goals
    simp only [vlan_recorded, has_vlan_read_append, has_vlan_read_cons, has_vlan_read_nil] at *
    simp_all

theorem vlan_recorded_dissect_mpls (a : dissect_args) (vid : Nat) (s : walk)
    (h : vlan_recorded vid s) : vlan_recorded vid (dissect_mpls a s) := by
  simp only [dissect_mpls, walk.header]
  repeat' split
  all_goals
    simp only [vlan_recorded, has_vlan_read_append, has_vlan_read_cons, has_vlan_read_nil] at *
    simp_all

theorem vlan_recorded_dissect_out (a : dissect_args) (vid : Nat) (s : walk)
    (h : vlan_recorded vid s) : vlan_recorded vid (dissect_out a s) := by
  simp only [dissect_out, flow_get_ports_some]
  repeat' split
  all_goals
    simp only [vlan_recorded, has_vlan_read_append, has_vlan_read_cons, has_vlan_read_nil] at *
    simp_all

theorem vlan_recorded_dissect_gre_seq (a : dissect_args) (vid : Nat) (flags : Nat) (s : walk)
    (h : vlan_recorded vid s) : vlan_recorded vid (dissect_gre_seq a flags s) := by
  simp only [dissect_gre_seq, walk.header]
  repeat' split
  all_goals
    simp only [vlan_recorded, has_vlan_read_append, has_vlan_read_cons, has_vlan_read_nil] at *
    simp_all

theorem vlan_recorded_dissect_gre (a : dissect_args) (vid : Nat) (s : walk)
    (h : vlan_recorded vid s) : vlan_recorded vid (dissect_gre a s) := by
  simp only [dissect_gre, walk.header]
  repeat' split
  all_goals first
    | (apply vlan_recorded_dissect_out
       simp only [vlan_recorded, has_vlan_read_append, has_vlan_read_cons,
         has_vlan_read_nil] at *
       simp_all)
    | (apply vlan_recorded_dissect_gre_seq
       simp only [vlan_recorded, has_vlan_read_append, has_vlan_read_cons,
         has_vlan_read_nil] at *
       simp_all)
    | (simp only [vlan_recorded, has_vlan_read_append, has_vlan_read_cons,
         has_vlan_read_nil] at *
       simp_all)

theorem vlan_recorded_dissect_opthdr (a : dissect_args) (vid : Nat) (s : walk)
    (h : vlan_recorded vid s) : vlan_recorded vid (dissect_opthdr a s) := by
  simp only [dissect_opthdr, walk.header]
  repeat' split
  all_goals first
    | exact vlan_recorded_dissect_out a vid _ h
    | (simp only [vlan_recorded, has_vlan_read_append, has_vlan_read_cons,
         has_vlan_read_nil] at *
       simp_all)

theorem vlan_recorded_step (a : dissect_args) (skb : sk_buff) (s : walk)
    (hs : a.skb = some skb) (hu : a.uses FLOW_DISSECTOR_KEY_VLANID = true)
    (h : vlan_recorded (a.skb_vlan_tag_get_id skb) s) :
    vlan_recorded (a.skb_vlan_tag_get_id skb) (step a s) := by
  simp only [step, dissect_again, dissect_ip_proto_again]
  repeat' split
  all_goals first
    | exact h
    | exact vlan_recorded_dissect_ip a _ s h
    | exact vlan_recorded_dissect_ipv6 a _ s h
    | exact vlan_recorded_dissect_vlan a skb s hs hu h
    | exact vlan_recorded_dissect_pppoe a _ s h
    | exact vlan_recorded_dissect_tipc a _ s h
    | exact vlan_recorded_dissect_mpls a _ s h
    | exact vlan_recorded_dissect_gre a _ s h
    | exact vlan_recorded_dissect_opthdr a _ s h
    | exact vlan_recorded_dissect_out a _ s h

theorem vlan_recorded_run (a : dissect_args) (skb : sk_buff)
    (hs : a.skb = some skb) (hu : a.uses FLOW_DISSECTOR_KEY_VLANID = true) (n : Nat) :
    ∀ s : walk, vlan_recorded (a.skb_vlan_tag_get_id skb) s →
      vlan_recorded (a.skb_vlan_tag_get_id skb) (run a n s) := by
  induction n with
  | zero => intro s h; exact h
  | succ n ih => intro s h; exact ih _ (vlan_recorded_step a skb s hs hu h)

theorem vlan_recorded_dissect_start (a : dissect_args) (vid : Nat) :
    vlan_recorded vid (dissect_start a) := by
  simp only [dissect_start]
  repeat' split
  all_goals
    simp only [vlan_recorded, has_vlan_read_nil]
    simp

/-! ## Single steps of the walk -/

theorem dissect_ip_of_header (a : dissect_args) (s : walk) (iph : List Nat)
    (hiph : (__skb_header_pointer a.skb s.nhoff 20 a.buf a.buflen).bytes = some iph)
    (h5 : 5 ≤ u8_at iph 0 % 16) :
    dissect_ip a s =
      { s with
        pc := .ip_proto_again,
        nhoff := s.nhoff + (u8_at iph 0 % 16) * 4,
        ip_proto := if ip_is_fragment iph then 0 else u8_at iph 9,
        target :=
          if a.uses FLOW_DISSECTOR_KEY_IPV4_ADDRS then
            { s.target with
              addrs := { s.target.addrs with a0 := be32_at iph 12, a1 := be32_at iph 16 },
              control := { s.target.control with
                addr_type := FLOW_DISSECTOR_KEY_IPV4_ADDRS.val } }
          else s.target,
        reads := s.reads ++ [⟨.IPHDR, s.nhoff, 20, true⟩] } := by
  have h5' : ¬ u8_at iph 0 % 16 < 5 := by omega
  simp only [dissect_ip, walk.header, hiph, h5', if_false, Option.isSome_some]
  split <;> split <;> simp_all

theorem dissect_ipv6_of_header (a : dissect_args) (s : walk) (iph : List Nat)
    (hiph : (__skb_header_pointer a.skb s.nhoff 40 a.buf a.buflen).bytes = some iph) :
    dissect_ipv6 a s =
      { s with
        pc := .ip_proto_again,
        nhoff := s.nhoff + 40,
        ip_proto := u8_at iph 6,
        target :=
          { s.target with
            addrs :=
              if a.uses FLOW_DISSECTOR_KEY_IPV6_ADDRS then
                { a0 := be32_at iph 8, a1 := be32_at iph 12, a2 := be32_at iph 16,
                  a3 := be32_at iph 20, a4 := be32_at iph 24, a5 := be32_at iph 28,
                  a6 := be32_at iph 32, a7 := be32_at iph 36 }
              else s.target.addrs,
            control :=
              { s.target.control with
                addr_type :=
                  if a.uses FLOW_DISSECTOR_KEY_IPV6_ADDRS then
                    FLOW_DISSECTOR_KEY_IPV6_ADDRS.val
                  else s.target.control.addr_type },
            tags :=
              { s.target.tags with
                flow_label :=
                  if ip6_flowlabel iph ≠ 0 ∧ a.uses FLOW_DISSECTOR_KEY_FLOW_LABEL = true then
                    ip6_flowlabel iph
                  else s.target.tags.flow_label } },
        reads := s.reads ++ [⟨.IPV6HDR, s.nhoff, 40, true⟩] } := by
  simp only [dissect_ipv6, walk.header, hiph, Option.isSome_some]
  repeat' split
  all_goals simp_all

theorem step_to_out (a : dissect_args) (s : walk) (hpc : s.pc = .ip_proto_again)
    (h1 : s.ip_proto ≠ IPPROTO_GRE) (h2 : s.ip_proto ≠ IPPROTO_IPIP)
    (h3 : s.ip_proto ≠ IPPROTO_IPV6) (h4 : s.ip_proto ≠ IPPROTO_MPLS)
    (h5 : s.proto ≠ ETH_P_IPV6 ∨
      (s.ip_proto ≠ NEXTHDR_HOP ∧ s.ip_proto ≠ NEXTHDR_ROUTING ∧ s.ip_proto ≠ NEXTHDR_DEST)) :
    step a s = dissect_out a s := by
  simp only [step, hpc, dissect_ip_proto_again, h1, h2, h3, h4, if_false]
  split
  · rcases h5 with h5 | h5
    · simp only [dissect_opthdr, h5, ne_eq, not_false_eq_true, if_true]
    · rename_i h
      rcases h with h | h | h
      · exact absurd h h5.1
      · exact absurd h h5.2.1
      · exact absurd h h5.2.2
  · rfl

theorem step_ip (a : dissect_args) (s : walk)
    (h : s.pc = .ip ∨ (s.pc = .again ∧ s.proto = ETH_P_IP)) : step a s = dissect_ip a s := by
  rcases h with h | h
  · simp only [step, h]
  · simp only [step, h.1, dissect_again, h.2, if_true]

theorem step_ipv6 (a : dissect_args) (s : walk)
    (h : s.pc = .ipv6 ∨ (s.pc = .again ∧ s.proto = ETH_P_IPV6)) :
    step a s = dissect_ipv6 a s := by
  rcases h with h | h
  · simp only [step, h]
  · have : ¬ ETH_P_IPV6 = ETH_P_IP := by decide
    simp only [step, h.1, dissect_again, h.2, this, if_false, if_true]

theorem dissect_start_running (a : dissect_args) (h : (dissect_start a).pc = .again) :
    (dissect_start a).target.control = a.target_container.control ∧
    (dissect_start a).target.basic = a.target_container.basic ∧
    (dissect_start a).target.tags = a.target_container.tags ∧
    (dissect_start a).target.keyid = a.target_container.keyid ∧
    (dissect_start a).target.ports = a.target_container.ports ∧
    (dissect_start a).target.addrs = a.target_container.addrs ∧
    (a.uses FLOW_DISSECTOR_KEY_ETH_ADDRS = false →
      (dissect_start a).target.eth_addrs = a.target_container.eth_addrs) ∧
    (dissect_start a).reads = [] ∧
    (dissect_start a).ip_proto = a.ip_proto % 256 ∧
    (dissect_start a)._opthdr = (a._opthdr.1 % 256, a._opthdr.2 % 256) := by
  revert h
  simp only [dissect_start]
  repeat' split
  all_goals simp_all

theorem run_two (a : dissect_args) (s : walk) : run a 2 s = step a (step a s) := rfl

/-! ## Lemmas on the labels and their protocol tags -/

theorem label_ok_dissect_ip (a : dissect_args) (s : walk) : label_ok (dissect_ip a s) := by
  simp only [dissect_ip, walk.header]
  repeat' split
  all_goals simp [label_ok]

theorem label_ok_dissect_ipv6 (a : dissect_args) (s : walk) : label_ok (dissect_ipv6 a s) := by
  simp only [dissect_ipv6, walk.header]
  repeat' split
  all_goals simp [label_ok]

theorem label_ok_dissect_vlan (a : dissect_args) (s : walk) : label_ok (dissect_vlan a s) := by
  simp only [dissect_vlan, walk.header]
  repeat' split
  all_goals simp_all [label_ok]

theorem label_ok_dissect_pppoe (a : dissect_args) (s : walk) :
    label_ok (dissect_pppoe a s) := by
  simp only [dissect_pppoe, walk.header]
  repeat' split
  all_goals simp_all [label_ok]

theorem label_ok_dissect_tipc (a : dissect_args) (s : walk) : label_ok (dissect_tipc a s) := by
  simp only [dissect_tipc, walk.header]
  repeat' split
  all_goals simp [label_ok]

theorem label_ok_dissect_mpls (a : dissect_args) (s : walk) : label_ok (dissect_mpls a s) := by
  simp only [dissect_mpls, walk.header]
  repeat' split
  all_goals simp [label_ok]

theorem label_ok_dissect_out (a : dissect_args) (s : walk) : label_ok (dissect_out a s) := by
  simp only [dissect_out, flow_get_ports_some]
  repeat' split
  all_goals simp [label_ok]

theorem label_ok_dissect_gre_seq (a : dissect_args) (flags : Nat) (s : walk) :
    label_ok (dissect_gre_seq a flags s) := by
  simp only [dissect_gre_seq, walk.header]
  repeat' split
  all_goals simp [label_ok]

theorem label_ok_dissect_gre (a : dissect_args) (s : walk) : label_ok (dissect_gre a s) := by
  simp only [dissect_gre, walk.header]
  repeat' split
  all_goals first
    | exact label_ok_dissect_out a _
    | exact label_ok_dissect_gre_seq a _ _
    | simp [label_ok]

theorem label_ok_dissect_opthdr (a : dissect_args) (s : walk) :
    label_ok (dissect_opthdr a s) := by
  simp only [dissect_opthdr, walk.header]
  repeat' split
  all_goals first
    | exact label_ok_dissect_out a _
    | simp [label_ok]

theorem label_ok_step (a : dissect_args) (s : walk) (h : label_ok s) :
    label_ok (step a s) := by
  simp only [step, dissect_again, dissect_ip_proto_again]
  repeat' split
  all_goals first
    | exact h
    | exact label_ok_dissect_ip a s
    | exact label_ok_dissect_ipv6 a s
    | exact label_ok_dissect_vlan a s
    | exact label_ok_dissect_pppoe a s
    | exact label_ok_dissect_tipc a s
    | exact label_ok_dissect_mpls a s
    | exact label_ok_dissect_gre a s
    | exact label_ok_dissect_opthdr a s
    | exact label_ok_dissect_out a s
    | simp [label_ok]

theorem label_ok_run (a : dissect_args) (n : Nat) :
    ∀ s : walk, label_ok s → label_ok (run a n s) := by
  induction n with
  | zero => intro s h; exact h
  | succ n ih => intro s h; exact ih _ (label_ok_step a s h)

theorem label_ok_dissect_start (a : dissect_args) : label_ok (dissect_start a) := by
  simp only [dissect_start]
  repeat' split
  all_goals simp_all [label_ok]

/-! ## Lemmas on the ports at the exit -/

theorem get_bytes_getD_lt (d : Nat → Nat) (offset len i : Nat) :
    (get_bytes d offset len).getD i 0 < 256 := by
  rw [List.getD_eq_getElem?_getD]
  simp only [get_bytes, List.getElem?_map]
  cases h : (List.range len)[i]? with
  | none => simp
  | some x =>
    simp only [Option.map_some', Option.getD_some]
    exact Nat.mod_lt _ (by decide)

theorem header_pointer_getD_lt (skb : Option sk_buff) (offset len : Nat) (d : Nat → Nat)
    (hlen : Nat) (b : List Nat)
    (h : (__skb_header_pointer skb offset len d hlen).bytes = some b) (i : Nat) :
    b.getD i 0 < 256 := by
  simp only [__skb_header_pointer] at h
  by_cases h1 : offset + len ≤ hlen
  · simp only [h1, if_true, header_pointer.bytes, Option.some.injEq] at h
    rw [← h]; exact get_bytes_getD_lt _ _ _ _
  · simp only [h1, if_false] at h
    cases skb with
    | none => simp [header_pointer.bytes] at h
    | some s =>
      simp only [skb_copy_bits] at h
      by_cases h2 : offset + len ≤ s.len
      · simp only [h2, if_true, header_pointer.bytes, Option.some.injEq] at h
        rw [← h]; exact get_bytes_getD_lt _ _ _ _
      · simp [h2, header_pointer.bytes] at h

theorem ports_of_be32 (p : List Nat) (h : ∀ i, p.getD i 0 < 256) :
    be32_at p 0 / 65536 = be16_at p 0 ∧ be32_at p 0 % 65536 = be16_at p 2 := by
  have h0 := h 0
  have h1 := h 1
  have h2 := h 2
  have h3 := h 3
  have e1 : be32_at p 0 = ((p.getD 0 0 * 256 + p.getD 1 0) * 256 + p.getD 2 0) * 256
      + p.getD 3 0 := rfl
  have e2 : be16_at p 0 = p.getD 0 0 * 256 + p.getD 1 0 := rfl
  have e3 : be16_at p 2 = p.getD 2 0 * 256 + p.getD 3 0 := rfl
  rw [e1, e2, e3]
  constructor <;> omega

theorem dissect_out_ports (a : dissect_args) (s : walk)
    (hu : a.uses FLOW_DISSECTOR_KEY_PORTS = true) :
    (∀ p, a.ports_offset s.ip_proto = some 0 →
      (__skb_header_pointer a.skb s.nhoff 4 a.buf a.buflen).bytes = some p →
      (dissect_out a s).target.ports = ⟨be16_at p 0, be16_at p 2⟩ ∧
      (dissect_out a s).target.ports.ports = be32_at p 0) ∧
    (a.ports_offset s.ip_proto = none →
      (dissect_out a s).target.ports = ⟨0, 0⟩ ∧ (dissect_out a s).reads = s.reads) := by
  constructor
  · intro p ht hp
    have hb := ports_of_be32 p (header_pointer_getD_lt _ _ _ _ _ p hp)
    simp only [dissect_out, flow_get_ports_some, hu, if_true, ht, Nat.add_zero, hp,
      flow_dissector_key_ports.ports, hb.1, hb.2]
    refine ⟨trivial, ?_⟩
    rw [← hb.1, ← hb.2]
    exact Nat.div_add_mod' _ _
  · intro ht
    simp only [dissect_out, flow_get_ports_some, hu, if_true, ht]
    simp

theorem dissect_out_ports_at (a : dissect_args) (s : walk)
    (hu : a.uses FLOW_DISSECTOR_KEY_PORTS = true) (po : Nat) (p : List Nat)
    (ht : a.ports_offset s.ip_proto = some po)
    (hp : (__skb_header_pointer a.skb (s.nhoff + po) 4 a.buf a.buflen).bytes = some p) :
    (dissect_out a s).target.ports = ⟨be16_at p 0, be16_at p 2⟩ ∧
    (dissect_out a s).target.ports.ports = be32_at p 0 := by
  have hb := ports_of_be32 p (header_pointer_getD_lt _ _ _ _ _ p hp)
  simp only [dissect_out, flow_get_ports_some, hu, if_true, ht, hp,
    flow_dissector_key_ports.ports, hb.1, hb.2]
  refine ⟨trivial, ?_⟩
  rw [← hb.1, ← hb.2]
  exact Nat.div_add_mod' _ _

/-! ## Lemmas on the GRE case -/

theorem step_gre (a : dissect_args) (s : walk) (hpc : s.pc = .ip_proto_again)
    (hip : s.ip_proto = IPPROTO_GRE) : step a s = dissect_gre a s := by
  simp only [step, hpc, dissect_ip_proto_again, hip, if_true]

theorem dissect_gre_csum_key_teb (a : dissect_args) (s : walk) (hdr key eth : List Nat)
    (hhdr : (__skb_header_pointer a.skb s.nhoff 4 a.buf a.buflen).bytes = some hdr)
    (hver : be16_at hdr 0 &&& (GRE_VERSION ||| GRE_ROUTING) = 0)
    (hcsum : be16_at hdr 0 &&& GRE_CSUM ≠ 0)
    (hkey : be16_at hdr 0 &&& GRE_KEY ≠ 0)
    (hseq : be16_at hdr 0 &&& GRE_SEQ = 0)
    (hteb : be16_at hdr 2 = ETH_P_TEB)
    (hk : (__skb_header_pointer a.skb (s.nhoff + 4 + 4) 4 a.buf a.buflen).bytes = some key)
    (he : (__skb_header_pointer a.skb (s.nhoff + 4 + 4 + 4) 14 a.buf a.buflen).bytes
      = some eth) :
    dissect_gre a s =
      { s with
        pc := .again,
        proto := be16_at eth 12,
        nhoff := s.nhoff + 4 + 4 + 4 + 14,
        target :=
          if a.uses FLOW_DISSECTOR_KEY_GRE_KEYID then
            { s.target with keyid := { keyid := be32_at key 0 } }
          else s.target,
        reads := s.reads ++ [⟨.GRE_HDR, s.nhoff, 4, true⟩] ++
          [⟨.GRE_KEYID, s.nhoff + 4 + 4, 4, true⟩] ++
          [⟨.ETHHDR, s.nhoff + 4 + 4 + 4, 14, true⟩] } := by
  simp only [dissect_gre, walk.header, hhdr, hver, ne_eq, not_true_eq_false, if_false,
    hcsum, not_false_eq_true, if_true, hkey, hk, Option.isSome_some, dissect_gre_seq, hseq,
    hteb, he]
  split <;> simp_all

theorem uses_flow_keys_dissector (a : dissect_args) (h : a.flow_dissector = flow_keys_dissector) :
    a.uses FLOW_DISSECTOR_KEY_IPV4_ADDRS = true ∧ a.uses FLOW_DISSECTOR_KEY_IPV6_ADDRS = true ∧
    a.uses FLOW_DISSECTOR_KEY_TIPC_ADDRS = true ∧ a.uses FLOW_DISSECTOR_KEY_PORTS = true ∧
    a.uses FLOW_DISSECTOR_KEY_VLANID = true ∧ a.uses FLOW_DISSECTOR_KEY_FLOW_LABEL = true ∧
    a.uses FLOW_DISSECTOR_KEY_GRE_KEYID = true ∧
    a.uses FLOW_DISSECTOR_KEY_MPLS_ENTROPY = false ∧
    a.uses FLOW_DISSECTOR_KEY_ETH_ADDRS = false := by
  simp only [dissect_args.uses, h]
  decide

/-! ## The walk does not depend on the record of the reads -/

theorem unlog_dissect_ip (a : dissect_args) (s : walk) :
    (dissect_ip a s).unlog = (dissect_ip a s.unlog).unlog := by
  simp only [dissect_ip, walk.header, walk.unlog]
  repeat' split
  all_goals simp_all

theorem unlog_dissect_ipv6 (a : dissect_args) (s : walk) :
    (dissect_ipv6 a s).unlog = (dissect_ipv6 a s.unlog).unlog := by
  simp only [dissect_ipv6, walk.header, walk.unlog]
  repeat' split
  all_goals simp_all

theorem unlog_dissect_vlan (a : dissect_args) (s : walk) :
    (dissect_vlan a s).unlog = (dissect_vlan a s.unlog).unlog := by
  simp only [dissect_vlan, walk.header, walk.unlog]
  repeat' split
  all_goals simp_all

theorem unlog_dissect_pppoe (a : dissect_args) (s : walk) :
    (dissect_pppoe a s).unlog = (dissect_pppoe a s.unlog).unlog := by
  simp only [dissect_pppoe, walk.header, walk.unlog]
  repeat' split
  all_goals simp_all

theorem unlog_dissect_tipc (a : dissect_args) (s : walk) :
    (dissect_tipc a s).unlog = (dissect_tipc a s.unlog).unlog := by
  simp only [dissect_tipc, walk.header, walk.unlog]
  repeat' split
  all_goals simp_all

theorem unlog_dissect_mpls (a : dissect_args) (s : walk) :
    (dissect_mpls a s).unlog = (dissect_mpls a s.unlog).unlog := by
  simp only [dissect_mpls, walk.header, walk.unlog]
  repeat' split
  all_goals simp_all

theorem unlog_dissect_out (a : dissect_args) (s : walk) :
    (dissect_out a s).unlog = (dissect_out a s.unlog).unlog := by
  simp only [dissect_out, flow_get_ports_some, walk.unlog]
  repeat' split
  all_goals simp_all

theorem unlog_dissect_gre_seq (a : dissect_args) (flags : Nat) (s : walk) :
    (dissect_gre_seq a flags s).unlog = (dissect_gre_seq a flags s.unlog).unlog := by
  simp only [dissect_gre_seq, walk.header, walk.unlog]
  repeat' split
  all_goals simp_all

theorem unlog_congr_out (a : dissect_args) (s s' : walk) (h : s.unlog = s'.unlog) :
    (dissect_out a s).unlog = (dissect_out a s').unlog := by
  rw [unlog_dissect_out a s, unlog_dissect_out a s', h]

theorem unlog_congr_gre_seq (a : dissect_args) (flags : Nat) (s s' : walk)
    (h : s.unlog = s'.unlog) :
    (dissect_gre_seq a flags s).unlog = (dissect_gre_seq a flags s').unlog := by
  rw [unlog_dissect_gre_seq a flags s, unlog_dissect_gre_seq a flags s', h]

theorem unlog_dissect_gre (a : dissect_args) (s : walk) :
    (dissect_gre a s).unlog = (dissect_gre a s.unlog).unlog := by
  simp only [dissect_gre, walk.header]
  have e1 : s.unlog.nhoff = s.nhoff := rfl
  have e2 : s.unlog.target = s.target := rfl
  have e3 : s.unlog.proto = s.proto := rfl
  simp only [e1, e2, e3]
  repeat' split
  all_goals first
    | (apply unlog_congr_out; simp_all [walk.unlog])
    | (apply unlog_congr_gre_seq; simp_all [walk.unlog])
    | (simp_all [walk.unlog])

theorem unlog_dissect_opthdr (a : dissect_args) (s : walk) :
    (dissect_opthdr a s).unlog = (dissect_opthdr a s.unlog).unlog := by
  simp only [dissect_opthdr, walk.header]
  have e1 : s.unlog.nhoff = s.nhoff := rfl
  have e3 : s.unlog.proto = s.proto := rfl
  simp only [e1, e3]
  repeat' split
  all_goals first
    | (apply unlog_congr_out; simp_all [walk.unlog])
    | (simp_all [walk.unlog])

theorem unlog_step (a : dissect_args) (s : walk) :
    (step a s).unlog = (step a s.unlog).unlog := by
  have e0 : s.unlog.pc = s.pc := rfl
  have e1 : s.unlog.ip_proto = s.ip_proto := rfl
  have e3 : s.unlog.proto = s.proto := rfl
  simp only [step, dissect_again, dissect_ip_proto_again, e0, e1, e3]
  repeat' split
  all_goals first
    | exact unlog_dissect_ip a s
    | exact unlog_dissect_ipv6 a s
    | exact unlog_dissect_vlan a s
    | exact unlog_dissect_pppoe a s
    | exact unlog_dissect_tipc a s
    | exact unlog_dissect_mpls a s
    | exact unlog_dissect_gre a s
    | exact unlog_dissect_opthdr a s
    | exact unlog_dissect_out a s
    | (simp [walk.unlog])

theorem unlog_run (a : dissect_args) (n : Nat) :
    ∀ s s' : walk, s.unlog = s'.unlog → (run a n s).unlog = (run a n s').unlog := by
  induction n with
  | zero => intro s s' h; exact h
  | succ n ih =>
    intro s s' h
    simp only [run]
    apply ih
    rw [unlog_step a s, unlog_step a s', h]

/-! ## Lemmas on stacked VLAN tags -/

theorem step_congr_args (a b : dissect_args) (s : walk)
    (h1 : a.skb = b.skb) (h2 : a.flow_dissector = b.flow_dissector) (h3 : a.buf = b.buf)
    (h4 : a.buflen = b.buflen) (h5 : a.ports_offset = b.ports_offset)
    (h6 : a.skb_vlan_tag_get_id = b.skb_vlan_tag_get_id) :
    step a s = step b s := by
  simp only [step, dissect_again, dissect_ip_proto_again, dissect_ip, dissect_ipv6, dissect_vlan,
    dissect_pppoe, dissect_tipc, dissect_mpls, dissect_out, dissect_gre, dissect_gre_seq,
    dissect_opthdr, walk.header, dissect_args.uses, flow_get_ports_some, h1, h2, h3, h4, h5, h6]

theorem run_congr_args (a b : dissect_args)
    (h1 : a.skb = b.skb) (h2 : a.flow_dissector = b.flow_dissector) (h3 : a.buf = b.buf)
    (h4 : a.buflen = b.buflen) (h5 : a.ports_offset = b.ports_offset)
    (h6 : a.skb_vlan_tag_get_id = b.skb_vlan_tag_get_id) (n : Nat) :
    ∀ s : walk, run a n s = run b n s := by
  induction n with
  | zero => intro s; rfl
  | succ n ih => intro s; simp only [run]; rw [step_congr_args a b s h1 h2 h3 h4 h5 h6, ih]

theorem run_of_oops (a : dissect_args) (n : Nat) :
    ∀ s : walk, s.pc = .oops → run a n s = s := by
  induction n with
  | zero => intro s _; rfl
  | succ n ih =>
    intro s h
    have : step a s = s := by simp only [step, h]
    simp only [run, this]
    exact ih s h

theorem step_vlan (a : dissect_args) (s : walk) (hpc : s.pc = .again)
    (h : s.proto = ETH_P_8021AD ∨ s.proto = ETH_P_8021Q) : step a s = dissect_vlan a s := by
  have h1 : s.proto ≠ ETH_P_IP := by rcases h with h | h <;> rw [h] <;> decide
  have h2 : s.proto ≠ ETH_P_IPV6 := by rcases h with h | h <;> rw [h] <;> decide
  simp only [step, hpc, dissect_again, h1, h2, h, if_false, if_true]

theorem dissect_vlan_unrequested (a : dissect_args) (s : walk) (vlan : List Nat)
    (hpc : s.pc = .again)
    (hu : a.uses FLOW_DISSECTOR_KEY_VLANID = false)
    (hv : (__skb_header_pointer a.skb s.nhoff 4 a.buf a.buflen).bytes = some vlan) :
    dissect_vlan a s =
      { s with
        pc := .again, proto := be16_at vlan 2, nhoff := s.nhoff + 4,
        reads := s.reads ++ [⟨.VLAN_HDR, s.nhoff, 4, true⟩] } := by
  simp only [dissect_vlan, walk.header, hv, hu, Bool.false_eq_true, if_false, hpc,
    Option.isSome_some]
  simp

theorem vlan_stack_core (a : dissect_args) (s : walk) (n : Nat) (tag1 tag2 : List Nat)
    (hu : a.uses FLOW_DISSECTOR_KEY_VLANID = false)
    (hpc : s.pc = .again) (hproto : s.proto = ETH_P_8021Q)
    (h1 : (__skb_header_pointer a.skb s.nhoff 4 a.buf a.buflen).bytes = some tag1)
    (hp1 : be16_at tag1 2 = ETH_P_8021Q)
    (h2 : (__skb_header_pointer a.skb (s.nhoff + 4) 4 a.buf a.buflen).bytes = some tag2)
    (hp2 : be16_at tag2 2 = ETH_P_IP) :
    (run a (n + 2) s).unlog
      = (run a n { s with proto := ETH_P_IP, nhoff := s.nhoff + 8 }).unlog := by
  have e1 : step a s = dissect_vlan a s := step_vlan a s hpc (Or.inr hproto)
  have d1 := dissect_vlan_unrequested a s tag1 hpc hu h1
  have e2 : step a (dissect_vlan a s) = dissect_vlan a (dissect_vlan a s) :=
    step_vlan a _ (by rw [d1]) (by rw [d1]; exact Or.inr hp1)
  have d2 := dissect_vlan_unrequested a (dissect_vlan a s) tag2 (by rw [d1]) hu
    (by rw [d1]; exact h2)
  have hrun : run a (n + 2) s = run a n (dissect_vlan a (dissect_vlan a s)) := by
    simp only [run, e1, e2]
  rw [hrun]
  apply unlog_run
  rw [d2, d1]
  simp only [walk.unlog, hp2, hpc, Nat.add_assoc]

theorem vlan_stacking_same_buffer (a : dissect_args) (d : Nat → Nat) (o n : Nat)
    (tag1 tag2 : List Nat)
    (hdata : a.data = some d)
    (hu : skb_flow_dissector_uses_key a.flow_dissector FLOW_DISSECTOR_KEY_VLANID = false)
    (h1 : (__skb_header_pointer a.skb o 4 d a.hlen).bytes = some tag1)
    (hp1 : be16_at tag1 2 = ETH_P_8021Q)
    (h2 : (__skb_header_pointer a.skb (o + 4) 4 d a.hlen).bytes = some tag2)
    (hp2 : be16_at tag2 2 = ETH_P_IP) :
    __skb_flow_dissect { a with proto := ETH_P_8021Q, nhoff := o } (n + 2)
      = __skb_flow_dissect { a with proto := ETH_P_IP, nhoff := o + 8 } n := by
  have hu' : a.uses FLOW_DISSECTOR_KEY_VLANID = false := hu
  have hbuf : a.buf = d := by simp only [dissect_args.buf, hdata]
  have hlen : a.buflen = a.hlen := by simp only [dissect_args.buflen, hdata]
  rw [← hbuf, ← hlen] at h1 h2
  have rA := run_congr_args { a with proto := ETH_P_8021Q, nhoff := o } a rfl rfl rfl rfl rfl rfl
  have rB := run_congr_args { a with proto := ETH_P_IP, nhoff := o + 8 } a rfl rfl rfl rfl rfl rfl
  simp only [__skb_flow_dissect, rA, rB]
  by_cases hoops : (dissect_start { a with proto := ETH_P_8021Q, nhoff := o }).pc = .oops
  · have hoops' : (dissect_start { a with proto := ETH_P_IP, nhoff := o + 8 }).pc = .oops := by
      revert hoops
      simp only [dissect_start, hdata, dissect_args.uses]
      repeat' split
      all_goals simp_all
    rw [run_of_oops a _ _ hoops, run_of_oops a _ _ hoops', hoops, hoops']
  · have hpc : (dissect_start { a with proto := ETH_P_8021Q, nhoff := o }).pc = .again := by
      revert hoops
      simp only [dissect_start, hdata, dissect_args.uses]
      repeat' split
      all_goals simp_all
    have hproto : (dissect_start { a with proto := ETH_P_8021Q, nhoff := o }).proto
        = ETH_P_8021Q := by
      simp only [dissect_start, hdata, dissect_args.uses]
      repeat' split
      all_goals simp_all [ETH_P_8021Q]
    have hoff : (dissect_start { a with proto := ETH_P_8021Q, nhoff := o }).nhoff = o := by
      simp only [dissect_start, hdata, dissect_args.uses]
      repeat' split
      all_goals simp_all
    have hB : dissect_start { a with proto := ETH_P_IP, nhoff := o + 8 }
        = { dissect_start { a with proto := ETH_P_8021Q, nhoff := o } with
            proto := ETH_P_IP,
            nhoff := (dissect_start { a with proto := ETH_P_8021Q, nhoff := o }).nhoff + 8 } := by
      revert hoops
      simp only [dissect_start, hdata, dissect_args.uses]
      repeat' split
      all_goals simp_all [ETH_P_IP]
    have core := vlan_stack_core a (dissect_start { a with proto := ETH_P_8021Q, nhoff := o }) n
      tag1 tag2 hu' hpc hproto (by rw [hoff]; exact h1) hp1 (by rw [hoff]; exact h2) hp2
    rw [← hB] at core
    have hpceq : (run a (n + 2) (dissect_start { a with proto := ETH_P_8021Q, nhoff := o })).pc
        = (run a n (dissect_start { a with proto := ETH_P_IP, nhoff := o + 8 })).pc := by
      have h := congrArg walk.pc core; exact h
    have htgeq : (run a (n + 2) (dissect_start { a with proto := ETH_P_8021Q, nhoff := o })).target
        = (run a n (dissect_start { a with proto := ETH_P_IP, nhoff := o + 8 })).target := by
      have h := congrArg walk.target core; exact h
    rw [hpceq, htgeq]

theorem with_data_eq (a : dissect_args) (d : Nat → Nat) (p x : Nat) (hdata : a.data = some d) :
    ({ a with proto := p, nhoff := x } : dissect_args)
      = { a with data := some d, proto := p, nhoff := x } := by
  rw [← hdata]

theorem header_pointer_none_le (off len : Nat) (d : Nat → Nat) (hlen : Nat) (b : List Nat)
    (h : (__skb_header_pointer none off len d hlen).bytes = some b) : off + len ≤ hlen := by
  by_contra hc
  simp [__skb_header_pointer, hc, header_pointer.bytes] at h

/-! ## Lemmas on moving a walk along its buffer -/

theorem moved_dissect_ip (a b : dissect_args) (base : Nat) (h : shifted a b base)
    (s : walk) (r : List header_read) (t : Nat) :
    dissect_ip a (s.moved base r t)
      = (dissect_ip b s).moved base (dissect_ip a (s.moved base r t)).reads
          (dissect_ip a (s.moved base r t)).target.control.thoff := by
  obtain ⟨ha, hb, hfd, hpo, hhp⟩ := h
  simp only [dissect_ip, walk.header, walk.moved, dissect_args.uses, ha, hb, hfd, hpo, hhp,
    Nat.add_assoc, Nat.add_comm, Nat.add_left_comm]
  repeat' split
  all_goals simp_all [Nat.add_assoc, Nat.add_comm, Nat.add_left_comm]

theorem moved_dissect_out (a b : dissect_args) (base : Nat) (h : shifted a b base)
    (s : walk) (r : List header_read) (t : Nat) :
    dissect_out a (s.moved base r t)
      = (dissect_out b s).moved base (dissect_out a (s.moved base r t)).reads
          (dissect_out a (s.moved base r t)).target.control.thoff := by
  obtain ⟨ha, hb, hfd, hpo, hhp⟩ := h
  simp only [dissect_out, __skb_flow_get_ports, walk.header, walk.moved, dissect_args.uses,
    ha, hb, hfd, hpo, hhp, Nat.add_assoc, Nat.add_comm, Nat.add_left_comm]
  repeat' split
  all_goals simp_all [Nat.add_assoc, Nat.add_comm, Nat.add_left_comm]

theorem moved_dissect_gre_seq (a b : dissect_args) (base : Nat) (h : shifted a b base)
    (flags : Nat) (s : walk) (r : List header_read) (t : Nat) :
    dissect_gre_seq a flags (s.moved base r t)
      = (dissect_gre_seq b flags s).moved base (dissect_gre_seq a flags (s.moved base r t)).reads
          (dissect_gre_seq a flags (s.moved base r t)).target.control.thoff := by
  obtain ⟨ha, hb, hfd, hpo, hhp⟩ := h
  simp only [dissect_gre_seq, walk.header, walk.moved, dissect_args.uses, ha, hb, hfd, hpo, hhp,
    Nat.add_assoc, Nat.add_comm, Nat.add_left_comm]
  repeat' split
  all_goals simp_all [Nat.add_assoc, Nat.add_comm, Nat.add_left_comm]

theorem moved_dissect_ipv6 (a b : dissect_args) (base : Nat) (h : shifted a b base)
    (s : walk) (r : List header_read) (t : Nat) :
    dissect_ipv6 a (s.moved base r t)
      = (dissect_ipv6 b s).moved base (dissect_ipv6 a (s.moved base r t)).reads
          (dissect_ipv6 a (s.moved base r t)).target.control.thoff := by
  obtain ⟨ha, hb, hfd, hpo, hhp⟩ := h
  simp only [dissect_ipv6, walk.header, walk.moved, dissect_args.uses, ha, hb, hfd, hpo, hhp,
    Nat.add_assoc, Nat.add_comm, Nat.add_left_comm]
  repeat' split
  all_goals simp_all [Nat.add_assoc, Nat.add_comm, Nat.add_left_comm]

theorem moved_dissect_vlan (a b : dissect_args) (base : Nat) (h : shifted a b base)
    (s : walk) (r : List header_read) (t : Nat) :
    dissect_vlan a (s.moved base r t)
      = (dissect_vlan b s).moved base (dissect_vlan a (s.moved base r t)).reads
          (dissect_vlan a (s.moved base r t)).target.control.thoff := by
  obtain ⟨ha, hb, hfd, hpo, hhp⟩ := h
  simp only [dissect_vlan, walk.header, walk.moved, dissect_args.uses, ha, hb, hfd, hpo, hhp,
    Nat.add_assoc, Nat.add_comm, Nat.add_left_comm]
  repeat' split
  all_goals simp_all [Nat.add_assoc, Nat.add_comm, Nat.add_left_comm]

theorem moved_dissect_pppoe (a b : dissect_args) (base : Nat) (h : shifted a b base)
    (s : walk) (r : List header_read) (t : Nat) :
    dissect_pppoe a (s.moved base r t)
      = (dissect_pppoe b s).moved base (dissect_pppoe a (s.moved base r t)).reads
          (dissect_pppoe a (s.moved base r t)).target.control.thoff := by
  obtain ⟨ha, hb, hfd, hpo, hhp⟩ := h
  simp only [dissect_pppoe, walk.header, walk.moved, dissect_args.uses, ha, hb, hfd, hpo, hhp,
    Nat.add_assoc, Nat.add_comm, Nat.add_left_comm]
  repeat' split
  all_goals simp_all [Nat.add_assoc, Nat.add_comm, Nat.add_left_comm]

theorem moved_dissect_tipc (a b : dissect_args) (base : Nat) (h : shifted a b base)
    (s : walk) (r : List header_read) (t : Nat) :
    dissect_tipc a (s.moved base r t)
      = (dissect_tipc b s).moved base (dissect_tipc a (s.moved base r t)).reads
          (dissect_tipc a (s.moved base r t)).target.control.thoff := by
  obtain ⟨ha, hb, hfd, hpo, hhp⟩ := h
  simp only [dissect_tipc, walk.header, walk.moved, dissect_args.uses, ha, hb, hfd, hpo, hhp,
    Nat.add_assoc, Nat.add_comm, Nat.add_left_comm]
  repeat' split
  all_goals simp_all [Nat.add_assoc, Nat.add_comm, Nat.add_left_comm]

theorem moved_dissect_mpls (a b : dissect_args) (base : Nat) (h : shifted a b base)
    (s : walk) (r : List header_read) (t : Nat) :
    dissect_mpls a (s.moved base r t)
      = (dissect_mpls b s).moved base (dissect_mpls a (s.moved base r t)).reads
          (dissect_mpls a (s.moved base r t)).target.control.thoff := by
  obtain ⟨ha, hb, hfd, hpo, hhp⟩ := h
  simp only [dissect_mpls, walk.header, walk.moved, dissect_args.uses, ha, hb, hfd, hpo, hhp,
    Nat.add_assoc, Nat.add_comm, Nat.add_left_comm]
  repeat' split
  all_goals simp_all [Nat.add_assoc, Nat.add_comm, Nat.add_left_comm]

theorem moved_of_sim (base : Nat) (s s' : walk) (h : sim base s s') :
    s = s'.moved base s.reads s.target.control.thoff := by
  obtain ⟨pc, proto, nhoff, ip, opt, ⟨⟨thoff, adt⟩, basic, tags, keyid, ports, addrs, eth⟩, reads⟩ := s
  obtain ⟨pc', proto', nhoff', ip', opt', ⟨⟨thoff', adt'⟩, basic', tags', keyid', ports', addrs', eth'⟩, reads'⟩ := s'
  simp only [sim, walk.moved] at h
  simp only [walk.moved]
  simp_all

theorem sim_of_moved (base : Nat) (s s' : walk) (r : List header_read) (t : Nat)
    (h : s = s'.moved base r t) : sim base s s' := by
  subst h
  simp [sim, walk.moved]

theorem sim_dissect_out (a b : dissect_args) (base : Nat) (h : shifted a b base)
    (s s' : walk) (hs : sim base s s') : sim base (dissect_out a s) (dissect_out b s') := by
  rw [moved_of_sim base s s' hs]
  exact sim_of_moved base _ _ _ _ (moved_dissect_out a b base h s' _ _)

theorem sim_dissect_gre_seq (a b : dissect_args) (base : Nat) (h : shifted a b base)
    (flags : Nat) (s s' : walk) (hs : sim base s s') :
    sim base (dissect_gre_seq a flags s) (dissect_gre_seq b flags s') := by
  rw [moved_of_sim base s s' hs]
  exact sim_of_moved base _ _ _ _ (moved_dissect_gre_seq a b base h flags s' _ _)

theorem sim_fields (base : Nat) (s s' : walk) (h : sim base s s') :
    s.pc = s'.pc ∧ s.proto = s'.proto ∧ s.ip_proto = s'.ip_proto ∧
    s.nhoff = s'.nhoff + base := by
  have := moved_of_sim base s s' h
  rw [this]
  simp [walk.moved]

theorem sim_dissect_gre (a b : dissect_args) (base : Nat) (h : shifted a b base)
    (s s' : walk) (hs : sim base s s') : sim base (dissect_gre a s) (dissect_gre b s') := by
  have ho := sim_dissect_out a b base h
  have hg := sim_dissect_gre_seq a b base h
  rw [moved_of_sim base s s' hs]
  generalize s.reads = r
  generalize s.target.control.thoff = t
  clear hs
  obtain ⟨ha, hb, hfd, hpo, hhp⟩ := h
  have hrd : ∀ c len, __skb_header_pointer none (s'.nhoff + (base + c)) len a.buf a.buflen
      = __skb_header_pointer none (s'.nhoff + c) len b.buf b.buflen := by
    intro c len
    rw [hhp]
    congr 1
    omega
  have hrd0 : ∀ len, __skb_header_pointer none (s'.nhoff + base) len a.buf a.buflen
      = __skb_header_pointer none s'.nhoff len b.buf b.buflen := by
    intro len
    rw [hhp]
  simp only [dissect_gre, walk.header, walk.moved, dissect_args.uses, ha, hb, hfd, hrd0]
  cases hbytes : (__skb_header_pointer none s'.nhoff 4 b.buf b.buflen).bytes with
  | none => simp [sim, walk.moved]
  | some hdr =>
    by_cases hver : be16_at hdr 0 &&& (GRE_VERSION ||| GRE_ROUTING) ≠ 0
    · simp only [if_pos hver]
      apply ho
      simp [sim, walk.moved]
    · simp only [if_neg hver]
      cases hu : skb_flow_dissector_uses_key b.flow_dissector FLOW_DISSECTOR_KEY_GRE_KEYID <;>
      by_cases hcsum : be16_at hdr 0 &&& GRE_CSUM ≠ 0 <;>
      by_cases hkey : be16_at hdr 0 &&& GRE_KEY ≠ 0 <;>
      simp only [if_pos hcsum, if_neg hcsum, if_pos hkey, if_neg hkey, Bool.false_eq_true,
        if_true, if_false, Nat.add_assoc, hrd]
      all_goals first
        | (apply hg; simp [sim, walk.moved]; done)
        | (apply hg; simp [sim, walk.moved]; omega)
        | (cases hk : (__skb_header_pointer none (s'.nhoff + 8) 4 b.buf b.buflen).bytes
           · simp [sim, walk.moved]
             try omega
           · apply hg
             simp [sim, walk.moved]
             try omega)
        | (cases hk : (__skb_header_pointer none (s'.nhoff + 4) 4 b.buf b.buflen).bytes
           · simp [sim, walk.moved]
             try omega
           · apply hg
             simp [sim, walk.moved]
             try omega)

theorem sim_dissect_opthdr (a b : dissect_args) (base : Nat) (h : shifted a b base)
    (s s' : walk) (hs : sim base s s') :
    sim base (dissect_opthdr a s) (dissect_opthdr b s') := by
  rw [moved_of_sim base s s' hs]
  generalize s.reads = r
  generalize s.target.control.thoff = t
  have ho := sim_dissect_out a b base h
  obtain ⟨ha, hb, hfd, hpo, hhp⟩ := h
  simp only [dissect_opthdr, walk.header, walk.moved, dissect_args.uses, ha, hb, hfd, hpo, hhp,
    Nat.add_assoc, Nat.add_comm, Nat.add_left_comm]
  repeat' split
  all_goals first
    | (apply ho; simp_all [sim, walk.moved, Nat.add_assoc, Nat.add_comm, Nat.add_left_comm])
    | simp_all [sim, walk.moved, Nat.add_assoc, Nat.add_comm, Nat.add_left_comm]

theorem sim_dissect_ip (a b : dissect_args) (base : Nat) (h : shifted a b base)
    (s s' : walk) (hs : sim base s s') : sim base (dissect_ip a s) (dissect_ip b s') := by
  rw [moved_of_sim base s s' hs]
  exact sim_of_moved base _ _ _ _ (moved_dissect_ip a b base h s' _ _)

theorem sim_dissect_ipv6 (a b : dissect_args) (base : Nat) (h : shifted a b base)
    (s s' : walk) (hs : sim base s s') : sim base (dissect_ipv6 a s) (dissect_ipv6 b s') := by
  rw [moved_of_sim base s s' hs]
  exact sim_of_moved base _ _ _ _ (moved_dissect_ipv6 a b base h s' _ _)

theorem sim_dissect_vlan (a b : dissect_args) (base : Nat) (h : shifted a b base)
    (s s' : walk) (hs : sim base s s') : sim base (dissect_vlan a s) (dissect_vlan b s') := by
  rw [moved_of_sim base s s' hs]
  exact sim_of_moved base _ _ _ _ (moved_dissect_vlan a b base h s' _ _)

theorem sim_dissect_pppoe (a b : dissect_args) (base : Nat) (h : shifted a b base)
    (s s' : walk) (hs : sim base s s') : sim base (dissect_pppoe a s) (dissect_pppoe b s') := by
  rw [moved_of_sim base s s' hs]
  exact sim_of_moved base _ _ _ _ (moved_dissect_pppoe a b base h s' _ _)

theorem sim_dissect_tipc (a b : dissect_args) (base : Nat) (h : shifted a b base)
    (s s' : walk) (hs : sim base s s') : sim base (dissect_tipc a s) (dissect_tipc b s') := by
  rw [moved_of_sim base s s' hs]
  exact sim_of_moved base _ _ _ _ (moved_dissect_tipc a b base h s' _ _)

theorem sim_dissect_mpls (a b : dissect_args) (base : Nat) (h : shifted a b base)
    (s s' : walk) (hs : sim base s s') : sim base (dissect_mpls a s) (dissect_mpls b s') := by
  rw [moved_of_sim base s s' hs]
  exact sim_of_moved base _ _ _ _ (moved_dissect_mpls a b base h s' _ _)

theorem sim_step (a b : dissect_args) (base : Nat) (h : shifted a b base)
    (s s' : walk) (hs : sim base s s') : sim base (step a s) (step b s') := by
  obtain ⟨e0, e1, e2, _⟩ := sim_fields base s s' hs
  simp only [step, dissect_again, dissect_ip_proto_again, e0, e1, e2]
  repeat' split
  all_goals first
    | exact sim_dissect_ip a b base h s s' hs
    | exact sim_dissect_ipv6 a b base h s s' hs
    | exact sim_dissect_vlan a b base h s s' hs
    | exact sim_dissect_pppoe a b base h s s' hs
    | exact sim_dissect_tipc a b base h s s' hs
    | exact sim_dissect_mpls a b base h s s' hs
    | exact sim_dissect_gre a b base h s s' hs
    | exact sim_dissect_opthdr a b base h s s' hs
    | exact sim_dissect_out a b base h s s' hs
    | exact hs
    | (rw [moved_of_sim base s s' hs]; simp [sim, walk.moved])

theorem sim_run (a b : dissect_args) (base : Nat) (h : shifted a b base) (n : Nat) :
    ∀ s s' : walk, sim base s s' → sim base (run a n s) (run b n s') := by
  induction n with
  | zero => intro s s' hs; exact hs
  | succ n ih => intro s s' hs; exact ih _ _ (sim_step a b base h s s' hs)

theorem header_pointer_window (d : Nat → Nat) (base hlen : Nat) (hb : base ≤ hlen)
    (off len : Nat) :
    __skb_header_pointer none off len (window base d) (hlen - base)
      = __skb_header_pointer none (off + base) len d hlen := by
  simp only [__skb_header_pointer]
  by_cases h : off + len ≤ hlen - base
  · have h' : off + base + len ≤ hlen := by omega
    simp only [h, h', if_true, get_bytes, window]
    congr 1
    apply List.map_congr_left
    intro i _
    congr 2
    omega
  · have h' : ¬ off + base + len ≤ hlen := by omega
    simp only [h, h', if_false]

theorem window_strip_bytes (d : Nat → Nat) (o k : Nat) :
    window o (strip_bytes o k d) = window (o + k) d := by
  funext i
  simp only [window, strip_bytes]
  have : ¬ o + i < o := by omega
  simp only [this, if_false]
  congr 1
  omega

theorem shifted_window (a : dissect_args) (d : Nat → Nat) (base : Nat) (p : Nat)
    (hs : a.skb = none) (hb : base ≤ a.hlen) :
    shifted { a with data := some d, proto := p, nhoff := base }
      { a with data := some (window base d), hlen := a.hlen - base, proto := p, nhoff := 0 }
      base := by
  refine ⟨hs, hs, rfl, rfl, ?_⟩
  intro off len
  exact header_pointer_window d base a.hlen hb off len

theorem sim_dissect_start (a : dissect_args) (d : Nat → Nat) (base : Nat) (p : Nat) :
    sim base (dissect_start { a with data := some d, proto := p, nhoff := base })
      (dissect_start
        { a with data := some (window base d), hlen := a.hlen - base, proto := p, nhoff := 0 }) := by
  simp only [dissect_start, dissect_args.uses, sim, walk.moved]
  repeat' split
  all_goals simp_all

theorem outcome_of_sim (a b : dissect_args) (base n m : Nat)
    (h : sim base (run a n (dissect_start a)) (run b m (dissect_start b))) :
    (__skb_flow_dissect a n).map outcome.without_thoff
      = (__skb_flow_dissect b m).map outcome.without_thoff := by
  have hm := moved_of_sim base _ _ h
  simp only [__skb_flow_dissect]
  rw [hm]
  generalize run b m (dissect_start b) = s'
  generalize (run a n (dissect_start a)).reads = r
  generalize (run a n (dissect_start a)).target.control.thoff = t
  cases hpc : s'.pc <;>
    simp [walk.moved, hpc, outcome.without_thoff, flow_keys.without_thoff]

/-- Dissection of a buffer from offset `base` and dissection of the window of
the buffer that starts at `base`, from offset 0. -/
theorem dissect_window (a : dissect_args) (d : Nat → Nat) (base p n : Nat)
    (hs : a.skb = none) (hb : base ≤ a.hlen) :
    (__skb_flow_dissect { a with data := some d, proto := p, nhoff := base } n).map
        outcome.without_thoff
      = (__skb_flow_dissect
          { a with data := some (window base d), hlen := a.hlen - base, proto := p,
                   nhoff := 0 } n).map outcome.without_thoff := by
  apply outcome_of_sim _ _ base
  exact sim_run _ _ base (shifted_window a d base p hs hb) n _ _ (sim_dissect_start a d base p)

/-- Dissection of a buffer with `k` bytes taken out at `o`, from offset `o`, and
dissection of the whole buffer from offset `o + k`. -/
theorem dissect_strip_bytes (a : dissect_args) (d : Nat → Nat) (o k p n : Nat)
    (hs : a.skb = none) (hb : o + k ≤ a.hlen) :
    (__skb_flow_dissect { a with data := some d, proto := p, nhoff := o + k } n).map
        outcome.without_thoff
      = (__skb_flow_dissect
          { a with data := some (strip_bytes o k d), hlen := a.hlen - k, proto := p,
                   nhoff := o } n).map outcome.without_thoff := by
  rw [dissect_window a d (o + k) p n hs hb]
  have h2 := dissect_window { a with hlen := a.hlen - k } (strip_bytes o k d) o p n hs
    (by show o ≤ a.hlen - k; omega)
  rw [window_strip_bytes] at h2
  have e : a.hlen - k - o = a.hlen - (o + k) := by omega
  simp only [e] at h2
  exact h2.symm

/-! ## Lemmas on the hash of a packet and the payload offset -/

theorem consistentify_ports_ne_zero (le : Bool) (k : flow_keys) :
    (__flow_hash_consistentify le k).ports.ports ≠ 0 ↔ k.ports.ports ≠ 0 := by
  simp only [__flow_hash_consistentify, flow_dissector_key_ports.ports]
  repeat' split
  all_goals simp only [ne_eq, Nat.add_eq_zero, Nat.mul_eq_zero]
  all_goals omega

theorem hash_from_keys_fst_ne_zero (le : Bool) (jhash2 : List Nat → Nat → Nat)
    (keys : flow_keys) (keyval : Nat) : (__flow_hash_from_keys le jhash2 keys keyval).1 ≠ 0 := by
  simp only [__flow_hash_from_keys]
  split <;> simp_all

theorem hash_words_of_same_hashed (le : Bool) (k k' : flow_keys) (h : same_hashed k k') :
    (flow_keys_hash_start le k).take (flow_keys_hash_length k)
      = (flow_keys_hash_start le k').take (flow_keys_hash_length k') := by
  obtain ⟨h1, h2, h3, h4, h5, h6, h7, h8⟩ := h
  simp only [flow_keys_hash_start, flow_keys_hash_length, ← h1, ← h2, ← h3, ← h4, ← h5,
    FLOW_KEYS_HASH_OFFSET, sizeof_addrs, sizeof_flow_keys]
  by_cases c4 : k.control.addr_type = FLOW_DISSECTOR_KEY_IPV4_ADDRS.val
  · obtain ⟨e0, e1⟩ := h6 c4
    simp [c4, e0, e1, List.take]
  · by_cases c6 : k.control.addr_type = FLOW_DISSECTOR_KEY_IPV6_ADDRS.val
    · simp [c6, h7 c6]
    · by_cases ct : k.control.addr_type = FLOW_DISSECTOR_KEY_TIPC_ADDRS.val
      · simp [c4, c6, ct, h8 ct, List.take]
      · simp [c4, c6, ct, List.take]

theorem same_hashed_consistentify (le : Bool) (k k' : flow_keys) (h : same_hashed k k') :
    same_hashed (__flow_hash_consistentify le k) (__flow_hash_consistentify le k') := by
  obtain ⟨h1, h2, h3, h4, h5, h6, h7, h8⟩ := h
  simp only [__flow_hash_consistentify, ← h1, ← h5]
  by_cases c4 : k.control.addr_type = FLOW_DISSECTOR_KEY_IPV4_ADDRS.val
  · obtain ⟨e0, e1⟩ := h6 c4
    have n6 : ¬ k.control.addr_type = FLOW_DISSECTOR_KEY_IPV6_ADDRS.val := by
      rw [c4]; decide
    rw [if_pos c4, if_pos c4, ← e0, ← e1]
    split_ifs
    · exact ⟨h1, h2, h3, h4, rfl, fun _ => ⟨rfl, rfl⟩, fun c => absurd c n6, fun _ => rfl⟩
    · exact ⟨h1, h2, h3, h4, h5, h6, h7, h8⟩
  · by_cases c6 : k.control.addr_type = FLOW_DISSECTOR_KEY_IPV6_ADDRS.val
    · have e := h7 c6
      rw [if_neg c4, if_neg c4, if_pos c6, if_pos c6, ← e]
      split_ifs
      · exact ⟨h1, h2, h3, h4, rfl, fun c => absurd c c4, fun _ => rfl, fun _ => rfl⟩
      · exact ⟨h1, h2, h3, h4, h5, h6, h7, h8⟩
    · rw [if_neg c4, if_neg c4, if_neg c6, if_neg c6]
      exact ⟨h1, h2, h3, h4, h5, h6, h7, h8⟩

theorem and_0xF0_shift_le (x : Nat) : (x &&& 0xF0) >>> 2 ≤ 60 := by
  have h : x &&& 0xF0 ≤ 0xF0 := Nat.and_le_right
  rw [Nat.shiftRight_eq_div_pow]
  omega

theorem and_0xF0_shift_eq (x : Nat) (hx : x < 256) : (x &&& 0xF0) >>> 2 = 4 * (x / 16) := by
  interval_cases x <;> rfl

/-! ## Lemmas on the first step and on the closed form of the GRE case -/

theorem step_mpls (a : dissect_args) (s : walk)
    (h : s.pc = .mpls ∨ (s.pc = .again ∧ (s.proto = ETH_P_MPLS_UC ∨ s.proto = ETH_P_MPLS_MC))) :
    step a s = dissect_mpls a s := by
  rcases h with h | ⟨h, hp⟩
  · simp only [step, h]
  · have h1 : s.proto ≠ ETH_P_IP := by rcases hp with p | p <;> rw [p] <;> decide
    have h2 : s.proto ≠ ETH_P_IPV6 := by rcases hp with p | p <;> rw [p] <;> decide
    have h3 : ¬ (s.proto = ETH_P_8021AD ∨ s.proto = ETH_P_8021Q) := by
      rcases hp with p | p <;> rw [p] <;> decide
    have h4 : s.proto ≠ ETH_P_PPP_SES := by rcases hp with p | p <;> rw [p] <;> decide
    have h5 : s.proto ≠ ETH_P_TIPC := by rcases hp with p | p <;> rw [p] <;> decide
    simp only [step, h, dissect_again, h1, h2, h3, h4, h5, hp, if_false, if_true]

theorem step_first_header_fails (a : dissect_args) (s : walk) (hpc : s.pc = .again)
    (h : (s.proto = ETH_P_IP ∧
          (__skb_header_pointer a.skb s.nhoff 20 a.buf a.buflen).bytes = none) ∨
        (s.proto = ETH_P_IP ∧
          ∃ iph, (__skb_header_pointer a.skb s.nhoff 20 a.buf a.buflen).bytes = some iph ∧
            u8_at iph 0 % 16 < 5) ∨
        (s.proto = ETH_P_IPV6 ∧
          (__skb_header_pointer a.skb s.nhoff 40 a.buf a.buflen).bytes = none) ∨
        ((s.proto = ETH_P_8021Q ∨ s.proto = ETH_P_8021AD) ∧
          (__skb_header_pointer a.skb s.nhoff 4 a.buf a.buflen).bytes = none) ∨
        (s.proto = ETH_P_PPP_SES ∧
          (__skb_header_pointer a.skb s.nhoff 8 a.buf a.buflen).bytes = none) ∨
        (s.proto = ETH_P_TIPC ∧
          (__skb_header_pointer a.skb s.nhoff 16 a.buf a.buflen).bytes = none) ∨
        ((s.proto = ETH_P_MPLS_UC ∨ s.proto = ETH_P_MPLS_MC) ∧
          (__skb_header_pointer a.skb s.nhoff 8 a.buf a.buflen).bytes = none)) :
    (step a s).pc = .ret false ∧ (step a s).target = s.target := by
  rcases h with ⟨p, hn⟩ | ⟨p, iph, hh, hl⟩ | ⟨p, hn⟩ | ⟨p, hn⟩ | ⟨p, hn⟩ | ⟨p, hn⟩ | ⟨p, hn⟩
  · rw [step_ip a s (Or.inr ⟨hpc, p⟩)]
    simp [dissect_ip, walk.header, hn]
  · rw [step_ip a s (Or.inr ⟨hpc, p⟩)]
    simp [dissect_ip, walk.header, hh, hl]
  · rw [step_ipv6 a s (Or.inr ⟨hpc, p⟩)]
    simp [dissect_ipv6, walk.header, hn]
  · rw [step_vlan a s hpc (by tauto)]
    simp [dissect_vlan, walk.header, hn]
  · have e : step a s = dissect_pppoe a s := by
      have h1 : s.proto ≠ ETH_P_IP := by rw [p]; decide
      have h2 : s.proto ≠ ETH_P_IPV6 := by rw [p]; decide
      have h3 : ¬ (s.proto = ETH_P_8021AD ∨ s.proto = ETH_P_8021Q) := by rw [p]; decide
      simp only [step, hpc, dissect_again, h1, h2, h3, if_false]
      rw [if_pos p]
    rw [e]
    simp [dissect_pppoe, walk.header, hn]
  · have e : step a s = dissect_tipc a s := by
      have h1 : s.proto ≠ ETH_P_IP := by rw [p]; decide
      have h2 : s.proto ≠ ETH_P_IPV6 := by rw [p]; decide
      have h3 : ¬ (s.proto = ETH_P_8021AD ∨ s.proto = ETH_P_8021Q) := by rw [p]; decide
      have h4 : s.proto ≠ ETH_P_PPP_SES := by rw [p]; decide
      simp only [step, hpc, dissect_again, h1, h2, h3, h4, if_false]
      rw [if_pos p]
    rw [e]
    simp [dissect_tipc, walk.header, hn]
  · rw [step_mpls a s (Or.inr ⟨hpc, p⟩)]
    simp [dissect_mpls, walk.header, hn]

/-- The state after the GRE case, for a header of version 0 without routing:
`key` is what the read of the key gives when the key flag is set. -/
theorem dissect_gre_v0 (a : dissect_args) (s : walk) (hdr : List Nat)
    (hhdr : (__skb_header_pointer a.skb s.nhoff 4 a.buf a.buflen).bytes = some hdr)
    (hver : be16_at hdr 0 &&& (GRE_VERSION ||| GRE_ROUTING) = 0) :
    dissect_gre a s =
      (if be16_at hdr 0 &&& GRE_KEY ≠ 0 then
        match (__skb_header_pointer a.skb
            (s.nhoff + 4 + (if be16_at hdr 0 &&& GRE_CSUM ≠ 0 then 4 else 0)) 4
            a.buf a.buflen).bytes with
        | none =>
          { s with
            proto := be16_at hdr 2,
            nhoff := s.nhoff + 4 + (if be16_at hdr 0 &&& GRE_CSUM ≠ 0 then 4 else 0),
            reads := s.reads ++ [⟨.GRE_HDR, s.nhoff, 4, true⟩] ++
              [⟨.GRE_KEYID, s.nhoff + 4 + (if be16_at hdr 0 &&& GRE_CSUM ≠ 0 then 4 else 0),
                4, false⟩],
            pc := .ret false }
        | some keyid =>
          dissect_gre_seq a (be16_at hdr 0)
            { s with
              proto := be16_at hdr 2,
              nhoff := s.nhoff + 4 + (if be16_at hdr 0 &&& GRE_CSUM ≠ 0 then 4 else 0) + 4,
              reads := s.reads ++ [⟨.GRE_HDR, s.nhoff, 4, true⟩] ++
                [⟨.GRE_KEYID, s.nhoff + 4 + (if be16_at hdr 0 &&& GRE_CSUM ≠ 0 then 4 else 0),
                  4, true⟩],
              target :=
                if a.uses FLOW_DISSECTOR_KEY_GRE_KEYID then
                  { s.target with keyid := { keyid := be32_at keyid 0 } }
                else s.target }
      else
        dissect_gre_seq a (be16_at hdr 0)
          { s with
            proto := be16_at hdr 2,
            nhoff := s.nhoff + 4 + (if be16_at hdr 0 &&& GRE_CSUM ≠ 0 then 4 else 0),
            reads := s.reads ++ [⟨.GRE_HDR, s.nhoff, 4, true⟩] }) := by
  have hver' : ¬ (be16_at hdr 0 &&& (GRE_VERSION ||| GRE_ROUTING) ≠ 0) := by simp [hver]
  simp only [dissect_gre, walk.header, hhdr, if_neg hver', Option.isSome_some]
  by_cases hcsum : be16_at hdr 0 &&& GRE_CSUM ≠ 0 <;>
  by_cases hkey : be16_at hdr 0 &&& GRE_KEY ≠ 0 <;>
  simp only [if_pos hcsum, if_neg hcsum, if_pos hkey, if_neg hkey, Nat.add_zero]
  all_goals first
    | rfl
    | (split <;> first | (simp_all; done) | (simp_all; split <;> rfl))

/-- The end of the GRE case: the state after the test of the sequence flag and
of the protocol TEB. -/
theorem dissect_gre_seq_result (a : dissect_args) (flags : Nat) (s : walk) :
    (s.proto ≠ ETH_P_TEB →
      dissect_gre_seq a flags s
        = { s with nhoff := s.nhoff + (if flags &&& GRE_SEQ ≠ 0 then 4 else 0), pc := .again }) ∧
    (s.proto = ETH_P_TEB →
      (∀ eth, (__skb_header_pointer a.skb
          (s.nhoff + (if flags &&& GRE_SEQ ≠ 0 then 4 else 0)) 14 a.buf a.buflen).bytes
          = some eth →
        dissect_gre_seq a flags s
          = { s with
              proto := be16_at eth 12,
              nhoff := s.nhoff + (if flags &&& GRE_SEQ ≠ 0 then 4 else 0) + 14,
              reads := s.reads ++
                [⟨.ETHHDR, s.nhoff + (if flags &&& GRE_SEQ ≠ 0 then 4 else 0), 14, true⟩],
              pc := .again }) ∧
      ((__skb_header_pointer a.skb
          (s.nhoff + (if flags &&& GRE_SEQ ≠ 0 then 4 else 0)) 14 a.buf a.buflen).bytes
          = none →
        (dissect_gre_seq a flags s).pc = .ret false ∧
        (dissect_gre_seq a flags s).target = s.target)) := by
  by_cases hseq : flags &&& GRE_SEQ ≠ 0
  · simp only [dissect_gre_seq, walk.header, if_pos hseq]
    refine ⟨?_, ?_⟩
    · intro h; simp [h]
    · intro h
      refine ⟨?_, ?_⟩
      · intro eth he; simp [h, he]
      · intro he; simp [h, he]
  · simp only [dissect_gre_seq, walk.header, if_neg hseq, Nat.add_zero]
    refine ⟨?_, ?_⟩
    · intro h; simp [h]
    · intro h
      refine ⟨?_, ?_⟩
      · intro eth he; simp [h, he]
      · intro he; simp [h, he]

/-! ## Lemmas on the VLAN id of a tagged IPv4 packet -/

theorem dissect_vlan_requested (a : dissect_args) (skb : sk_buff) (s : walk) (vlan : List Nat)
    (hs : a.skb = some skb) (hpc : s.pc = .again)
    (hu : a.uses FLOW_DISSECTOR_KEY_VLANID = true)
    (hv : (__skb_header_pointer a.skb s.nhoff 4 a.buf a.buflen).bytes = some vlan) :
    dissect_vlan a s =
      { s with
        pc := .again, proto := be16_at vlan 2, nhoff := s.nhoff + 4,
        target := { s.target with
          tags := { s.target.tags with vlan_id := a.skb_vlan_tag_get_id skb } },
        reads := s.reads ++ [⟨.VLAN_HDR, s.nhoff, 4, true⟩] } := by
  rw [hs] at hv
  simp only [dissect_vlan, walk.header, hv, hu, if_true, hs, hpc, Option.isSome_some]
  simp

theorem vlan_ipv4_walk_core (a : dissect_args) (skb : sk_buff) (s0 : walk)
    (vlan iph : List Nat)
    (hs : a.skb = some skb)
    (hu : a.uses FLOW_DISSECTOR_KEY_VLANID = true)
    (hpc : s0.pc = .again)
    (hproto : s0.proto = ETH_P_8021AD ∨ s0.proto = ETH_P_8021Q)
    (hv : (__skb_header_pointer a.skb s0.nhoff 4 a.buf a.buflen).bytes = some vlan)
    (hip : be16_at vlan 2 = ETH_P_IP)
    (hiph : (__skb_header_pointer a.skb (s0.nhoff + 4) 20 a.buf a.buflen).bytes = some iph)
    (h5 : 5 ≤ u8_at iph 0 % 16)
    (hfrag : ip_is_fragment iph = false)
    (hp : u8_at iph 9 = IPPROTO_UDP) :
    (run a 3 s0).pc = .ret true ∧
    (run a 3 s0).target.tags.vlan_id = a.skb_vlan_tag_get_id skb := by
  have e1 : step a s0 = dissect_vlan a s0 := step_vlan a _ hpc hproto
  rw [dissect_vlan_requested a skb s0 vlan hs hpc hu hv] at e1
  generalize hs1 : step a s0 = s1 at e1
  have e2 : step a s1 = dissect_ip a s1 := step_ip a s1 (Or.inr ⟨by rw [e1], by rw [e1]; exact hip⟩)
  have hiph1 : (__skb_header_pointer a.skb s1.nhoff 20 a.buf a.buflen).bytes = some iph := by
    rw [e1]; exact hiph
  rw [dissect_ip_of_header a s1 iph hiph1 h5] at e2
  simp only [hfrag, Bool.false_eq_true, if_false, hp] at e2
  generalize hs2 : step a s1 = s2 at e2
  have e3 : step a s2 = dissect_out a s2 :=
    step_to_out a s2 (by rw [e2]) (by rw [e2]; simp only []; decide)
      (by rw [e2]; simp only []; decide) (by rw [e2]; simp only []; decide)
      (by rw [e2]; simp only []; decide) (Or.inr (by rw [e2]; simp only []; decide))
  have ho := dissect_out_result a s2
  have er : run a 3 s0 = dissect_out a s2 := by
    show step a (step a (step a s0)) = _
    rw [hs1, hs2, e3]
  have ht : s2.target.tags.vlan_id = a.skb_vlan_tag_get_id skb := by
    rw [e2, e1]
    simp only []
    split <;> rfl
  rw [er]
  exact ⟨ho.1, by rw [ho.2.2.2.2.2.2.2.1, ht]⟩

theorem vlan_ipv4_walk (a : dissect_args) (skb : sk_buff) (o : Nat) (vlan iph : List Nat)
    (hs : a.skb = some skb)
    (hu : a.uses FLOW_DISSECTOR_KEY_VLANID = true)
    (hpc : (dissect_start a).pc = .again)
    (hproto : (dissect_start a).proto = ETH_P_8021AD ∨ (dissect_start a).proto = ETH_P_8021Q)
    (ho : (dissect_start a).nhoff = o)
    (hv : (__skb_header_pointer a.skb o 4 a.buf a.buflen).bytes = some vlan)
    (hip : be16_at vlan 2 = ETH_P_IP)
    (hiph : (__skb_header_pointer a.skb (o + 4) 20 a.buf a.buflen).bytes = some iph)
    (h5 : 5 ≤ u8_at iph 0 % 16)
    (hfrag : ip_is_fragment iph = false)
    (hp : u8_at iph 9 = IPPROTO_UDP) :
    ∃ t, __skb_flow_dissect a 3 = some (.returned true t) ∧
      t.tags.vlan_id = a.skb_vlan_tag_get_id skb := by
  subst ho
  obtain ⟨h1, h2⟩ := vlan_ipv4_walk_core a skb (dissect_start a) vlan iph hs hu hpc hproto hv hip
    hiph h5 hfrag hp
  exact ⟨_, dissect_eq_of_pc a 3 true h1, h2⟩

theorem vlan_data_call_start (get_id : sk_buff → Nat) (skb : sk_buff) (packet : List Nat) :
    (dissect_start (flow_keys_vlan_data_call get_id skb packet)).pc = .again ∧
    (dissect_start (flow_keys_vlan_data_call get_id skb packet)).proto = ETH_P_8021Q ∧
    (dissect_start (flow_keys_vlan_data_call get_id skb packet)).nhoff = 0 := by
  have hu := (uses_flow_keys_dissector (flow_keys_vlan_data_call get_id skb packet) rfl).2.2.2.2.2.2.2.2
  simp only [dissect_start, hu]
  refine ⟨by simp [flow_keys_vlan_data_call], ?_, ?_⟩
  · simp [flow_keys_vlan_data_call, flow_keys_call, ETH_P_8021Q]
  · simp [flow_keys_vlan_data_call, flow_keys_call]

/-! # Main theorems -/

/-- C1 (amended): when a header read of the walk fails (the bytes are not
available), and it is neither the read of an IPv6 extension header prefix nor
the read of the ports, `__skb_flow_dissect` returns `false`; when the read of
the ports at the transport offset fails, `__skb_flow_dissect` returns `true`
and has recorded the ports as zero. -/
theorem __skb_flow_dissect_failed_read (a : dissect_args) (n : Nat) (r : header_read)
    (hr : r ∈ (run a n (dissect_start a)).reads) (hok : r.ok = false) :
    (r.what ≠ .OPTHDR → r.what ≠ .PORTS →
      __skb_flow_dissect a n = some (.returned false (run a n (dissect_start a)).target)) ∧
    (r.what = .PORTS →
      __skb_flow_dissect a n = some (.returned true (run a n (dissect_start a)).target) ∧
      (run a n (dissect_start a)).target.ports = ⟨0, 0⟩) := by
  have h := settled_run a n _ (settled_dissect_start a) r hr hok
  constructor
  · intro h1 h2
    rcases h with h | h | h
    · exact absurd h h1
    · exact dissect_eq_of_pc a n false h.2
    · exact absurd h.1 h2
  · intro h1
    rcases h with h | h | h
    · rw [h1] at h; exact absurd h (by decide)
    · exact absurd h1 h.1
    · exact ⟨dissect_eq_of_pc a n true h.2.1, h.2.2⟩

/-- Witness of C1 (amended): an IPv4 packet cut after 10 bytes; the read of the
IPv4 header fails and the call returns `false`, the target still zero. -/
theorem __skb_flow_dissect_failed_read_witness :
    (⟨.IPHDR, 0, 20, false⟩ : header_read) ∈
      (run (flow_keys_call (linear_skb (ipv4_udp_packet.take 10) ETH_P_IP)) 1
        (dissect_start (flow_keys_call (linear_skb (ipv4_udp_packet.take 10) ETH_P_IP)))).reads ∧
    __skb_flow_dissect (flow_keys_call (linear_skb (ipv4_udp_packet.take 10) ETH_P_IP)) 1
      = some (.returned false flow_keys.zero) :=
  ⟨by decide,
   ((__skb_flow_dissect_failed_read
      (flow_keys_call (linear_skb (ipv4_udp_packet.take 10) ETH_P_IP)) 1
      ⟨.IPHDR, 0, 20, false⟩ (by decide) rfl).1 (by decide) (by decide)).trans (by decide)⟩

/-- Counterexample to C1 as stated: an IPv4 packet that carries UDP, cut after
the 20 bytes of its IPv4 header. The read of the 4 bytes of the ports at offset
20 fails, and the call returns `true` (with the ports left at zero). -/
theorem __skb_flow_dissect_ports_read_fails :
    (⟨.PORTS, 20, 4, false⟩ : header_read) ∈
      (run (flow_keys_call (linear_skb (ipv4_udp_packet.take 20) ETH_P_IP)) 2
        (dissect_start (flow_keys_call (linear_skb (ipv4_udp_packet.take 20) ETH_P_IP)))).reads ∧
    __skb_flow_dissect (flow_keys_call (linear_skb (ipv4_udp_packet.take 20) ETH_P_IP)) 2
      = some (.returned true
          { flow_keys.zero with
            control := ⟨20, FLOW_DISSECTOR_KEY_IPV4_ADDRS.val⟩,
            basic := ⟨0x0800, 17, 0⟩,
            addrs := ⟨0x0A000001, 0x0A000081, 0, 0, 0, 0, 0, 0⟩ }) := by
  decide

/-- C2: `__skb_flow_dissect` looks at no byte of the buffer at an index of
`hlen` or more. Two calls that differ only in the buffer, on buffers that agree
on their first `hlen` bytes, end in the same way after any number of steps: the
same return value and the same target container, or neither has returned.
And when the packet is contiguous (no `skb`, or an `skb` without bytes beyond
`hlen`), every read that obtained bytes lies within the first `hlen` bytes. -/
theorem __skb_flow_dissect_reads_within_hlen (a : dissect_args) (d1 d2 : Nat → Nat)
    (fuel : Nat) (hag : ∀ i, i < a.hlen → d1 i = d2 i) :
    __skb_flow_dissect { a with data := some d1 } fuel
      = __skb_flow_dissect { a with data := some d2 } fuel ∧
    (contiguous { a with data := some d1 } →
      ∀ r ∈ (run { a with data := some d1 } fuel
          (dissect_start { a with data := some d1 })).reads,
        r.ok = true → r.offset + r.len ≤ a.hlen) := by
  constructor
  · simp only [__skb_flow_dissect, run_agree a d1 d2 hag, dissect_start_agree a d1 d2]
  · intro hc
    exact within_run _ hc fuel _ (within_dissect_start _)

/-- Witness of C2: the IPv4/UDP packet of 28 bytes, and the same bytes followed
by three more, both dissected with `hlen = 28`. -/
theorem __skb_flow_dissect_reads_within_hlen_witness :
    __skb_flow_dissect
        { flow_keys_buf_call (buffer []) ETH_P_IP 0 28 with
          data := some (buffer ipv4_udp_packet) } 2
      = __skb_flow_dissect
        { flow_keys_buf_call (buffer []) ETH_P_IP 0 28 with
          data := some (buffer (ipv4_udp_packet ++ [1, 2, 3])) } 2 ∧
    __skb_flow_dissect
        { flow_keys_buf_call (buffer []) ETH_P_IP 0 28 with
          data := some (buffer ipv4_udp_packet) } 2
      = some (.returned true
          { flow_keys.zero with control := ⟨20, 0⟩, basic := ⟨0x0800, 17, 0⟩ }) :=
  ⟨(__skb_flow_dissect_reads_within_hlen (flow_keys_buf_call (buffer []) ETH_P_IP 0 28)
      (buffer ipv4_udp_packet) (buffer (ipv4_udp_packet ++ [1, 2, 3])) 2 (by decide)).1,
   by decide⟩

/-- C3, the code at the failing input: a linear `skb` that holds an IPv6 packet
with one hop-by-hop header followed by UDP, dissected by
`skb_flow_dissect_flow_keys` while the scratch array `_opthdr` holds zeros. The
extension header case reads `_opthdr`, not the packet, and does not test the
result of `__skb_header_pointer`: the walk never returns, whatever the number
of steps. -/
theorem __skb_flow_dissect_opthdr_never_returns (fuel : Nat) :
    __skb_flow_dissect (flow_keys_call (linear_skb ipv6_hop_udp_packet ETH_P_IPV6)) fuel
      = none := by
  have hc : contiguous (flow_keys_call (linear_skb ipv6_hop_udp_packet ETH_P_IPV6)) := by
    intro skb h
    simp only [flow_keys_call, Option.some.injEq] at h
    subst h
    simp [dissect_args.buflen, flow_keys_call, linear_skb]
  cases fuel with
  | zero => decide
  | succ n =>
    have h1 : in_opthdr_loop (step (flow_keys_call (linear_skb ipv6_hop_udp_packet ETH_P_IPV6))
        (dissect_start (flow_keys_call (linear_skb ipv6_hop_udp_packet ETH_P_IPV6)))) := by
      unfold in_opthdr_loop
      decide
    have h2 := opthdr_loop_run _ hc n _ h1
    simp only [__skb_flow_dissect, run, h2.1]

/-- C4, the code at the failing input: the IPv4 flow 10.0.0.1 to 10.0.0.129 on
a little-endian CPU. The difference of the two addresses as `u32` is `2^31`,
negative as an `int` in both directions, so `__flow_hash_consistentify` swaps
the key and swaps its reverse: the two directions end as two different keys,
and the words that are hashed differ. -/
theorem flow_hash_ipv4_reverse_differs :
    key_v4_example.wf ∧
    key_v4_example.control.addr_type = FLOW_DISSECTOR_KEY_IPV4_ADDRS.val ∧
    __flow_hash_consistentify true key_v4_example = key_v4_example.reverse_v4 ∧
    __flow_hash_consistentify true key_v4_example.reverse_v4 = key_v4_example ∧
    __flow_hash_consistentify true key_v4_example
      ≠ __flow_hash_consistentify true key_v4_example.reverse_v4 ∧
    (flow_keys_hash_start true (__flow_hash_consistentify true key_v4_example)).take
        (flow_keys_hash_length (__flow_hash_consistentify true key_v4_example))
      ≠ (flow_keys_hash_start true
          (__flow_hash_consistentify true key_v4_example.reverse_v4)).take
        (flow_keys_hash_length (__flow_hash_consistentify true key_v4_example.reverse_v4)) ∧
    (__flow_hash_from_keys true (fun words _ => words.getD 4 0) key_v4_example 0).1
      ≠ (__flow_hash_from_keys true (fun words _ => words.getD 4 0)
          key_v4_example.reverse_v4 0).1 := by
  decide

/-- C5: for every flow key of address type IPv6 (its members within their C
types), every byte order of the CPU, every word hash and every seed,
`__flow_hash_consistentify` maps the key and the key of the reverse direction
(source and destination addresses exchanged, ports exchanged) to the same key,
and `__flow_hash_from_keys` gives the two the same hash. -/
theorem flow_hash_symmetric_ipv6 (le : Bool) (jhash2 : List Nat → Nat → Nat)
    (k : flow_keys) (keyval : Nat) (hwf : k.wf)
    (ht : k.control.addr_type = FLOW_DISSECTOR_KEY_IPV6_ADDRS.val) :
    __flow_hash_consistentify le k = __flow_hash_consistentify le k.reverse_v6 ∧
    (__flow_hash_from_keys le jhash2 k keyval).1
      = (__flow_hash_from_keys le jhash2 k.reverse_v6 keyval).1 := by
  have h := consistentify_reverse_v6 le k hwf ht
  refine ⟨h, ?_⟩
  simp only [__flow_hash_from_keys, h]

/-- Witness of C5: the flow 2001:db8::1 to 2001:db8::2, with a word hash that
adds the words to the seed. -/
theorem flow_hash_symmetric_ipv6_witness :
    __flow_hash_consistentify true key_v6_example
      = __flow_hash_consistentify true key_v6_example.reverse_v6 ∧
    (__flow_hash_from_keys true (fun w s => w.sum + s) key_v6_example 5).1
      = (__flow_hash_from_keys true (fun w s => w.sum + s) key_v6_example.reverse_v6 5).1 :=
  flow_hash_symmetric_ipv6 true (fun w s => w.sum + s) key_v6_example 5 (by decide) (by decide)

/-- C6 (amended): when the walk reaches an ip-protocol value that
`switch (ip_proto)` has no case for, the next step returns `true`; the basic
key and the transport header offset are recorded and the address type, the
addresses, the tags, the key id and the Ethernet addresses are those populated
so far. When the walk reaches a protocol tag that `switch (proto)` has no case
for, the next step returns `false` and leaves the target container as it is. -/
theorem __skb_flow_dissect_unhandled (a : dissect_args) (n : Nat) :
    ((run a n (dissect_start a)).pc = .ip_proto_again →
      ¬ ip_proto_handled (run a n (dissect_start a)).ip_proto →
      ∃ t, __skb_flow_dissect a (n + 1) = some (.returned true t) ∧
        t.basic.n_proto = (run a n (dissect_start a)).proto ∧
        t.basic.ip_proto = (run a n (dissect_start a)).ip_proto ∧
        t.control.thoff = (run a n (dissect_start a)).nhoff % 65536 ∧
        t.control.addr_type = (run a n (dissect_start a)).target.control.addr_type ∧
        t.addrs = (run a n (dissect_start a)).target.addrs ∧
        t.tags = (run a n (dissect_start a)).target.tags ∧
        t.keyid = (run a n (dissect_start a)).target.keyid ∧
        t.eth_addrs = (run a n (dissect_start a)).target.eth_addrs) ∧
    ((run a n (dissect_start a)).pc = .again →
      ¬ proto_handled (run a n (dissect_start a)).proto →
      __skb_flow_dissect a (n + 1)
        = some (.returned false (run a n (dissect_start a)).target)) := by
  generalize hs : run a n (dissect_start a) = s
  have hrun : run a (n + 1) (dissect_start a) = step a s := by
    rw [run_succ_outer, hs]
  constructor
  · intro hpc hnh
    simp only [ip_proto_handled, not_or] at hnh
    obtain ⟨h1, h2, h3, h4, h5, h6, h7⟩ := hnh
    have hstep : step a s = dissect_out a s := by
      simp only [step, hpc, dissect_ip_proto_again, h1, h2, h3, h4, h5, h6, h7, if_false,
        or_self]
    have ho := dissect_out_result a s
    refine ⟨(dissect_out a s).target, ?_, ho.2.1, ho.2.2.1, ho.2.2.2.2.1, ho.2.2.2.2.2.1,
      ho.2.2.2.2.2.2.1, ho.2.2.2.2.2.2.2.1, ho.2.2.2.2.2.2.2.2.1, ho.2.2.2.2.2.2.2.2.2.1⟩
    simp only [__skb_flow_dissect, hrun, hstep, ho.1]
  · intro hpc hnh
    simp only [proto_handled, not_or] at hnh
    obtain ⟨h1, h2, h3, h4, h5, h6, h7, h8, h9⟩ := hnh
    have hstep : step a s = { s with pc := .ret false } := by
      simp only [step, hpc, dissect_again, h1, h2, h3, h4, h5, h6, h7, h8, h9, if_false,
        or_self]
    simp only [__skb_flow_dissect, hrun, hstep]

/-- Witness of C6 (amended): an IPv4 packet that carries ICMP returns `true`
with ip-protocol 1 and the source address kept; the same bytes under the tag
`0x0806` return `false` with the target still zero. -/
theorem __skb_flow_dissect_unhandled_witness :
    (∃ t, __skb_flow_dissect (flow_keys_call (linear_skb ipv4_icmp_packet ETH_P_IP)) 2
        = some (.returned true t) ∧ t.basic.ip_proto = 1 ∧ t.addrs.a0 = 0x0A000001) ∧
    __skb_flow_dissect (flow_keys_call (linear_skb ipv4_icmp_packet 0x0806)) 1
      = some (.returned false
          (run (flow_keys_call (linear_skb ipv4_icmp_packet 0x0806)) 0
            (dissect_start (flow_keys_call (linear_skb ipv4_icmp_packet 0x0806)))).target) := by
  constructor
  · obtain ⟨t, h, _, h2, _, _, h5, _⟩ :=
      (__skb_flow_dissect_unhandled (flow_keys_call (linear_skb ipv4_icmp_packet ETH_P_IP)) 1).1
        (by decide) (by unfold ip_proto_handled; decide)
    refine ⟨t, h, ?_, ?_⟩
    · rw [h2]; decide
    · rw [h5]; decide
  · exact (__skb_flow_dissect_unhandled (flow_keys_call (linear_skb ipv4_icmp_packet 0x0806)) 0).2
      (by decide) (by unfold proto_handled; decide)

/-- Counterexample to C6 as stated: a start tag that is none of IPv4, IPv6,
VLAN, PPPoE, TIPC, MPLS (here `0x0806`) makes `__skb_flow_dissect` return
`false`, not `true`. -/
theorem __skb_flow_dissect_unknown_tag_fails :
    ¬ proto_handled 0x0806 ∧
    __skb_flow_dissect (flow_keys_call (linear_skb ipv4_icmp_packet 0x0806)) 1
      = some (.returned false flow_keys.zero) := by
  unfold proto_handled
  decide

/-- C7 (amended): if the target container is all-zero before the call and
`__skb_flow_dissect` returns `false`, the basic key (network protocol,
ip-protocol, padding) and the ports are still zero after the call. -/
theorem __skb_flow_dissect_failure_keeps_basic_ports (a : dissect_args) (fuel : Nat)
    (t : flow_keys) (hz : a.target_container = flow_keys.zero)
    (h : __skb_flow_dissect a fuel = some (.returned false t)) :
    t.basic = ⟨0, 0, 0⟩ ∧ t.ports = ⟨0, 0⟩ := by
  obtain ⟨hpc, ht⟩ := dissect_returned a fuel false t h
  have hk := keeps_run a a.target_container fuel _ (keeps_dissect_start a)
  rcases hk with hk | hk
  · rw [hpc] at hk; exact absurd hk (by decide)
  · rw [ht, hz] at hk
    exact hk

/-- Witness of C7 (amended): the IPv4 header of a GRE packet, cut before the
GRE header. -/
theorem __skb_flow_dissect_failure_keeps_basic_ports_witness :
    ({ flow_keys.zero with
        control := ⟨0, FLOW_DISSECTOR_KEY_IPV4_ADDRS.val⟩,
        addrs := ⟨0x0A000001, 0x0A000081, 0, 0, 0, 0, 0, 0⟩ } : flow_keys).basic = ⟨0, 0, 0⟩ ∧
    ({ flow_keys.zero with
        control := ⟨0, FLOW_DISSECTOR_KEY_IPV4_ADDRS.val⟩,
        addrs := ⟨0x0A000001, 0x0A000081, 0, 0, 0, 0, 0, 0⟩ } : flow_keys).ports = ⟨0, 0⟩ :=
  __skb_flow_dissect_failure_keeps_basic_ports
    (flow_keys_call (linear_skb ipv4_gre_header ETH_P_IP)) 2 _ rfl (by decide)

/-- Counterexample to C7 as stated: the IPv4 header of a GRE packet, cut before
the GRE header, dissected into a zeroed container. The call returns `false`,
and the container holds the address type and the two IPv4 addresses. -/
theorem __skb_flow_dissect_failure_leaves_fields :
    (flow_keys_call (linear_skb ipv4_gre_header ETH_P_IP)).target_container = flow_keys.zero ∧
    __skb_flow_dissect (flow_keys_call (linear_skb ipv4_gre_header ETH_P_IP)) 2
      = some (.returned false
          { flow_keys.zero with
            control := ⟨0, FLOW_DISSECTOR_KEY_IPV4_ADDRS.val⟩,
            addrs := ⟨0x0A000001, 0x0A000081, 0, 0, 0, 0, 0, 0⟩ }) ∧
    ({ flow_keys.zero with
        control := ⟨0, FLOW_DISSECTOR_KEY_IPV4_ADDRS.val⟩,
        addrs := ⟨0x0A000001, 0x0A000081, 0, 0, 0, 0, 0, 0⟩ } : flow_keys) ≠ flow_keys.zero := by
  decide

/-- C8: `__skb_flow_dissect` changes only members of the target container that
belong to a registered key (control and basic are registered in every dissector
that `skb_flow_dissector_init` builds). At every step of the walk, and so at its
return with `true` or `false`: a word of the address union that belongs to no
registered address key, the ports, the VLAN id, the flow label, the key id and
the Ethernet addresses hold their value of before the call when none of their
keys is registered (`frame`). With the dissector built from
`flow_keys_buf_dissector_keys` (control and basic only) the addresses, ports,
tags, key id and Ethernet addresses are those of before the call. -/
theorem __skb_flow_dissect_writes_registered_only (a : dissect_args) (n : Nat) :
    frame a a.target_container (run a n (dissect_start a)).target ∧
    (∀ r t, __skb_flow_dissect a n = some (.returned r t) → frame a a.target_container t) ∧
    (∀ fd0, skb_flow_dissector_init fd0 flow_keys_buf_dissector_keys = some a.flow_dissector →
      ∀ r t, __skb_flow_dissect a n = some (.returned r t) →
        t.addrs = a.target_container.addrs ∧ t.ports = a.target_container.ports ∧
        t.tags = a.target_container.tags ∧ t.keyid = a.target_container.keyid ∧
        t.eth_addrs = a.target_container.eth_addrs) := by
  have hf := frame_run a a.target_container n _ (frame_dissect_start a)
  refine ⟨hf, ?_, ?_⟩
  · intro r t h
    rw [← (dissect_returned a n r t h).2]
    exact hf
  · intro fd0 hinit r t h
    rw [← (dissect_returned a n r t h).2]
    have hu : ∀ k, k ≠ FLOW_DISSECTOR_KEY_CONTROL → k ≠ FLOW_DISSECTOR_KEY_BASIC →
        a.uses k = false := by
      intro k h1 h2
      have := (init_uses_iff fd0 _ _ hinit k).not.2 (by
        simp only [flow_keys_buf_dissector_keys, List.map_cons, List.map_nil, List.mem_cons,
          List.mem_singleton, List.not_mem_nil, or_false, not_or]
        exact ⟨h1, h2⟩)
      simpa [dissect_args.uses] using this
    obtain ⟨f0, f1, f2, f3, f4, f5, f6, f7⟩ := hf
    have u4 := hu FLOW_DISSECTOR_KEY_IPV4_ADDRS (by decide) (by decide)
    have u6 := hu FLOW_DISSECTOR_KEY_IPV6_ADDRS (by decide) (by decide)
    have ut := hu FLOW_DISSECTOR_KEY_TIPC_ADDRS (by decide) (by decide)
    have e0 := f0 u4 u6 ut
    have e1 := f1 u4 u6
    obtain ⟨e2, e3, e4, e5, e6, e7⟩ := f2 u6
    have ev := f4 (hu FLOW_DISSECTOR_KEY_VLANID (by decide) (by decide))
    have el := f5 (hu FLOW_DISSECTOR_KEY_FLOW_LABEL (by decide) (by decide))
    refine ⟨?_, f3 (hu _ (by decide) (by decide)), ?_,
      f6 (hu _ (by decide) (by decide)) (hu _ (by decide) (by decide)),
      f7 (hu _ (by decide) (by decide))⟩
    · generalize (run a n (dissect_start a)).target.addrs = x at *
      generalize a.target_container.addrs = y at *
      cases x; cases y; simp_all
    · generalize (run a n (dissect_start a)).target.tags = x at *
      generalize a.target_container.tags = y at *
      cases x; cases y; simp_all

/-- Witness of C8: the call of `eth_get_headlen` on the IPv4/UDP packet returns
`true` and leaves the addresses, ports, tags, key id and Ethernet addresses at
zero. -/
theorem __skb_flow_dissect_writes_registered_only_witness :
    __skb_flow_dissect (flow_keys_buf_call (buffer ipv4_udp_packet) ETH_P_IP 0 28) 2
      = some (.returned true
          { flow_keys.zero with control := ⟨20, 0⟩, basic := ⟨0x0800, 17, 0⟩ }) ∧
    (∀ r t, __skb_flow_dissect (flow_keys_buf_call (buffer ipv4_udp_packet) ETH_P_IP 0 28) 2
        = some (.returned r t) →
      t.addrs = flow_keys.zero.addrs ∧ t.ports = flow_keys.zero.ports ∧
      t.tags = flow_keys.zero.tags ∧ t.keyid = flow_keys.zero.keyid ∧
      t.eth_addrs = flow_keys.zero.eth_addrs) :=
  ⟨by decide,
   (__skb_flow_dissect_writes_registered_only
      (flow_keys_buf_call (buffer ipv4_udp_packet) ETH_P_IP 0 28) 2).2.2 ⟨0, fun _ => 0⟩
      (by simp [flow_keys_buf_call, flow_keys_buf_dissector]; rfl)⟩

/-- C9: `skb_flow_dissector_init` succeeds (no `BUG_ON` fires) if and only if
no key identifier occurs twice in the list of descriptors, every offset is at
most 65535, and the control key and the basic key both occur in the list. -/
theorem skb_flow_dissector_init_succeeds_iff (fd0 : flow_dissector)
    (key : List flow_dissector_key) :
    (skb_flow_dissector_init fd0 key).isSome = true ↔
      ((key.map (·.key_id)).Nodup ∧ (∀ d ∈ key, d.offset ≤ 65535) ∧
        FLOW_DISSECTOR_KEY_CONTROL ∈ key.map (·.key_id) ∧
        FLOW_DISSECTOR_KEY_BASIC ∈ key.map (·.key_id)) := by
  unfold skb_flow_dissector_init
  cases h : skb_flow_dissector_init_loop { used_keys := 0, offset := fun _ => 0 } key with
  | none =>
    have := (init_loop_some key _).not.1 (by rw [h]; simp)
    simp only [uses_key_zeroed, implies_true, and_true] at this
    simp only [h, Option.isSome_none, Bool.false_eq_true, false_iff]
    rintro ⟨a, b, _⟩
    exact this ⟨b, a⟩
  | some fd =>
    have hs := (init_loop_some key _).1 (by rw [h]; rfl)
    obtain ⟨u, _, _⟩ := init_loop_spec key _ _ h
    simp only [h, u, uses_key_zeroed, Bool.false_or]
    by_cases c1 : FLOW_DISSECTOR_KEY_CONTROL ∈ key.map (·.key_id) <;>
      by_cases c2 : FLOW_DISSECTOR_KEY_BASIC ∈ key.map (·.key_id) <;>
      simp [c1, c2, hs.2.1]
    exact hs.1

/-- C10: when `skb_flow_dissector_init` succeeds on a list of descriptors, the
dissector it builds requests a key if and only if the key occurs in the list,
stores for each listed key the offset of its descriptor and 0 for every other
key, and is the same whatever the dissector held before the call. -/
theorem skb_flow_dissector_init_result (fd0 fd0' : flow_dissector)
    (key : List flow_dissector_key) (fd : flow_dissector)
    (h : skb_flow_dissector_init fd0 key = some fd) :
    (∀ k, skb_flow_dissector_uses_key fd k = true ↔ k ∈ key.map (·.key_id)) ∧
    (∀ d ∈ key, fd.offset d.key_id = d.offset) ∧
    (∀ k, k ∉ key.map (·.key_id) → fd.offset k = 0) ∧
    skb_flow_dissector_init fd0' key = some fd := by
  have hu := init_uses_iff fd0 key fd h
  simp only [skb_flow_dissector_init] at h ⊢
  cases hl : skb_flow_dissector_init_loop { used_keys := 0, offset := fun _ => 0 } key with
  | none => rw [hl] at h; exact absurd h (by simp)
  | some fd1 =>
    rw [hl] at h
    simp only at h ⊢
    split at h
    · exact absurd h (by simp)
    · split at h
      · exact absurd h (by simp)
      · simp only [Option.some.injEq] at h
        subst h
        obtain ⟨_, o1, o2⟩ := init_loop_spec key _ _ hl
        refine ⟨hu, o1, ?_, ?_⟩
        · intro k hk; rw [o2 k hk]
        · simp_all

/-- Witness of C10: the table `flow_keys_dissector_keys`, registered into a
dissector that held other values. -/
theorem skb_flow_dissector_init_result_witness :
    (∀ k, skb_flow_dissector_uses_key
        ((skb_flow_dissector_init ⟨7, fun _ => 9⟩ flow_keys_dissector_keys).get (by decide)) k
        = true ↔ k ∈ flow_keys_dissector_keys.map (·.key_id)) ∧
    (∀ d ∈ flow_keys_dissector_keys,
      ((skb_flow_dissector_init ⟨7, fun _ => 9⟩ flow_keys_dissector_keys).get
        (by decide)).offset d.key_id = d.offset) ∧
    (∀ k, k ∉ flow_keys_dissector_keys.map (·.key_id) →
      ((skb_flow_dissector_init ⟨7, fun _ => 9⟩ flow_keys_dissector_keys).get
        (by decide)).offset k = 0) ∧
    skb_flow_dissector_init ⟨0, fun _ => 0⟩ flow_keys_dissector_keys
      = some ((skb_flow_dissector_init ⟨7, fun _ => 9⟩ flow_keys_dissector_keys).get
          (by decide)) :=
  skb_flow_dissector_init_result ⟨7, fun _ => 9⟩ ⟨0, fun _ => 0⟩ flow_keys_dissector_keys
    _ (by simp)

/-- C11: for every flow key, every seed, every byte order of the CPU and every
word hash `jhash2`, the hash that `__flow_hash_from_keys` returns is not zero:
a zero from the word hash is replaced by one. It is a `u32` like the values of
the word hash. -/
theorem __flow_hash_from_keys_ne_zero (le : Bool) (jhash2 : List Nat → Nat → Nat)
    (keys : flow_keys) (keyval : Nat) :
    (__flow_hash_from_keys le jhash2 keys keyval).1 ≠ 0 ∧
    ((∀ w s, jhash2 w s < 2 ^ 32) →
      (__flow_hash_from_keys le jhash2 keys keyval).1 < 2 ^ 32) := by
  simp only [__flow_hash_from_keys, __flow_hash_words]
  constructor
  · split <;> simp_all
  · intro hb
    split
    · decide
    · exact hb _ _

/-- C12 (amended): tunnel traversal. The call runs with the dissector
`flow_keys_dissector` and reaches the label `again` with the tag IPv4 at offset
`o`. The packet holds at `o` an unfragmented IPv4 header (IHL 5, protocol 47),
at `o + 20` a GRE header with version 0, no routing, the checksum and key flags
set, the sequence flag clear and protocol TEB, at `o + 28`, after the 4 bytes
of the checksum field, the key `K`, at `o + 32` an Ethernet header with
ethertype IPv6, at `o + 46` an IPv6 header with next header UDP and at `o + 86`
4 bytes of UDP header. Then the call returns `true` after four steps with the
address type IPv6, the addresses of the inner header, the key id `K`, `n_proto`
IPv6, `ip_proto` UDP, `thoff` equal to `o + 86` modulo 65536 and the ports of
the UDP header. -/
theorem __skb_flow_dissect_gre_teb_ipv6_udp (a : dissect_args) (o K : Nat)
    (iph gre key eth ip6 udp : List Nat)
    (hfd : a.flow_dissector = flow_keys_dissector)
    (htab : a.ports_offset 17 = some 0)
    (hpc : (dissect_start a).pc = .again)
    (hproto : (dissect_start a).proto = ETH_P_IP)
    (ho : (dissect_start a).nhoff = o)
    (hiph : (__skb_header_pointer a.skb o 20 a.buf a.buflen).bytes = some iph)
    (hihl : u8_at iph 0 % 16 = 5)
    (hfrag : be16_at iph 6 &&& 0x3FFF = 0)
    (hp : u8_at iph 9 = 47)
    (hgre : (__skb_header_pointer a.skb (o + 20) 4 a.buf a.buflen).bytes = some gre)
    (hver : be16_at gre 0 &&& 0x4007 = 0)
    (hcsum : be16_at gre 0 &&& 0x8000 ≠ 0)
    (hkey : be16_at gre 0 &&& 0x2000 ≠ 0)
    (hseq : be16_at gre 0 &&& 0x1000 = 0)
    (hteb : be16_at gre 2 = 0x6558)
    (hk : (__skb_header_pointer a.skb (o + 28) 4 a.buf a.buflen).bytes = some key)
    (hK : be32_at key 0 = K)
    (he : (__skb_header_pointer a.skb (o + 32) 14 a.buf a.buflen).bytes = some eth)
    (het : be16_at eth 12 = 0x86DD)
    (hip6 : (__skb_header_pointer a.skb (o + 46) 40 a.buf a.buflen).bytes = some ip6)
    (hnh : u8_at ip6 6 = 17)
    (hudp : (__skb_header_pointer a.skb (o + 86) 4 a.buf a.buflen).bytes = some udp) :
    ∃ t, __skb_flow_dissect a 4 = some (.returned true t) ∧
      t.control.addr_type = FLOW_DISSECTOR_KEY_IPV6_ADDRS.val ∧
      t.addrs = ⟨be32_at ip6 8, be32_at ip6 12, be32_at ip6 16, be32_at ip6 20,
                 be32_at ip6 24, be32_at ip6 28, be32_at ip6 32, be32_at ip6 36⟩ ∧
      t.keyid.keyid = K ∧
      t.basic.n_proto = ETH_P_IPV6 ∧ t.basic.ip_proto = 17 ∧
      t.control.thoff = (o + 86) % 65536 ∧
      t.ports = ⟨be16_at udp 0, be16_at udp 2⟩ ∧ t.ports.ports = be32_at udp 0 := by
  obtain ⟨u4, u6, _, up, _, _, ug, _, _⟩ := uses_flow_keys_dissector a hfd
  subst ho
  -- the IPv4 header
  have hf : ip_is_fragment iph = false := by
    simp only [ip_is_fragment, IP_MF, IP_OFFSET]
    simpa using hfrag
  have e1 : step a (dissect_start a) = dissect_ip a (dissect_start a) :=
    step_ip a _ (Or.inr ⟨hpc, hproto⟩)
  have d1 := dissect_ip_of_header a (dissect_start a) iph hiph (by omega)
  simp only [hf, Bool.false_eq_true, if_false, hihl, hp, u4, if_true] at d1
  generalize dissect_ip a (dissect_start a) = s1 at *
  have n1 : s1.nhoff = (dissect_start a).nhoff + 20 := by rw [d1]
  -- the GRE header
  have e2 : step a s1 = dissect_gre a s1 := step_gre a s1 (by rw [d1]) (by rw [d1]; rfl)
  have d2 := dissect_gre_csum_key_teb a s1 gre key eth (by rw [n1]; exact hgre)
    hver hcsum hkey hseq hteb (by rw [n1]; exact hk) (by rw [n1]; exact he)
  simp only [ug, if_true, het] at d2
  generalize dissect_gre a s1 = s2 at *
  have n2 : s2.nhoff = (dissect_start a).nhoff + 46 := by rw [d2, n1]
  -- the inner IPv6 header
  have e3 : step a s2 = dissect_ipv6 a s2 :=
    step_ipv6 a s2 (Or.inr ⟨by rw [d2], by rw [d2]; rfl⟩)
  have d3 := dissect_ipv6_of_header a s2 ip6 (by rw [n2]; exact hip6)
  simp only [u6, if_true, hnh] at d3
  generalize dissect_ipv6 a s2 = s3 at *
  have n3 : s3.nhoff = (dissect_start a).nhoff + 86 := by rw [d3, n2]
  have p3 : s3.ip_proto = 17 := by rw [d3]
  -- the exit
  have e4 : step a s3 = dissect_out a s3 := by
    apply step_to_out
    · rw [d3]
    · rw [p3]; decide
    · rw [p3]; decide
    · rw [p3]; decide
    · rw [p3]; decide
    · right; rw [p3]; decide
  have ho := dissect_out_result a s3
  have hports := (dissect_out_ports a s3 up).1 udp (by rw [p3]; exact htab)
    (by rw [n3]; exact hudp)
  refine ⟨(dissect_out a s3).target, ?_, ?_, ?_, ?_, ?_, ?_, ?_, hports.1, hports.2⟩
  · have hrun : run a 4 (dissect_start a)
        = step a (step a (step a (step a (dissect_start a)))) := rfl
    simp only [__skb_flow_dissect, hrun, e1, e2, e3, e4, ho.1]
  · rw [ho.2.2.2.2.2.1, d3]
  · rw [ho.2.2.2.2.2.2.1, d3]
  · rw [ho.2.2.2.2.2.2.2.2.1, d3, d2]
    exact hK
  · rw [ho.2.1, d3, d2]
    rfl
  · rw [ho.2.2.1, p3]
  · rw [ho.2.2.2.2.1, n3]

/-- Witness of C12 (amended): the packet `ipv4_gre_teb_ipv6_udp_packet` in a
linear `skb`, dissected by `skb_flow_dissect_flow_keys` from offset 0. -/
theorem __skb_flow_dissect_gre_teb_ipv6_udp_witness :
    ∃ t, __skb_flow_dissect
        (flow_keys_call (linear_skb ipv4_gre_teb_ipv6_udp_packet ETH_P_IP)) 4
        = some (.returned true t) ∧
      t.control.addr_type = FLOW_DISSECTOR_KEY_IPV6_ADDRS.val ∧
      t.addrs = ⟨0, 0, 0, 1, 0, 0, 0, 2⟩ ∧
      t.keyid.keyid = 0xDEADBEEF ∧
      t.basic.n_proto = ETH_P_IPV6 ∧ t.basic.ip_proto = 17 ∧
      t.control.thoff = (0 + 86) % 65536 ∧
      t.ports = ⟨4660, 53⟩ ∧ t.ports.ports = 0x12340035 :=
  __skb_flow_dissect_gre_teb_ipv6_udp
    (flow_keys_call (linear_skb ipv4_gre_teb_ipv6_udp_packet ETH_P_IP)) 0 0xDEADBEEF
    (ipv4_gre_teb_ipv6_udp_packet.take 20) [0xA0, 0x00, 0x65, 0x58] [0xDE, 0xAD, 0xBE, 0xEF]
    [1, 2, 3, 4, 5, 6, 7, 8, 9, 10, 11, 12, 0x86, 0xDD] (ipv6_udp_packet.take 40)
    [0x12, 0x34, 0, 0x35]
    rfl (by decide) (by decide) (by decide) (by decide) (by decide) (by decide)
    (by decide) (by decide) (by decide) (by decide) (by decide) (by decide) (by decide)
    (by decide) (by decide) (by decide) (by decide) (by decide) (by decide) (by decide)
    (by decide)

/-- Counterexample to C12 as stated: the packet `ipv4_gre_teb_ipv6_udp_packet`
at offset 0. The headers in front of the UDP header take 20 + 4 + 4 + 4 + 14 +
40 = 86 bytes, and the transport header offset recorded is 86, not 90. -/
theorem __skb_flow_dissect_gre_teb_thoff :
    __skb_flow_dissect (flow_keys_call (linear_skb ipv4_gre_teb_ipv6_udp_packet ETH_P_IP)) 4
      = some (.returned true
          { flow_keys.zero with
            control := ⟨86, FLOW_DISSECTOR_KEY_IPV6_ADDRS.val⟩,
            basic := ⟨0x86DD, 17, 0⟩,
            tags := ⟨0, 0x12345⟩,
            keyid := ⟨0xDEADBEEF⟩,
            ports := ⟨4660, 53⟩,
            addrs := ⟨0, 0, 0, 1, 0, 0, 0, 2⟩ }) ∧
    (86 : Nat) ≠ 0 + 90 := by
  decide

/-- C13: VLAN stacking. The dissector does not request the VLAN id and the
buffer holds at offset `o` two stacked 802.1Q tags, the outer one encapsulating
`0x8100` and the inner one IPv4. Then dissection from the tag 802.1Q at offset
`o` gives, two steps later, what dissection of the same buffer from the tag
IPv4 at offset `o + 8` gives: the same return value and the same target
container, field by field, or no result yet in both. And in a call without an
`skb` it gives what dissection of the buffer with the two tags taken out gives
from the tag IPv4 at offset `o`: the same return value and the same target
container but for the transport header offset, which counts the 8 bytes of the
tags, or no result yet in both. -/
theorem __skb_flow_dissect_vlan_stacking (a : dissect_args) (d : Nat → Nat) (o n : Nat)
    (tag1 tag2 : List Nat)
    (hdata : a.data = some d)
    (hu : skb_flow_dissector_uses_key a.flow_dissector FLOW_DISSECTOR_KEY_VLANID = false)
    (h1 : (__skb_header_pointer a.skb o 4 d a.hlen).bytes = some tag1)
    (hp1 : be16_at tag1 2 = ETH_P_8021Q)
    (h2 : (__skb_header_pointer a.skb (o + 4) 4 d a.hlen).bytes = some tag2)
    (hp2 : be16_at tag2 2 = ETH_P_IP) :
    __skb_flow_dissect { a with proto := ETH_P_8021Q, nhoff := o } (n + 2)
      = __skb_flow_dissect { a with proto := ETH_P_IP, nhoff := o + 8 } n ∧
    (a.skb = none →
      (__skb_flow_dissect { a with proto := ETH_P_8021Q, nhoff := o } (n + 2)).map
          outcome.without_thoff
        = (__skb_flow_dissect
            { a with data := some (strip_bytes o 8 d), hlen := a.hlen - 8, proto := ETH_P_IP,
                     nhoff := o } n).map outcome.without_thoff) := by
  have hsame := vlan_stacking_same_buffer a d o n tag1 tag2 hdata hu h1 hp1 h2 hp2
  refine ⟨hsame, ?_⟩
  intro hs
  rw [hsame, with_data_eq a d ETH_P_IP (o + 8) hdata]
  rw [hs] at h2
  have hb : o + 8 ≤ a.hlen := by
    have := header_pointer_none_le (o + 4) 4 d a.hlen tag2 h2
    omega
  exact dissect_strip_bytes a d o 8 ETH_P_IP n hs hb

/-- Witness of C13: the packet `qinq_ipv4_udp_packet` as a buffer of 36 bytes,
dissected with `flow_keys_buf_dissector` from the outer tag, from the IPv4
header at offset 8, and from offset 0 once the two tags are taken out. -/
theorem __skb_flow_dissect_vlan_stacking_witness :
    __skb_flow_dissect
        { flow_keys_buf_call (buffer qinq_ipv4_udp_packet) 0 0 36 with
          proto := ETH_P_8021Q, nhoff := 0 } (2 + 2)
      = __skb_flow_dissect
        { flow_keys_buf_call (buffer qinq_ipv4_udp_packet) 0 0 36 with
          proto := ETH_P_IP, nhoff := 0 + 8 } 2 ∧
    (__skb_flow_dissect
        { flow_keys_buf_call (buffer qinq_ipv4_udp_packet) 0 0 36 with
          proto := ETH_P_8021Q, nhoff := 0 } (2 + 2)).map outcome.without_thoff
      = (__skb_flow_dissect
        { flow_keys_buf_call (buffer qinq_ipv4_udp_packet) 0 0 36 with
          data := some (strip_bytes 0 8 (buffer qinq_ipv4_udp_packet)),
          hlen := (flow_keys_buf_call (buffer qinq_ipv4_udp_packet) 0 0 36).hlen - 8,
          proto := ETH_P_IP, nhoff := 0 } 2).map outcome.without_thoff :=
  ⟨(__skb_flow_dissect_vlan_stacking (flow_keys_buf_call (buffer qinq_ipv4_udp_packet) 0 0 36)
      (buffer qinq_ipv4_udp_packet) 0 2 [0x00, 0x05, 0x81, 0x00] [0x00, 0x07, 0x08, 0x00]
      rfl (by decide) (by decide) (by decide) (by decide) (by decide)).1,
   (__skb_flow_dissect_vlan_stacking (flow_keys_buf_call (buffer qinq_ipv4_udp_packet) 0 0 36)
      (buffer qinq_ipv4_udp_packet) 0 2 [0x00, 0x05, 0x81, 0x00] [0x00, 0x07, 0x08, 0x00]
      rfl (by decide) (by decide) (by decide) (by decide) (by decide)).2 rfl⟩

/-- C14, the code at a failing input. The helper `skb_vlan_tag_get_id` and the
`skb` are arbitrary. The dissector requests the VLAN id. Two buffers are
dissected from the tag 802.1Q at offset 0, with that same `skb`: the first
starts with a tag whose TCI carries the VLAN id 5, the second with a tag whose
TCI carries the VLAN id 7, each followed by the same IPv4 packet. Both calls
read the tag, return `true` and record the same VLAN id, the value of the helper
on the `skb`: it cannot be the id of the tag in both. For every call with this
`skb` and this helper, once the walk has read a VLAN tag, one or several, the
VLAN id in the target is that value of the helper. -/
theorem __skb_flow_dissect_vlan_id_ignores_tag (get_id : sk_buff → Nat) (skb : sk_buff) :
    skb_flow_dissector_uses_key flow_keys_dissector FLOW_DISSECTOR_KEY_VLANID = true ∧
    be16_at (get_bytes (buffer vlan_ipv4_udp_packet) 0 4) 0 &&& 0x0fff = 5 ∧
    be16_at (get_bytes (buffer vlan7_ipv4_udp_packet) 0 4) 0 &&& 0x0fff = 7 ∧
    (∃ t, __skb_flow_dissect (flow_keys_vlan_data_call get_id skb vlan_ipv4_udp_packet) 3
        = some (.returned true t) ∧ t.tags.vlan_id = get_id skb) ∧
    (∃ t, __skb_flow_dissect (flow_keys_vlan_data_call get_id skb vlan7_ipv4_udp_packet) 3
        = some (.returned true t) ∧ t.tags.vlan_id = get_id skb) ∧
    (∀ (a : dissect_args) (n : Nat) (r : header_read),
      a.skb = some skb → a.skb_vlan_tag_get_id = get_id →
      skb_flow_dissector_uses_key a.flow_dissector FLOW_DISSECTOR_KEY_VLANID = true →
      r ∈ (run a n (dissect_start a)).reads → r.what = .VLAN_HDR → r.ok = true →
      (run a n (dissect_start a)).target.tags.vlan_id = get_id skb) := by
  have s5 := vlan_data_call_start get_id skb vlan_ipv4_udp_packet
  have s7 := vlan_data_call_start get_id skb vlan7_ipv4_udp_packet
  have u5 := (uses_flow_keys_dissector
    (flow_keys_vlan_data_call get_id skb vlan_ipv4_udp_packet) rfl).2.2.2.2.1
  have u7 := (uses_flow_keys_dissector
    (flow_keys_vlan_data_call get_id skb vlan7_ipv4_udp_packet) rfl).2.2.2.2.1
  refine ⟨by decide, by decide, by decide, ?_, ?_, ?_⟩
  · exact vlan_ipv4_walk (flow_keys_vlan_data_call get_id skb vlan_ipv4_udp_packet) skb 0
      [0x00, 0x05, 0x08, 0x00] (ipv4_udp_packet.take 20) rfl u5 s5.1 (Or.inr s5.2.1) s5.2.2
      rfl (by decide) rfl (by decide) (by decide) (by decide)
  · exact vlan_ipv4_walk (flow_keys_vlan_data_call get_id skb vlan7_ipv4_udp_packet) skb 0
      [0x00, 0x07, 0x08, 0x00] (ipv4_udp_packet.take 20) rfl u7 s7.1 (Or.inr s7.2.1) s7.2.2
      rfl (by decide) rfl (by decide) (by decide) (by decide)
  · intro a n r hs hg hu hr hw hok
    rw [← hg]
    exact vlan_recorded_run a skb hs hu n _ (vlan_recorded_dissect_start a _) ⟨r, hr, hw, hok⟩

/-- The code of C14 at a concrete input: the `skb` holds the packet
`qinq_ipv4_udp_packet`, two stacked tags with the VLAN ids 5 and 7, and the
sample helper finds the VLAN id 9 for it. After the walk over the `skb` the
VLAN id recorded is 9, and it is 9 after the walk over a buffer that starts with
a tag of VLAN id 5. -/
theorem __skb_flow_dissect_vlan_id_ignores_tag_witness :
    (run (flow_keys_call { linear_skb qinq_ipv4_udp_packet ETH_P_8021Q with vlan_tci := 0x2009 }) 4
      (dissect_start
        (flow_keys_call
          { linear_skb qinq_ipv4_udp_packet ETH_P_8021Q with vlan_tci := 0x2009 }))).target.tags.vlan_id
      = 9 ∧
    ∃ t, __skb_flow_dissect
        (flow_keys_vlan_data_call vlan_tci_id
          { linear_skb qinq_ipv4_udp_packet ETH_P_8021Q with vlan_tci := 0x2009 }
          vlan_ipv4_udp_packet) 3
        = some (.returned true t) ∧ t.tags.vlan_id = 9 :=
  ⟨(__skb_flow_dissect_vlan_id_ignores_tag vlan_tci_id
      { linear_skb qinq_ipv4_udp_packet ETH_P_8021Q with vlan_tci := 0x2009 }).2.2.2.2.2
      (flow_keys_call { linear_skb qinq_ipv4_udp_packet ETH_P_8021Q with vlan_tci := 0x2009 })
      4 ⟨.VLAN_HDR, 4, 4, true⟩ rfl rfl (by decide) (by decide) rfl rfl,
   (__skb_flow_dissect_vlan_id_ignores_tag vlan_tci_id
      { linear_skb qinq_ipv4_udp_packet ETH_P_8021Q with vlan_tci := 0x2009 }).2.2.2.1⟩

/-- C15: fragment handling. The walk has reached the IPv4 case after `n`
steps, from the start or through other headers; the IPv4 header is readable
with IHL at least 5, and its more-fragments bit is set or its fragment offset
is not zero. Then, whatever the protocol field of the header, the call returns
`true` two steps later with `ip_proto = 0`, the ports are zero when they are
requested (ip-protocol 0 has no ports in the table), and the only read after
those `n` steps is the read of this IPv4 header. -/
theorem __skb_flow_dissect_fragment (a : dissect_args) (n : Nat) (iph : List Nat)
    (hat : (run a n (dissect_start a)).pc = .ip ∨
      ((run a n (dissect_start a)).pc = .again ∧ (run a n (dissect_start a)).proto = ETH_P_IP))
    (hiph : (__skb_header_pointer a.skb (run a n (dissect_start a)).nhoff 20
      a.buf a.buflen).bytes = some iph)
    (h5 : 5 ≤ u8_at iph 0 % 16)
    (hfrag : be16_at iph 6 &&& 0x3FFF ≠ 0)
    (htab : a.ports_offset 0 = none) :
    ∃ t, __skb_flow_dissect a (n + 2) = some (.returned true t) ∧
      t.basic.ip_proto = 0 ∧
      (skb_flow_dissector_uses_key a.flow_dissector FLOW_DISSECTOR_KEY_PORTS = true →
        t.ports = ⟨0, 0⟩) ∧
      (run a (n + 2) (dissect_start a)).reads
        = (run a n (dissect_start a)).reads ++
          [⟨.IPHDR, (run a n (dissect_start a)).nhoff, 20, true⟩] := by
  have hl := label_ok_run a n _ (label_ok_dissect_start a)
  generalize hs : run a n (dissect_start a) = s at *
  have hrun : run a (n + 2) (dissect_start a) = step a (step a s) := by
    rw [run_succ_outer, run_succ_outer, hs]
  have hf : ip_is_fragment iph = true := by
    simp only [ip_is_fragment, IP_MF, IP_OFFSET]
    simpa using hfrag
  have e1 : step a s = dissect_ip a s := step_ip a s hat
  have e2 := dissect_ip_of_header a s iph hiph h5
  simp only [hf, if_true] at e2
  have hproto : s.proto ≠ ETH_P_IPV6 := by
    rcases hat with h | h
    · rcases hl.1 h with p | p <;> rw [p] <;> decide
    · rw [h.2]; decide
  have hip : (dissect_ip a s).ip_proto = 0 := by rw [e2]
  have e3 : step a (dissect_ip a s) = dissect_out a (dissect_ip a s) := by
    apply step_to_out
    · rw [e2]
    · rw [hip]; decide
    · rw [hip]; decide
    · rw [hip]; decide
    · rw [hip]; decide
    · left; rw [e2]; exact hproto
  have ho := dissect_out_result a (dissect_ip a s)
  refine ⟨(dissect_out a (dissect_ip a s)).target, ?_, ?_, ?_, ?_⟩
  · simp only [__skb_flow_dissect, hrun, e1, e3, ho.1]
  · rw [ho.2.2.1, hip]
  · intro hu
    have hu' : a.uses FLOW_DISSECTOR_KEY_PORTS = true := hu
    exact ((dissect_out_ports a (dissect_ip a s) hu').2 (by rw [hip]; exact htab)).1
  · rw [hrun, e1, e3]
    by_cases hu : a.uses FLOW_DISSECTOR_KEY_PORTS = true
    · rw [((dissect_out_ports a (dissect_ip a s) hu).2 (by rw [hip]; exact htab)).2, e2]
    · simp only [dissect_out, hu]
      rw [e2]
      simp

/-- Witness of C15: the packet `ipv4_fragment_packet`, more-fragments bit set
and protocol GRE, in a linear `skb`. -/
theorem __skb_flow_dissect_fragment_witness :
    ∃ t, __skb_flow_dissect (flow_keys_call (linear_skb ipv4_fragment_packet ETH_P_IP)) (0 + 2)
        = some (.returned true t) ∧
      t.basic.ip_proto = 0 ∧
      (skb_flow_dissector_uses_key
          (flow_keys_call (linear_skb ipv4_fragment_packet ETH_P_IP)).flow_dissector
          FLOW_DISSECTOR_KEY_PORTS = true →
        t.ports = ⟨0, 0⟩) ∧
      (run (flow_keys_call (linear_skb ipv4_fragment_packet ETH_P_IP)) (0 + 2)
        (dissect_start (flow_keys_call (linear_skb ipv4_fragment_packet ETH_P_IP)))).reads
        = (run (flow_keys_call (linear_skb ipv4_fragment_packet ETH_P_IP)) 0
            (dissect_start (flow_keys_call (linear_skb ipv4_fragment_packet ETH_P_IP)))).reads ++
          [⟨.IPHDR,
            (run (flow_keys_call (linear_skb ipv4_fragment_packet ETH_P_IP)) 0
              (dissect_start
                (flow_keys_call (linear_skb ipv4_fragment_packet ETH_P_IP)))).nhoff, 20, true⟩] :=
  __skb_flow_dissect_fragment (flow_keys_call (linear_skb ipv4_fragment_packet ETH_P_IP)) 0
    (ipv4_fragment_packet.take 20) (Or.inr ⟨by decide, by decide⟩) (by decide) (by decide)
    (by decide) (by decide)

/-- C16 (amended): the call reaches the label `again` with the tag IPv4 at
offset `o`, 20 bytes are readable there, the header-length field is `h >= 5`,
the packet is not a fragment and the protocol `p` is none of GRE, IP-in-IP,
IPv6-in-IP and MPLS-in-IP. Then the call returns `true` after two steps with
`n_proto` IPv4, `ip_proto = p` and `thoff` equal to `o + 4 * h` modulo 65536
(`thoff` is a `u16`); when the IPv4 addresses are requested the source and the
destination are the header bytes 12..15 and 16..19 and the address type is
IPv4, and when they are not the address type and the addresses are left as
they were. -/
theorem __skb_flow_dissect_ipv4 (a : dissect_args) (iph : List Nat) (o h p : Nat)
    (hpc : (dissect_start a).pc = .again)
    (hproto : (dissect_start a).proto = ETH_P_IP)
    (ho : (dissect_start a).nhoff = o)
    (hiph : (__skb_header_pointer a.skb o 20 a.buf a.buflen).bytes = some iph)
    (hh : u8_at iph 0 % 16 = h) (h5 : 5 ≤ h)
    (hfrag : ip_is_fragment iph = false)
    (hp : u8_at iph 9 = p)
    (hgre : p ≠ 47) (hipip : p ≠ 4) (hv6 : p ≠ 41) (hmpls : p ≠ 137) :
    ∃ t, __skb_flow_dissect a 2 = some (.returned true t) ∧
      t.basic.n_proto = ETH_P_IP ∧ t.basic.ip_proto = p ∧
      t.control.thoff = (o + 4 * h) % 65536 ∧
      (skb_flow_dissector_uses_key a.flow_dissector FLOW_DISSECTOR_KEY_IPV4_ADDRS = true →
        t.addrs.a0 = be32_at iph 12 ∧ t.addrs.a1 = be32_at iph 16 ∧
        t.control.addr_type = FLOW_DISSECTOR_KEY_IPV4_ADDRS.val) ∧
      (skb_flow_dissector_uses_key a.flow_dissector FLOW_DISSECTOR_KEY_IPV4_ADDRS = false →
        t.control.addr_type = a.target_container.control.addr_type ∧
        t.addrs = a.target_container.addrs) := by
  have hst := dissect_start_running a hpc
  subst ho hh hp
  have e1 : step a (dissect_start a) = dissect_ip a (dissect_start a) :=
    step_ip a _ (Or.inr ⟨hpc, hproto⟩)
  have e2 := dissect_ip_of_header a (dissect_start a) iph hiph h5
  simp only [hfrag, Bool.false_eq_true, if_false] at e2
  have hne : (dissect_ip a (dissect_start a)).proto ≠ ETH_P_IPV6 := by
    rw [e2]; simp only [hproto]; decide
  have e3 : step a (dissect_ip a (dissect_start a))
      = dissect_out a (dissect_ip a (dissect_start a)) := by
    apply step_to_out
    · rw [e2]
    · rw [e2]; exact hgre
    · rw [e2]; exact hipip
    · rw [e2]; exact hv6
    · rw [e2]; exact hmpls
    · exact Or.inl hne
  have ho := dissect_out_result a (dissect_ip a (dissect_start a))
  refine ⟨(dissect_out a (dissect_ip a (dissect_start a))).target, ?_, ?_, ?_, ?_, ?_, ?_⟩
  · simp only [__skb_flow_dissect, run_two, e1, e3, ho.1]
  · rw [ho.2.1, e2]; exact hproto
  · rw [ho.2.2.1, e2]
  · rw [ho.2.2.2.2.1, e2]
    simp only [Nat.mul_comm]
  · intro hu
    have hu' : a.uses FLOW_DISSECTOR_KEY_IPV4_ADDRS = true := hu
    rw [ho.2.2.2.2.2.2.1, ho.2.2.2.2.2.1, e2]
    simp [hu']
  · intro hu
    have hu' : a.uses FLOW_DISSECTOR_KEY_IPV4_ADDRS = false := hu
    rw [ho.2.2.2.2.2.2.1, ho.2.2.2.2.2.1, e2]
    simp [hu', hst.1, hst.2.2.2.2.2.1]

/-- Witness of C16 (amended): the packet `ipv4_udp_packet` in a linear `skb`,
offset 0, header length 5, protocol 17. -/
theorem __skb_flow_dissect_ipv4_witness :
    ∃ t, __skb_flow_dissect (flow_keys_call (linear_skb ipv4_udp_packet ETH_P_IP)) 2
        = some (.returned true t) ∧
      t.basic.n_proto = ETH_P_IP ∧ t.basic.ip_proto = 17 ∧
      t.control.thoff = (0 + 4 * 5) % 65536 ∧
      (skb_flow_dissector_uses_key
          (flow_keys_call (linear_skb ipv4_udp_packet ETH_P_IP)).flow_dissector
          FLOW_DISSECTOR_KEY_IPV4_ADDRS = true →
        t.addrs.a0 = be32_at (ipv4_udp_packet.take 20) 12 ∧
        t.addrs.a1 = be32_at (ipv4_udp_packet.take 20) 16 ∧
        t.control.addr_type = FLOW_DISSECTOR_KEY_IPV4_ADDRS.val) ∧
      (skb_flow_dissector_uses_key
          (flow_keys_call (linear_skb ipv4_udp_packet ETH_P_IP)).flow_dissector
          FLOW_DISSECTOR_KEY_IPV4_ADDRS = false →
        t.control.addr_type
          = (flow_keys_call (linear_skb ipv4_udp_packet ETH_P_IP)).target_container.control.addr_type ∧
        t.addrs = (flow_keys_call (linear_skb ipv4_udp_packet ETH_P_IP)).target_container.addrs) :=
  __skb_flow_dissect_ipv4 (flow_keys_call (linear_skb ipv4_udp_packet ETH_P_IP))
    (ipv4_udp_packet.take 20) 0 5 17 (by decide) (by decide) (by decide) (by decide)
    (by decide) (by decide) (by decide) (by decide) (by decide) (by decide) (by decide)
    (by decide)

/-- Counterexample to C16 as stated: a buffer of 65548 bytes that holds the
packet `ipv4_udp_packet` at offset 65520. The 20 bytes of the header are
readable, the call returns `true`, and the `thoff` recorded is 4, not
65520 + 4 * 5. -/
theorem __skb_flow_dissect_ipv4_thoff_wraps :
    (__skb_header_pointer none 65520 20 (buffer_at 65520 ipv4_udp_packet) 65548).bytes
      = some (ipv4_udp_packet.take 20) ∧
    __skb_flow_dissect
        (flow_keys_buf_call (buffer_at 65520 ipv4_udp_packet) ETH_P_IP 65520 65548) 2
      = some (.returned true
          { flow_keys.zero with control := ⟨4, 0⟩, basic := ⟨0x0800, 17, 0⟩ }) ∧
    (4 : Nat) ≠ 65520 + 4 * 5 := by
  decide

/-- C17 (amended): the call reaches the label `again` with the tag IPv6 at
offset `o`, 40 bytes are readable there and the next header `n` is none of 0,
43, 60, 47, 4, 41 and 137. Then the call returns `true` after two steps with
`n_proto` IPv6, `ip_proto = n` and `thoff` equal to `o + 40` modulo 65536
(`thoff` is a `u16`); when the IPv6 addresses are requested the source and the
destination are the header bytes 8..23 and 24..39 and the address type is
IPv6; when the flow label is requested it is the 20-bit flow label of the
header, in host order, if that label is not zero, and it is left as it was if
the label is zero. -/
theorem __skb_flow_dissect_ipv6 (a : dissect_args) (iph : List Nat) (o n : Nat)
    (hpc : (dissect_start a).pc = .again)
    (hproto : (dissect_start a).proto = ETH_P_IPV6)
    (ho : (dissect_start a).nhoff = o)
    (hiph : (__skb_header_pointer a.skb o 40 a.buf a.buflen).bytes = some iph)
    (hn : u8_at iph 6 = n)
    (hhop : n ≠ 0) (hrt : n ≠ 43) (hdst : n ≠ 60)
    (hgre : n ≠ 47) (hipip : n ≠ 4) (hv6 : n ≠ 41) (hmpls : n ≠ 137) :
    ∃ t, __skb_flow_dissect a 2 = some (.returned true t) ∧
      t.basic.n_proto = ETH_P_IPV6 ∧ t.basic.ip_proto = n ∧
      t.control.thoff = (o + 40) % 65536 ∧
      (skb_flow_dissector_uses_key a.flow_dissector FLOW_DISSECTOR_KEY_IPV6_ADDRS = true →
        t.addrs = ⟨be32_at iph 8, be32_at iph 12, be32_at iph 16, be32_at iph 20,
                   be32_at iph 24, be32_at iph 28, be32_at iph 32, be32_at iph 36⟩ ∧
        t.control.addr_type = FLOW_DISSECTOR_KEY_IPV6_ADDRS.val) ∧
      (skb_flow_dissector_uses_key a.flow_dissector FLOW_DISSECTOR_KEY_FLOW_LABEL = true →
        (be32_at iph 0 &&& 0xFFFFF ≠ 0 → t.tags.flow_label = be32_at iph 0 &&& 0xFFFFF) ∧
        (be32_at iph 0 &&& 0xFFFFF = 0 →
          t.tags.flow_label = a.target_container.tags.flow_label)) := by
  have hst := dissect_start_running a hpc
  subst ho hn
  have e1 : step a (dissect_start a) = dissect_ipv6 a (dissect_start a) :=
    step_ipv6 a _ (Or.inr ⟨hpc, hproto⟩)
  have e2 := dissect_ipv6_of_header a (dissect_start a) iph hiph
  have e3 : step a (dissect_ipv6 a (dissect_start a))
      = dissect_out a (dissect_ipv6 a (dissect_start a)) := by
    apply step_to_out
    · rw [e2]
    · rw [e2]; exact hgre
    · rw [e2]; exact hipip
    · rw [e2]; exact hv6
    · rw [e2]; exact hmpls
    · right
      rw [e2]
      exact ⟨hhop, hrt, hdst⟩
  have ho := dissect_out_result a (dissect_ipv6 a (dissect_start a))
  refine ⟨(dissect_out a (dissect_ipv6 a (dissect_start a))).target, ?_, ?_, ?_, ?_, ?_, ?_⟩
  · simp only [__skb_flow_dissect, run_two, e1, e3, ho.1]
  · rw [ho.2.1, e2]; exact hproto
  · rw [ho.2.2.1, e2]
  · rw [ho.2.2.2.2.1, e2]
  · intro hu
    have hu' : a.uses FLOW_DISSECTOR_KEY_IPV6_ADDRS = true := hu
    rw [ho.2.2.2.2.2.2.1, ho.2.2.2.2.2.1, e2]
    simp [hu']
  · intro hu
    have hu' : a.uses FLOW_DISSECTOR_KEY_FLOW_LABEL = true := hu
    rw [ho.2.2.2.2.2.2.2.1, e2]
    constructor
    · intro hnz
      have : ip6_flowlabel iph ≠ 0 := hnz
      simp [hu', this]
      rfl
    · intro hz
      have : ip6_flowlabel iph = 0 := hz
      simp [this, hst.2.2.1]

/-- Witness of C17 (amended): the packet `ipv6_udp_packet` in a linear `skb`,
offset 0, next header 17, flow label `0x12345`. -/
theorem __skb_flow_dissect_ipv6_witness :
    ∃ t, __skb_flow_dissect (flow_keys_call (linear_skb ipv6_udp_packet ETH_P_IPV6)) 2
        = some (.returned true t) ∧
      t.basic.ip_proto = 17 ∧ t.control.thoff = 40 ∧ t.tags.flow_label = 0x12345 ∧
      t.addrs = ⟨0, 0, 0, 1, 0, 0, 0, 2⟩ := by
  obtain ⟨t, h1, _, h3, h4, h5, h6⟩ :=
    __skb_flow_dissect_ipv6 (flow_keys_call (linear_skb ipv6_udp_packet ETH_P_IPV6))
      (ipv6_udp_packet.take 40) 0 17 (by decide) (by decide) (by decide) (by decide)
      (by decide) (by decide) (by decide) (by decide) (by decide) (by decide) (by decide)
      (by decide)
  refine ⟨t, h1, h3, h4, ?_, ?_⟩
  · rw [(h6 (by decide)).1 (by decide)]
    decide
  · rw [(h5 (by decide)).1]
    decide

/-- Counterexample to C17 as stated: a buffer of 65568 bytes that holds the
packet `ipv6_udp_packet` at offset 65520. The 40 bytes of the header are
readable, the call returns `true`, and the `thoff` recorded is 24, not
65520 + 40. -/
theorem __skb_flow_dissect_ipv6_thoff_wraps :
    (__skb_header_pointer none 65520 40 (buffer_at 65520 ipv6_udp_packet) 65568).bytes
      = some (ipv6_udp_packet.take 40) ∧
    __skb_flow_dissect
        (flow_keys_buf_call (buffer_at 65520 ipv6_udp_packet) ETH_P_IPV6 65520 65568) 2
      = some (.returned true
          { flow_keys.zero with control := ⟨24, 0⟩, basic := ⟨0x86DD, 17, 0⟩ }) ∧
    (24 : Nat) ≠ 65520 + 40 := by
  decide

/-- C18: the ports at termination. The next step of the walk is the code after
`switch (ip_proto)`, entered in the state `s`, and the ports key is requested.
Then the call returns `true` with `ip_proto` that of `s`. If the table
`proto_ports_offset` gives an offset for this ip-protocol and the 4 bytes at
that offset from `nhoff` are readable, the ports recorded are those 4 bytes,
source port then destination port; if the table gives none, the ports recorded
are zero. With the table of the spec: for TCP, UDP, UDP-Lite, SCTP and DCCP the
ports are the 4 readable bytes at `nhoff`, and for ICMP and for 0 (a fragment)
they are zero. -/
theorem __skb_flow_dissect_ports (a : dissect_args) (n : Nat) (s : walk)
    (hexit : step a (run a n (dissect_start a)) = dissect_out a s)
    (hu : skb_flow_dissector_uses_key a.flow_dissector FLOW_DISSECTOR_KEY_PORTS = true) :
    ∃ t, __skb_flow_dissect a (n + 1) = some (.returned true t) ∧
      t.basic.ip_proto = s.ip_proto ∧
      (∀ po p, a.ports_offset s.ip_proto = some po →
        (__skb_header_pointer a.skb (s.nhoff + po) 4 a.buf a.buflen).bytes = some p →
        t.ports = ⟨be16_at p 0, be16_at p 2⟩ ∧ t.ports.ports = be32_at p 0) ∧
      (a.ports_offset s.ip_proto = none → t.ports = ⟨0, 0⟩ ∧ t.ports.ports = 0) ∧
      (a.ports_offset = proto_ports_offset →
        (∀ p, (s.ip_proto = 6 ∨ s.ip_proto = 17 ∨ s.ip_proto = 136 ∨ s.ip_proto = 132 ∨
            s.ip_proto = 33) →
          (__skb_header_pointer a.skb s.nhoff 4 a.buf a.buflen).bytes = some p →
          t.ports = ⟨be16_at p 0, be16_at p 2⟩ ∧ t.ports.ports = be32_at p 0) ∧
        ((s.ip_proto = 1 ∨ s.ip_proto = 0) → t.ports = ⟨0, 0⟩ ∧ t.ports.ports = 0)) := by
  have hu' : a.uses FLOW_DISSECTOR_KEY_PORTS = true := hu
  have ho := dissect_out_result a s
  have hp := dissect_out_ports a s hu'
  have hnone : a.ports_offset s.ip_proto = none →
      (dissect_out a s).target.ports = ⟨0, 0⟩ ∧ (dissect_out a s).target.ports.ports = 0 := by
    intro hn
    rw [(hp.2 hn).1]
    exact ⟨rfl, rfl⟩
  refine ⟨(dissect_out a s).target, ?_, ho.2.2.1, ?_, hnone, ?_⟩
  · simp only [__skb_flow_dissect, run_succ_outer, hexit, ho.1]
  · intro po p ht hbytes
    exact dissect_out_ports_at a s hu' po p ht hbytes
  · intro htab
    constructor
    · intro p hproto hbytes
      apply hp.1 p _ hbytes
      rw [htab]
      rcases hproto with h | h | h | h | h <;> rw [h] <;> rfl
    · intro h
      apply hnone
      rw [htab]
      rcases h with h | h <;> rw [h] <;> rfl

/-- Witness of C18: the packet `ipv4_udp_packet` in a linear `skb`; the exit
code is entered after one step, and the ports recorded are 4660 and 53. -/
theorem __skb_flow_dissect_ports_witness :
    ∃ t, __skb_flow_dissect (flow_keys_call (linear_skb ipv4_udp_packet ETH_P_IP)) 2
        = some (.returned true t) ∧ t.basic.ip_proto = 17 ∧ t.ports = ⟨0x1234, 0x35⟩ := by
  obtain ⟨t, h1, h2, _, _, h3⟩ :=
    __skb_flow_dissect_ports (flow_keys_call (linear_skb ipv4_udp_packet ETH_P_IP)) 1
      (run (flow_keys_call (linear_skb ipv4_udp_packet ETH_P_IP)) 1
        (dissect_start (flow_keys_call (linear_skb ipv4_udp_packet ETH_P_IP))))
      (by decide) (by decide)
  refine ⟨t, h1, ?_, ?_⟩
  · rw [h2]; decide
  · rw [((h3 rfl).1 [0x12, 0x34, 0, 0x35] (by decide) (by decide)).1]
    decide

/-- C19: `make_flow_keys_digest` is a projection onto `n_proto`, `ip_proto`,
the ports and the IPv4 source and destination. For two flow keys whose members
fit their C types, and whatever the digests held before, the two digests are
equal exactly when the keys agree on these five fields; changing the tags (the
VLAN id and the flow label) does not change the digest; keys with different
IPv4 destinations have different digests; and the 16 bytes are `n_proto`,
`ip_proto`, a zero byte, the ports, the source and the destination. -/
theorem make_flow_keys_digest_projection (d1 d2 : flow_keys_digest) (k1 k2 : flow_keys)
    (h1 : k1.wf) (h2 : k2.wf) :
    (make_flow_keys_digest d1 k1 = make_flow_keys_digest d2 k2 ↔
      (k1.basic.n_proto = k2.basic.n_proto ∧ k1.basic.ip_proto = k2.basic.ip_proto ∧
       k1.ports = k2.ports ∧ k1.addrs.a0 = k2.addrs.a0 ∧ k1.addrs.a1 = k2.addrs.a1)) ∧
    (∀ tags, make_flow_keys_digest d1 { k1 with tags := tags } = make_flow_keys_digest d2 k1) ∧
    (k1.addrs.a1 ≠ k2.addrs.a1 → make_flow_keys_digest d1 k1 ≠ make_flow_keys_digest d2 k2) ∧
    (make_flow_keys_digest d1 k1).data =
      be16_bytes k1.basic.n_proto ++ [k1.basic.ip_proto] ++ [0] ++
      (be16_bytes k1.ports.src ++ be16_bytes k1.ports.dst) ++
      be32_bytes k1.addrs.a0 ++ be32_bytes k1.addrs.a1 := by
  have hiff := make_flow_keys_digest_eq_iff d1 d2 k1 k2 h1 h2
  refine ⟨hiff, ?_, ?_, ?_⟩
  · intro tags
    rfl
  · intro hne h
    exact hne (hiff.1 h).2.2.2.2
  · rw [make_flow_keys_digest_data]
    have : k1.basic.ip_proto % 256 = k1.basic.ip_proto := Nat.mod_eq_of_lt h1.2.2.2.1
    simp [be16_bytes, be32_bytes, this]

/-- Witness of C19: the key `key_v4_example` and the same key with the
destination 0.0.0.7, the first digest buffer full of `0xff` before the call. -/
theorem make_flow_keys_digest_projection_witness :
    (make_flow_keys_digest ⟨List.replicate 16 255⟩ key_v4_example
        = make_flow_keys_digest ⟨[]⟩ { key_v4_example with addrs := { key_v4_example.addrs with a1 := 7 } } ↔
      (key_v4_example.basic.n_proto = key_v4_example.basic.n_proto ∧
       key_v4_example.basic.ip_proto = key_v4_example.basic.ip_proto ∧
       key_v4_example.ports = key_v4_example.ports ∧
       key_v4_example.addrs.a0 = key_v4_example.addrs.a0 ∧
       key_v4_example.addrs.a1 = 7)) ∧
    (∀ tags, make_flow_keys_digest ⟨List.replicate 16 255⟩ { key_v4_example with tags := tags }
      = make_flow_keys_digest ⟨[]⟩ key_v4_example) ∧
    (key_v4_example.addrs.a1 ≠ 7 →
      make_flow_keys_digest ⟨List.replicate 16 255⟩ key_v4_example
        ≠ make_flow_keys_digest ⟨[]⟩
            { key_v4_example with addrs := { key_v4_example.addrs with a1 := 7 } }) ∧
    (make_flow_keys_digest ⟨List.replicate 16 255⟩ key_v4_example).data =
      be16_bytes key_v4_example.basic.n_proto ++ [key_v4_example.basic.ip_proto] ++ [0] ++
      (be16_bytes key_v4_example.ports.src ++ be16_bytes key_v4_example.ports.dst) ++
      be32_bytes key_v4_example.addrs.a0 ++ be32_bytes key_v4_example.addrs.a1 :=
  make_flow_keys_digest_projection ⟨List.replicate 16 255⟩ ⟨[]⟩ key_v4_example
    { key_v4_example with addrs := { key_v4_example.addrs with a1 := 7 } }
    (by decide) (by decide)

/-- C20, the code at two failing inputs. The same linear `skb` that holds an
IPv6 packet with one hop-by-hop header, the same dissector and the same zeroed
target give `ip_proto = 17` with ports when the scratch array `_opthdr`, which
is never written, holds 17 in its first byte, and `ip_proto = 1` without ports
when it holds 1. The same `skb` that holds an MPLS entropy label gives
`ip_proto = 6` or `ip_proto = 17` according to the value that the local
`ip_proto`, which is never assigned on this path, holds at entry. -/
theorem __skb_flow_dissect_depends_on_stack :
    __skb_flow_dissect
        { flow_keys_call (linear_skb ipv6_hop_udp_packet ETH_P_IPV6) with _opthdr := (17, 0) } 3
      = some (.returned true
          { flow_keys.zero with
            control := ⟨48, FLOW_DISSECTOR_KEY_IPV6_ADDRS.val⟩,
            basic := ⟨0x86DD, 17, 0⟩,
            ports := ⟨4660, 53⟩,
            addrs := ⟨0, 0, 0, 1, 0, 0, 0, 2⟩ }) ∧
    __skb_flow_dissect
        { flow_keys_call (linear_skb ipv6_hop_udp_packet ETH_P_IPV6) with _opthdr := (1, 0) } 3
      = some (.returned true
          { flow_keys.zero with
            control := ⟨48, FLOW_DISSECTOR_KEY_IPV6_ADDRS.val⟩,
            basic := ⟨0x86DD, 1, 0⟩,
            addrs := ⟨0, 0, 0, 1, 0, 0, 0, 2⟩ }) ∧
    __skb_flow_dissect
        { flow_keys_call (linear_skb mpls_entropy_packet ETH_P_MPLS_UC) with ip_proto := 6 } 1
      = some (.returned true { flow_keys.zero with basic := ⟨0x8847, 6, 0⟩ }) ∧
    __skb_flow_dissect
        { flow_keys_call (linear_skb mpls_entropy_packet ETH_P_MPLS_UC) with ip_proto := 17 } 1
      = some (.returned true { flow_keys.zero with basic := ⟨0x8847, 17, 0⟩ }) := by
  decide

/-- C21: `__skb_get_hash` leaves the `skb` as it was (hash, `sw_hash` and
`l4_hash` included) when the dissection of the packet fails. When the dissection
succeeds, the `skb` gets the flow hash of the dissected keys in `hash`, 1 in
`sw_hash`, and 1 in `l4_hash` when the recorded ports word is not zero
(`l4_hash` is kept otherwise); this hash is not zero, and for an `skb` whose
`l4_hash` was 0 the new `l4_hash` is 1 if and only if the ports word is not
zero. -/
theorem __skb_get_hash_result (le : Bool) (jhash2 : List Nat → Nat → Nat) (env : dissect_env)
    (hashrnd : Nat) (skb : sk_buff) (fuel : Nat) (keys : flow_keys) :
    (skb_flow_dissect_flow_keys env skb fuel = some (.returned false keys) →
      __skb_get_hash le jhash2 env hashrnd skb fuel = some skb) ∧
    (skb_flow_dissect_flow_keys env skb fuel = some (.returned true keys) →
      __skb_get_hash le jhash2 env hashrnd skb fuel
        = some { skb with
            hash := (__flow_hash_from_keys le jhash2 keys hashrnd).1,
            sw_hash := 1,
            l4_hash := if keys.ports.ports ≠ 0 then 1 else skb.l4_hash } ∧
      (__flow_hash_from_keys le jhash2 keys hashrnd).1 ≠ 0 ∧
      (skb.l4_hash = 0 →
        ((if keys.ports.ports ≠ 0 then 1 else skb.l4_hash) = 1 ↔ keys.ports.ports ≠ 0))) := by
  constructor
  · intro h
    simp only [__skb_get_hash, ___skb_get_hash, h, if_true]
  · intro h
    have hne := hash_from_keys_fst_ne_zero le jhash2 keys hashrnd
    have hp := consistentify_ports_ne_zero le keys
    refine ⟨?_, hne, ?_⟩
    · simp only [__skb_get_hash, ___skb_get_hash, h, if_neg hne]
      have e : (__flow_hash_from_keys le jhash2 keys hashrnd).2
          = __flow_hash_consistentify le keys := rfl
      rw [e]
      by_cases hz : keys.ports.ports ≠ 0
      · rw [if_pos (hp.2 hz), if_pos hz]
      · rw [if_neg (fun h' => hz (hp.1 h')), if_neg hz]
    · intro hl
      by_cases hz : keys.ports.ports ≠ 0
      · simp [hz]
      · simp [hz, hl]

/-- Witness of C21: an IPv4 packet cut after 10 bytes, whose dissection fails,
and the packet `ipv4_udp_packet`, whose dissection records the ports. -/
theorem __skb_get_hash_result_witness :
    __skb_get_hash true (fun w s => w.sum + s + 1) zero_env 5
        (linear_skb (ipv4_udp_packet.take 10) ETH_P_IP) 1
      = some (linear_skb (ipv4_udp_packet.take 10) ETH_P_IP) ∧
    (__skb_get_hash true (fun w s => w.sum + s + 1) zero_env 5
        (linear_skb ipv4_udp_packet ETH_P_IP) 2).map
        (fun skb => (skb.sw_hash, skb.l4_hash, decide (skb.hash ≠ 0)))
      = some (1, 1, true) := by
  constructor
  · exact (__skb_get_hash_result true (fun w s => w.sum + s + 1) zero_env 5
      (linear_skb (ipv4_udp_packet.take 10) ETH_P_IP) 1 flow_keys.zero).1 (by decide)
  · decide

/-- C22, the code at a failing input. The linear `skb` holds an IPv6 packet
with one hop-by-hop header (next header 17, length 0) followed by a UDP header;
the two bytes at offset 40 are readable in place. With 59 and 1 in the scratch
array `_opthdr` at entry the walk takes the ip-protocol 59 and the length 1 from
the scratch array, not from the packet: it returns `ip_proto = 59`,
`thoff = 56` and no ports. When the same packet has only its first 40 bytes in
the linear part, the read copies the two bytes into the scratch array and the
walk returns `ip_proto = 17`, `thoff = 48` and the ports of the UDP header. -/
theorem __skb_flow_dissect_opthdr_reads_scratch :
    __skb_header_pointer (some (linear_skb ipv6_hop_udp_packet ETH_P_IPV6)) 40 2
        (linear_skb ipv6_hop_udp_packet ETH_P_IPV6).data
        (linear_skb ipv6_hop_udp_packet ETH_P_IPV6).headlen
      = .direct [17, 0] ∧
    __skb_flow_dissect
        { flow_keys_call (linear_skb ipv6_hop_udp_packet ETH_P_IPV6) with _opthdr := (59, 1) } 3
      = some (.returned true
          { flow_keys.zero with
            control := ⟨56, FLOW_DISSECTOR_KEY_IPV6_ADDRS.val⟩,
            basic := ⟨0x86DD, 59, 0⟩,
            addrs := ⟨0, 0, 0, 1, 0, 0, 0, 2⟩ }) ∧
    __skb_flow_dissect
        { flow_keys_call { linear_skb ipv6_hop_udp_packet ETH_P_IPV6 with headlen := 40 } with
          _opthdr := (59, 1) } 3
      = some (.returned true
          { flow_keys.zero with
            control := ⟨48, FLOW_DISSECTOR_KEY_IPV6_ADDRS.val⟩,
            basic := ⟨0x86DD, 17, 0⟩,
            ports := ⟨4660, 53⟩,
            addrs := ⟨0, 0, 0, 1, 0, 0, 0, 2⟩ }) := by
  decide

/-- C23: GRE offset arithmetic. The walk stands at `ip_proto_again` with
ip-protocol GRE at the offset `g`, the 4 bytes of the GRE header are readable,
the version is 0 and the routing flag is clear; `C`, `K` and `S` are the
checksum, key and sequence flags as 0 or 1. When `K = 1` and the 4 bytes at
`g + 4 + 4 * C` are not readable the call returns `false`. Otherwise the next
state is at the label `again` with the GRE protocol field as tag at the offset
`g + 4 + 4 * C + 4 * K + 4 * S`, or, when that field is TEB, with the ethertype
of the inner Ethernet header as tag 14 bytes further when the 14 bytes are
readable, and the call returns `false` when they are not. When `K = 1` and the
GRE key id is requested, `keyid` is the 4 bytes at `g + 4 + 4 * C` as a
big-endian word; when `K = 0` or the key id is not requested the target is not
written. -/
theorem __skb_flow_dissect_gre_offsets (a : dissect_args) (n : Nat) (hdr : List Nat)
    (g C K S : Nat)
    (hpc : (run a n (dissect_start a)).pc = .ip_proto_again)
    (hip : (run a n (dissect_start a)).ip_proto = IPPROTO_GRE)
    (hg : (run a n (dissect_start a)).nhoff = g)
    (hhdr : (__skb_header_pointer a.skb g 4 a.buf a.buflen).bytes = some hdr)
    (hver : be16_at hdr 0 &&& (GRE_VERSION ||| GRE_ROUTING) = 0)
    (hC : C = if be16_at hdr 0 &&& GRE_CSUM ≠ 0 then 1 else 0)
    (hK : K = if be16_at hdr 0 &&& GRE_KEY ≠ 0 then 1 else 0)
    (hS : S = if be16_at hdr 0 &&& GRE_SEQ ≠ 0 then 1 else 0) :
    (K = 1 → (__skb_header_pointer a.skb (g + 4 + 4 * C) 4 a.buf a.buflen).bytes = none →
      ∃ t, __skb_flow_dissect a (n + 1) = some (.returned false t)) ∧
    (∀ key, (K = 1 →
        (__skb_header_pointer a.skb (g + 4 + 4 * C) 4 a.buf a.buflen).bytes = some key) →
      (be16_at hdr 2 ≠ ETH_P_TEB →
        (run a (n + 1) (dissect_start a)).pc = .again ∧
        (run a (n + 1) (dissect_start a)).proto = be16_at hdr 2 ∧
        (run a (n + 1) (dissect_start a)).nhoff = g + 4 + 4 * C + 4 * K + 4 * S) ∧
      (be16_at hdr 2 = ETH_P_TEB →
        (∀ eth, (__skb_header_pointer a.skb (g + 4 + 4 * C + 4 * K + 4 * S) 14
            a.buf a.buflen).bytes = some eth →
          (run a (n + 1) (dissect_start a)).pc = .again ∧
          (run a (n + 1) (dissect_start a)).proto = be16_at eth 12 ∧
          (run a (n + 1) (dissect_start a)).nhoff = g + 4 + 4 * C + 4 * K + 4 * S + 14) ∧
        ((__skb_header_pointer a.skb (g + 4 + 4 * C + 4 * K + 4 * S) 14
            a.buf a.buflen).bytes = none →
          ∃ t, __skb_flow_dissect a (n + 1) = some (.returned false t))) ∧
      (K = 1 →
        skb_flow_dissector_uses_key a.flow_dissector FLOW_DISSECTOR_KEY_GRE_KEYID = true →
        (run a (n + 1) (dissect_start a)).target.keyid.keyid = be32_at key 0) ∧
      ((K = 0 ∨
          skb_flow_dissector_uses_key a.flow_dissector FLOW_DISSECTOR_KEY_GRE_KEYID = false) →
        (run a (n + 1) (dissect_start a)).target = (run a n (dissect_start a)).target)) := by
  have hrun : run a (n + 1) (dissect_start a) = dissect_gre a (run a n (dissect_start a)) := by
    rw [run_succ_outer, step_gre a _ hpc hip]
  generalize hs : run a n (dissect_start a) = s at *
  subst hg
  have hv0 := dissect_gre_v0 a s hdr hhdr hver
  have hfail : ∀ s' : walk, run a (n + 1) (dissect_start a) = s' → s'.pc = .ret false →
      ∃ t, __skb_flow_dissect a (n + 1) = some (.returned false t) := by
    intro s' e hp
    exact ⟨s'.target, by simp only [__skb_flow_dissect, e, hp]⟩
  have h4C : 4 * C = if be16_at hdr 0 &&& GRE_CSUM ≠ 0 then 4 else 0 := by
    rw [hC]; split <;> rfl
  have h4S : 4 * S = if be16_at hdr 0 &&& GRE_SEQ ≠ 0 then 4 else 0 := by
    rw [hS]; split <;> rfl
  rw [h4C, h4S]
  by_cases hkey : be16_at hdr 0 &&& GRE_KEY ≠ 0
  · have hK1 : K = 1 := by rw [hK, if_pos hkey]
    rw [if_pos hkey] at hv0
    subst hK1
    constructor
    · intro _ hn
      simp only [hn] at hv0
      exact hfail _ (hrun.trans hv0) rfl
    · intro key hk
      have hk' := hk rfl
      simp only [hk'] at hv0
      have hseq := dissect_gre_seq_result a (be16_at hdr 0)
        { s with
          proto := be16_at hdr 2,
          nhoff := s.nhoff + 4 + (if be16_at hdr 0 &&& GRE_CSUM ≠ 0 then 4 else 0) + 4,
          reads := s.reads ++ [⟨.GRE_HDR, s.nhoff, 4, true⟩] ++
            [⟨.GRE_KEYID, s.nhoff + 4 + (if be16_at hdr 0 &&& GRE_CSUM ≠ 0 then 4 else 0),
              4, true⟩],
          target :=
            if a.uses FLOW_DISSECTOR_KEY_GRE_KEYID then
              { s.target with keyid := { keyid := be32_at key 0 } }
            else s.target }
      rw [hrun, hv0]
      refine ⟨?_, ?_, ?_, ?_⟩
      · intro hteb
        rw [hseq.1 hteb]
        exact ⟨rfl, rfl, rfl⟩
      · intro hteb
        refine ⟨?_, ?_⟩
        · intro eth he
          rw [(hseq.2 hteb).1 eth he]
          exact ⟨rfl, rfl, rfl⟩
        · intro he
          exact hfail _ (hrun.trans hv0) ((hseq.2 hteb).2 he).1
      · intro _ hu
        have hu' : a.uses FLOW_DISSECTOR_KEY_GRE_KEYID = true := hu
        by_cases hteb : be16_at hdr 2 = ETH_P_TEB
        · cases he : (__skb_header_pointer a.skb
              (s.nhoff + 4 + (if be16_at hdr 0 &&& GRE_CSUM ≠ 0 then 4 else 0) + 4 +
                (if be16_at hdr 0 &&& GRE_SEQ ≠ 0 then 4 else 0)) 14 a.buf a.buflen).bytes with
          | none =>
            rw [((hseq.2 hteb).2 he).2]
            simp only [hu', if_true]
          | some eth =>
            rw [(hseq.2 hteb).1 eth he]
            simp only [hu', if_true]
        · rw [hseq.1 hteb]
          simp only [hu', if_true]
      · intro hor
        have hu' : a.uses FLOW_DISSECTOR_KEY_GRE_KEYID = false := by
          rcases hor with h | h
          · exact absurd h (by decide)
          · exact h
        by_cases hteb : be16_at hdr 2 = ETH_P_TEB
        · cases he : (__skb_header_pointer a.skb
              (s.nhoff + 4 + (if be16_at hdr 0 &&& GRE_CSUM ≠ 0 then 4 else 0) + 4 +
                (if be16_at hdr 0 &&& GRE_SEQ ≠ 0 then 4 else 0)) 14 a.buf a.buflen).bytes with
          | none =>
            rw [((hseq.2 hteb).2 he).2]
            simp only [hu', Bool.false_eq_true, if_false]
          | some eth =>
            rw [(hseq.2 hteb).1 eth he]
            simp only [hu', Bool.false_eq_true, if_false]
        · rw [hseq.1 hteb]
          simp only [hu', Bool.false_eq_true, if_false]
  · have hK0 : K = 0 := by rw [hK, if_neg hkey]
    rw [if_neg hkey] at hv0
    subst hK0
    constructor
    · intro h
      exact absurd h (by decide)
    · intro key _
      have hseq := dissect_gre_seq_result a (be16_at hdr 0)
        { s with
          proto := be16_at hdr 2,
          nhoff := s.nhoff + 4 + (if be16_at hdr 0 &&& GRE_CSUM ≠ 0 then 4 else 0),
          reads := s.reads ++ [⟨.GRE_HDR, s.nhoff, 4, true⟩] }
      rw [hrun, hv0]
      simp only [Nat.mul_zero, Nat.add_zero]
      refine ⟨?_, ?_, ?_, ?_⟩
      · intro hteb
        rw [hseq.1 hteb]
        exact ⟨rfl, rfl, rfl⟩
      · intro hteb
        refine ⟨?_, ?_⟩
        · intro eth he
          rw [(hseq.2 hteb).1 eth he]
          exact ⟨rfl, rfl, rfl⟩
        · intro he
          exact hfail _ (hrun.trans hv0) ((hseq.2 hteb).2 he).1
      · intro h
        exact absurd h (by decide)
      · intro _
        by_cases hteb : be16_at hdr 2 = ETH_P_TEB
        · cases he : (__skb_header_pointer a.skb
              (s.nhoff + 4 + (if be16_at hdr 0 &&& GRE_CSUM ≠ 0 then 4 else 0) +
                (if be16_at hdr 0 &&& GRE_SEQ ≠ 0 then 4 else 0)) 14 a.buf a.buflen).bytes with
          | none => rw [((hseq.2 hteb).2 he).2]
          | some eth => rw [(hseq.2 hteb).1 eth he]
        · rw [hseq.1 hteb]

/-- Witness of C23: the packet `ipv4_gre_teb_ipv6_udp_packet`, whose GRE header
at offset 20 has the checksum and key flags, the key `0xDEADBEEF` and the
protocol TEB. -/
theorem __skb_flow_dissect_gre_offsets_witness :
    (run (flow_keys_call (linear_skb ipv4_gre_teb_ipv6_udp_packet ETH_P_IP)) (1 + 1)
        (dissect_start (flow_keys_call (linear_skb ipv4_gre_teb_ipv6_udp_packet ETH_P_IP)))).pc
      = .again ∧
    (run (flow_keys_call (linear_skb ipv4_gre_teb_ipv6_udp_packet ETH_P_IP)) (1 + 1)
        (dissect_start (flow_keys_call (linear_skb ipv4_gre_teb_ipv6_udp_packet ETH_P_IP)))).proto
      = 0x86DD ∧
    (run (flow_keys_call (linear_skb ipv4_gre_teb_ipv6_udp_packet ETH_P_IP)) (1 + 1)
        (dissect_start (flow_keys_call (linear_skb ipv4_gre_teb_ipv6_udp_packet ETH_P_IP)))).nhoff
      = 20 + 4 + 4 * 1 + 4 * 1 + 4 * 0 + 14 ∧
    (run (flow_keys_call (linear_skb ipv4_gre_teb_ipv6_udp_packet ETH_P_IP)) (1 + 1)
        (dissect_start (flow_keys_call (linear_skb ipv4_gre_teb_ipv6_udp_packet ETH_P_IP)))
      ).target.keyid.keyid = 0xDEADBEEF := by
  have h := (__skb_flow_dissect_gre_offsets
    (flow_keys_call (linear_skb ipv4_gre_teb_ipv6_udp_packet ETH_P_IP)) 1
    [0xA0, 0x00, 0x65, 0x58] 20 1 1 0 (by decide) (by decide) (by decide) (by decide)
    (by decide) (by decide) (by decide) (by decide)).2 [0xDE, 0xAD, 0xBE, 0xEF]
    (fun _ => by decide)
  obtain ⟨h1, h2, h3⟩ := (h.2.1 (by decide)).1
    [1, 2, 3, 4, 5, 6, 7, 8, 9, 10, 11, 12, 0x86, 0xDD] (by decide)
  exact ⟨h1, h2, h3, h.2.2.1 rfl (by decide)⟩

/-- C24 (amended): when the walk stands at `ip_proto_again` with ip-protocol GRE,
the 4 bytes of the GRE header are readable and the version bits are not zero or
the routing flag is set, the call returns `true` after this step with
`basic.ip_proto = 47`, `basic.n_proto` the current tag, `control.thoff` the
offset of the GRE header modulo 65536, the key id, the address type, the
addresses and the tags as they were, and, when the ports are requested and the
table `proto_ports_offset` has no entry for GRE, ports 0. -/
theorem __skb_flow_dissect_gre_unsupported (a : dissect_args) (n : Nat) (hdr : List Nat)
    (hpc : (run a n (dissect_start a)).pc = .ip_proto_again)
    (hip : (run a n (dissect_start a)).ip_proto = IPPROTO_GRE)
    (hhdr : (__skb_header_pointer a.skb (run a n (dissect_start a)).nhoff 4
      a.buf a.buflen).bytes = some hdr)
    (hver : be16_at hdr 0 &&& (GRE_VERSION ||| GRE_ROUTING) ≠ 0)
    (htab : a.ports_offset 47 = none) :
    ∃ t, __skb_flow_dissect a (n + 1) = some (.returned true t) ∧
      t.basic.ip_proto = 47 ∧
      t.basic.n_proto = (run a n (dissect_start a)).proto ∧
      t.control.thoff = (run a n (dissect_start a)).nhoff % 65536 ∧
      t.keyid = (run a n (dissect_start a)).target.keyid ∧
      t.control.addr_type = (run a n (dissect_start a)).target.control.addr_type ∧
      t.addrs = (run a n (dissect_start a)).target.addrs ∧
      t.tags = (run a n (dissect_start a)).target.tags ∧
      (skb_flow_dissector_uses_key a.flow_dissector FLOW_DISSECTOR_KEY_PORTS = true →
        t.ports = ⟨0, 0⟩) := by
  generalize hs : run a n (dissect_start a) = s at *
  have e1 : step a s = dissect_gre a s := step_gre a s hpc hip
  have e2 : dissect_gre a s
      = dissect_out a { s with reads := s.reads ++ [⟨.GRE_HDR, s.nhoff, 4, true⟩] } := by
    simp only [dissect_gre, walk.header, hhdr, if_pos hver, Option.isSome_some]
  have ho := dissect_out_result a { s with reads := s.reads ++ [⟨.GRE_HDR, s.nhoff, 4, true⟩] }
  refine ⟨(dissect_out a { s with reads := s.reads ++ [⟨.GRE_HDR, s.nhoff, 4, true⟩] }).target,
    ?_, ?_, ho.2.1, ho.2.2.2.2.1, ho.2.2.2.2.2.2.2.2.1, ho.2.2.2.2.2.1, ho.2.2.2.2.2.2.1,
    ho.2.2.2.2.2.2.2.1, ?_⟩
  · simp only [__skb_flow_dissect, run_succ_outer, hs, e1, e2, ho.1]
  · rw [ho.2.2.1]; exact hip
  · intro hu
    have hu' : a.uses FLOW_DISSECTOR_KEY_PORTS = true := hu
    exact ((dissect_out_ports a _ hu').2 (by
      show a.ports_offset s.ip_proto = none
      rw [hip]; exact htab)).1

/-- Witness of C24: the packet `ipv4_gre_v1_packet`, an IPv4 header followed by
a GRE header of version 1. -/
theorem __skb_flow_dissect_gre_unsupported_witness :
    ∃ t, __skb_flow_dissect (flow_keys_call (linear_skb ipv4_gre_v1_packet ETH_P_IP)) (1 + 1)
        = some (.returned true t) ∧
      t.basic.ip_proto = 47 ∧ t.basic.n_proto = ETH_P_IP ∧ t.control.thoff = 20 ∧
      t.keyid = ⟨0⟩ ∧ t.ports = ⟨0, 0⟩ := by
  obtain ⟨t, h1, h2, h3, h4, h5, _, _, _, h9⟩ :=
    __skb_flow_dissect_gre_unsupported (flow_keys_call (linear_skb ipv4_gre_v1_packet ETH_P_IP))
      1 [0x00, 0x01, 0x08, 0x00] (by decide) (by decide) (by decide) (by decide) (by decide)
  refine ⟨t, h1, h2, ?_, ?_, ?_, h9 (by decide)⟩
  · rw [h3]; decide
  · rw [h4]; decide
  · rw [h5]; decide

/-- Counterexample of C24: an IPv4 header at offset 65520 followed by a GRE
header of version 1 at offset 65540. The GRE header is readable and the call
returns `true` with `control.thoff = 4`, which is not the offset 65540 of the
GRE header. -/
theorem __skb_flow_dissect_gre_unsupported_thoff_wraps :
    __skb_flow_dissect
        (flow_keys_buf_call (buffer_at 65520 ipv4_gre_v1_packet) ETH_P_IP 65520 65552) 2
      = some (.returned true
          { flow_keys.zero with control := ⟨4, 0⟩, basic := ⟨0x0800, 47, 0⟩ }) ∧
    (__skb_header_pointer none 65540 4 (buffer_at 65520 ipv4_gre_v1_packet) 65552).bytes
      = some [0x00, 0x01, 0x08, 0x00] ∧
    (4 : Nat) ≠ 65540 := by
  decide

/-- C25 (amended): MPLS branch. The walk stands at the label `mpls`, or at
`again` with the tag MPLS unicast or multicast. With 8 readable bytes at the
current offset the call returns `true` after this step. When the label of the
first entry is the entropy label indicator 7, `keyid` is the second entry under
the mask `0xFFFFF000` when the MPLS entropy key is requested and is kept when it
is not, `basic.n_proto` is the current tag, which is an MPLS tag,
`basic.ip_proto` is the value of the local `ip_proto`, `control.thoff` is the
current offset modulo 65536, and the other members are kept. When the label is
not 7 the target is left as it was. When the 8 bytes are not readable the call
returns `false` and the target is left as it was. -/
theorem __skb_flow_dissect_mpls (a : dissect_args) (n : Nat)
    (hat : (run a n (dissect_start a)).pc = .mpls ∨
      ((run a n (dissect_start a)).pc = .again ∧
        ((run a n (dissect_start a)).proto = ETH_P_MPLS_UC ∨
         (run a n (dissect_start a)).proto = ETH_P_MPLS_MC))) :
    (∀ hdr, (__skb_header_pointer a.skb (run a n (dissect_start a)).nhoff 8
        a.buf a.buflen).bytes = some hdr →
      ∃ t, __skb_flow_dissect a (n + 1) = some (.returned true t) ∧
        ((be32_at hdr 0 &&& 0xFFFFF000) >>> 12 = 7 →
          (skb_flow_dissector_uses_key a.flow_dissector FLOW_DISSECTOR_KEY_MPLS_ENTROPY = true →
            t.keyid.keyid = be32_at hdr 4 &&& 0xFFFFF000) ∧
          (skb_flow_dissector_uses_key a.flow_dissector FLOW_DISSECTOR_KEY_MPLS_ENTROPY = false →
            t.keyid = (run a n (dissect_start a)).target.keyid) ∧
          ((run a n (dissect_start a)).proto = ETH_P_MPLS_UC ∨
            (run a n (dissect_start a)).proto = ETH_P_MPLS_MC) ∧
          t.basic.n_proto = (run a n (dissect_start a)).proto ∧
          t.basic.ip_proto = (run a n (dissect_start a)).ip_proto ∧
          t.control.thoff = (run a n (dissect_start a)).nhoff % 65536 ∧
          t.control.addr_type = (run a n (dissect_start a)).target.control.addr_type ∧
          t.basic.padding = (run a n (dissect_start a)).target.basic.padding ∧
          t.tags = (run a n (dissect_start a)).target.tags ∧
          t.ports = (run a n (dissect_start a)).target.ports ∧
          t.addrs = (run a n (dissect_start a)).target.addrs ∧
          t.eth_addrs = (run a n (dissect_start a)).target.eth_addrs) ∧
        ((be32_at hdr 0 &&& 0xFFFFF000) >>> 12 ≠ 7 →
          t = (run a n (dissect_start a)).target)) ∧
    ((__skb_header_pointer a.skb (run a n (dissect_start a)).nhoff 8
        a.buf a.buflen).bytes = none →
      __skb_flow_dissect a (n + 1)
        = some (.returned false (run a n (dissect_start a)).target)) := by
  have hl := label_ok_run a n _ (label_ok_dissect_start a)
  generalize hs : run a n (dissect_start a) = s at *
  have e1 : step a s = dissect_mpls a s := step_mpls a s hat
  have hproto : s.proto = ETH_P_MPLS_UC ∨ s.proto = ETH_P_MPLS_MC := by
    rcases hat with h | h
    · exact Or.inl (hl.2.2 h)
    · exact h.2
  constructor
  · intro hdr hh
    by_cases hent : (be32_at hdr 0 &&& 0xFFFFF000) >>> 12 = 7
    · have e2 : dissect_mpls a s =
          { s with
            pc := .ret true,
            reads := s.reads ++ [⟨.MPLS_LABELS, s.nhoff, 8, true⟩],
            target :=
              { (if a.uses FLOW_DISSECTOR_KEY_MPLS_ENTROPY then
                  { s.target with keyid := { keyid := be32_at hdr 4 &&& 0xFFFFF000 } }
                 else s.target) with
                basic := { s.target.basic with n_proto := s.proto, ip_proto := s.ip_proto },
                control := { s.target.control with thoff := s.nhoff % 65536 } } } := by
        simp only [dissect_mpls, walk.header, hh, MPLS_LS_LABEL_MASK, MPLS_LS_LABEL_SHIFT,
          MPLS_LABEL_ENTROPY, hent, if_true, Option.isSome_some]
        split <;> rfl
      refine ⟨(dissect_mpls a s).target, ?_, ?_, ?_⟩
      · simp only [__skb_flow_dissect, run_succ_outer, hs, e1]
        rw [e2]
      · intro _
        rw [e2]
        refine ⟨?_, ?_, hproto, rfl, rfl, rfl, ?_, ?_, ?_, ?_, ?_, ?_⟩
        · intro hu
          have hu' : a.uses FLOW_DISSECTOR_KEY_MPLS_ENTROPY = true := hu
          simp only [hu', if_true]
        · intro hu
          have hu' : a.uses FLOW_DISSECTOR_KEY_MPLS_ENTROPY = false := hu
          simp only [hu', Bool.false_eq_true, if_false]
        all_goals (split <;> rfl)
      · intro hne
        exact absurd hent hne
    · have e2 : dissect_mpls a s =
          { s with
            pc := .ret true,
            reads := s.reads ++ [⟨.MPLS_LABELS, s.nhoff, 8, true⟩] } := by
        simp only [dissect_mpls, walk.header, hh, MPLS_LS_LABEL_MASK, MPLS_LS_LABEL_SHIFT,
          MPLS_LABEL_ENTROPY, hent, if_false, Option.isSome_some]
      refine ⟨(dissect_mpls a s).target, ?_, ?_, ?_⟩
      · simp only [__skb_flow_dissect, run_succ_outer, hs, e1]
        rw [e2]
      · intro h
        exact absurd h hent
      · intro _
        rw [e2]
  · intro hn
    have e2 : dissect_mpls a s =
        { s with
          pc := .ret false,
          reads := s.reads ++ [⟨.MPLS_LABELS, s.nhoff, 8, false⟩] } := by
      simp only [dissect_mpls, walk.header, hn, Option.isSome_none]
    simp only [__skb_flow_dissect, run_succ_outer, hs, e1, e2]

/-- Witness of C25: the packet `mpls_entropy_packet` with the dissector
`mpls_entropy_dissector` and 9 in the local `ip_proto` at entry. -/
theorem __skb_flow_dissect_mpls_witness :
    ∃ t, __skb_flow_dissect
        { flow_keys_call (linear_skb mpls_entropy_packet ETH_P_MPLS_UC) with
          flow_dissector := mpls_entropy_dissector, ip_proto := 9 } (0 + 1)
        = some (.returned true t) ∧
      t.keyid.keyid = 0xABCDE000 ∧ t.basic.n_proto = ETH_P_MPLS_UC ∧ t.basic.ip_proto = 9 ∧
      t.control.thoff = 0 := by
  obtain ⟨t, h1, h2, _⟩ :=
    (__skb_flow_dissect_mpls
      { flow_keys_call (linear_skb mpls_entropy_packet ETH_P_MPLS_UC) with
        flow_dissector := mpls_entropy_dissector, ip_proto := 9 } 0
      (Or.inr ⟨by decide, Or.inl (by decide)⟩)).1 mpls_entropy_packet (by decide)
  obtain ⟨k1, _, _, k4, k5, k6, _⟩ := h2 (by decide)
  refine ⟨t, h1, ?_, ?_, ?_, ?_⟩
  · rw [k1 (by decide)]; decide
  · rw [k4]; decide
  · rw [k5]; decide
  · rw [k6]; decide

/-- Counterexample of C25: the two label stack entries of `mpls_entropy_packet`
at offset 65536 of a buffer of 65544 bytes. The 8 bytes are readable, the label
is 7 and the call returns `true` with `control.thoff = 0`, which is not the
offset 65536. -/
theorem __skb_flow_dissect_mpls_thoff_wraps :
    (__skb_header_pointer none 65536 8 (buffer_at 65536 mpls_entropy_packet) 65544).bytes
      = some mpls_entropy_packet ∧
    __skb_flow_dissect
        (flow_keys_buf_call (buffer_at 65536 mpls_entropy_packet) ETH_P_MPLS_UC 65536 65544) 1
      = some (.returned true { flow_keys.zero with basic := ⟨0x8847, 0, 0⟩ }) ∧
    (0 : Nat) ≠ 65536 := by
  decide

/-- C26, the code at a failing input. The `skb` holds a PPPoE session header
with the PPP protocol id IPv6, then an IPv6 packet with one hop-by-hop header
and a UDP header; its linear part ends after the IPv6 header, so that the
extension header is read through the scratch array. From the tag PPPoE session
at offset 0 the call returns `ip_proto = 0`, `thoff = 48` and no ports: the tag
is then the PPP protocol id `0x0057`, and the extension-header case leaves when
the tag is not `ETH_P_IPV6`. From the tag IPv6 at offset 8 the call on the same
buffer returns `ip_proto = 17`, `thoff = 56` and the ports of the UDP header.
For an IPv4 packet behind the PPPoE header the two calls differ in
`basic.n_proto` only, and for the PPP protocol id `0xC021` the call returns
`false`. -/
theorem __skb_flow_dissect_pppoe_skips_ipv6_opthdr :
    __skb_flow_dissect
        (flow_keys_call (paged_skb (pppoe_header PPP_IPV6 ++ ipv6_hop_udp_packet)
          ETH_P_PPP_SES 0 48)) 3
      = some (.returned true
          { flow_keys.zero with
            control := ⟨48, FLOW_DISSECTOR_KEY_IPV6_ADDRS.val⟩,
            basic := ⟨0x0057, 0, 0⟩,
            addrs := ⟨0, 0, 0, 1, 0, 0, 0, 2⟩ }) ∧
    __skb_flow_dissect
        (flow_keys_call (paged_skb (pppoe_header PPP_IPV6 ++ ipv6_hop_udp_packet)
          ETH_P_IPV6 8 48)) 3
      = some (.returned true
          { flow_keys.zero with
            control := ⟨56, FLOW_DISSECTOR_KEY_IPV6_ADDRS.val⟩,
            basic := ⟨0x86DD, 17, 0⟩,
            ports := ⟨4660, 53⟩,
            addrs := ⟨0, 0, 0, 1, 0, 0, 0, 2⟩ }) ∧
    __skb_flow_dissect
        (flow_keys_call (paged_skb (pppoe_header PPP_IP ++ ipv4_udp_packet)
          ETH_P_PPP_SES 0 36)) 3
      = some (.returned true
          { flow_keys.zero with
            control := ⟨28, FLOW_DISSECTOR_KEY_IPV4_ADDRS.val⟩,
            basic := ⟨0x0021, 17, 0⟩,
            ports := ⟨4660, 53⟩,
            addrs := ⟨0x0A000001, 0x0A000081, 0, 0, 0, 0, 0, 0⟩ }) ∧
    __skb_flow_dissect
        (flow_keys_call (paged_skb (pppoe_header PPP_IP ++ ipv4_udp_packet)
          ETH_P_IP 8 36)) 2
      = some (.returned true
          { flow_keys.zero with
            control := ⟨28, FLOW_DISSECTOR_KEY_IPV4_ADDRS.val⟩,
            basic := ⟨0x0800, 17, 0⟩,
            ports := ⟨4660, 53⟩,
            addrs := ⟨0x0A000001, 0x0A000081, 0, 0, 0, 0, 0, 0⟩ }) ∧
    __skb_flow_dissect
        (flow_keys_call (paged_skb (pppoe_header 0xC021 ++ ipv4_udp_packet)
          ETH_P_PPP_SES 0 36)) 1
      = some (.returned false flow_keys.zero) := by
  decide

/-- C27: truncated first header. When the first header at the start offset `o`
is not readable (20 bytes for the tag IPv4, 40 for IPv6, 4 for 802.1Q and
802.1AD, 8 for PPPoE session, 16 for TIPC, 8 for MPLS unicast and multicast), or
is an IPv4 header whose header-length field is below 5, the call returns `false`
after one step, and every member of the target other than the Ethernet
addresses is as in the container before the call; the Ethernet addresses are
also as before when they are not requested. -/
theorem __skb_flow_dissect_truncated_first_header (a : dissect_args) (o : Nat)
    (hpc : (dissect_start a).pc = .again) (ho : (dissect_start a).nhoff = o)
    (h : ((dissect_start a).proto = ETH_P_IP ∧
          (__skb_header_pointer a.skb o 20 a.buf a.buflen).bytes = none) ∨
        ((dissect_start a).proto = ETH_P_IP ∧
          ∃ iph, (__skb_header_pointer a.skb o 20 a.buf a.buflen).bytes = some iph ∧
            u8_at iph 0 % 16 < 5) ∨
        ((dissect_start a).proto = ETH_P_IPV6 ∧
          (__skb_header_pointer a.skb o 40 a.buf a.buflen).bytes = none) ∨
        (((dissect_start a).proto = ETH_P_8021Q ∨ (dissect_start a).proto = ETH_P_8021AD) ∧
          (__skb_header_pointer a.skb o 4 a.buf a.buflen).bytes = none) ∨
        ((dissect_start a).proto = ETH_P_PPP_SES ∧
          (__skb_header_pointer a.skb o 8 a.buf a.buflen).bytes = none) ∨
        ((dissect_start a).proto = ETH_P_TIPC ∧
          (__skb_header_pointer a.skb o 16 a.buf a.buflen).bytes = none) ∨
        (((dissect_start a).proto = ETH_P_MPLS_UC ∨ (dissect_start a).proto = ETH_P_MPLS_MC) ∧
          (__skb_header_pointer a.skb o 8 a.buf a.buflen).bytes = none)) :
    ∃ t, __skb_flow_dissect a 1 = some (.returned false t) ∧
      t.control = a.target_container.control ∧ t.basic = a.target_container.basic ∧
      t.tags = a.target_container.tags ∧ t.keyid = a.target_container.keyid ∧
      t.ports = a.target_container.ports ∧ t.addrs = a.target_container.addrs ∧
      (skb_flow_dissector_uses_key a.flow_dissector FLOW_DISSECTOR_KEY_ETH_ADDRS = false →
        t.eth_addrs = a.target_container.eth_addrs) := by
  subst ho
  obtain ⟨h1, h2⟩ := step_first_header_fails a (dissect_start a) hpc h
  obtain ⟨s1, s2, s3, s4, s5, s6, s7, _⟩ := dissect_start_running a hpc
  refine ⟨(step a (dissect_start a)).target, ?_, ?_⟩
  · simp only [__skb_flow_dissect, run, h1]
  · rw [h2]
    exact ⟨s1, s2, s3, s4, s5, s6, s7⟩

/-- Witness of C27: the 28 bytes of `ipv4_udp_packet` dissected as IPv4 from
offset 10, where only 18 bytes are left. -/
theorem __skb_flow_dissect_truncated_first_header_witness :
    ∃ t, __skb_flow_dissect (flow_keys_buf_call (buffer ipv4_udp_packet) ETH_P_IP 10 28) 1
        = some (.returned false t) ∧
      t.control = flow_keys.zero.control ∧ t.basic = flow_keys.zero.basic ∧
      t.tags = flow_keys.zero.tags ∧ t.keyid = flow_keys.zero.keyid ∧
      t.ports = flow_keys.zero.ports ∧ t.addrs = flow_keys.zero.addrs ∧
      (skb_flow_dissector_uses_key flow_keys_buf_dissector FLOW_DISSECTOR_KEY_ETH_ADDRS = false →
        t.eth_addrs = flow_keys.zero.eth_addrs) :=
  __skb_flow_dissect_truncated_first_header
    (flow_keys_buf_call (buffer ipv4_udp_packet) ETH_P_IP 10 28) 10 (by decide) (by decide)
    (Or.inl ⟨by decide, by decide⟩)

/-- C28: `flow_keys_hash_length` is the number of words from the start of the
hashed range to the start of the address union, plus 2 for the address type
IPv4, 8 for IPv6, 1 for TIPC and 0 for any other address type. Two keys that
agree on the address type, on the members from `basic` to `ports` and on the
variant of the address union that the address type selects have the same hash,
for every seed, word hasher and byte order: the hash depends neither on
`control.thoff` nor on the rest of the address union. -/
theorem flow_keys_hash_length_words (le : Bool) (jhash2 : List Nat → Nat → Nat)
    (k k' : flow_keys) (keyval : Nat) (h : same_hashed k k') :
    flow_keys_hash_length k
      = (sizeof_flow_keys - sizeof_addrs - FLOW_KEYS_HASH_OFFSET) / 4 +
        (if k.control.addr_type = FLOW_DISSECTOR_KEY_IPV4_ADDRS.val then 2
         else if k.control.addr_type = FLOW_DISSECTOR_KEY_IPV6_ADDRS.val then 8
         else if k.control.addr_type = FLOW_DISSECTOR_KEY_TIPC_ADDRS.val then 1
         else 0) ∧
    (__flow_hash_from_keys le jhash2 k keyval).1 = (__flow_hash_from_keys le jhash2 k' keyval).1 := by
  constructor
  · simp only [flow_keys_hash_length, FLOW_KEYS_HASH_OFFSET, sizeof_addrs, sizeof_flow_keys]
    repeat' split
    all_goals rfl
  · have hw := hash_words_of_same_hashed le _ _ (same_hashed_consistentify le k k' h)
    simp only [__flow_hash_from_keys, __flow_hash_words, hw]

/-- Witness of C28: the key `key_v4_example` and the same key with another
`thoff` and other bytes in the address union from byte 8 on. -/
theorem flow_keys_hash_length_words_witness :
    flow_keys_hash_length key_v4_example
      = (sizeof_flow_keys - sizeof_addrs - FLOW_KEYS_HASH_OFFSET) / 4 +
        (if key_v4_example.control.addr_type = FLOW_DISSECTOR_KEY_IPV4_ADDRS.val then 2
         else if key_v4_example.control.addr_type = FLOW_DISSECTOR_KEY_IPV6_ADDRS.val then 8
         else if key_v4_example.control.addr_type = FLOW_DISSECTOR_KEY_TIPC_ADDRS.val then 1
         else 0) ∧
    (__flow_hash_from_keys true (fun w s => w.sum + s) key_v4_example 5).1
      = (__flow_hash_from_keys true (fun w s => w.sum + s)
          { key_v4_example with
            control := { key_v4_example.control with thoff := 99 },
            addrs := { key_v4_example.addrs with a2 := 7, a7 := 0xFFFFFFFF } } 5).1 :=
  flow_keys_hash_length_words true (fun w s => w.sum + s) key_v4_example
    { key_v4_example with
      control := { key_v4_example.control with thoff := 99 },
      addrs := { key_v4_example.addrs with a2 := 7, a7 := 0xFFFFFFFF } } 5
    (by unfold same_hashed; decide)

/-- C29, the code at a failing input. The key `key_v4_example` is well formed;
its addresses 10.0.0.1 and 10.0.0.129 differ by `0x80000000` as `u32` on a
little-endian CPU, so that `addr_diff` is `INT_MIN` for the key and for its
reverse. `__flow_hash_consistentify` exchanges the endpoints of the key, and
applied to the result it exchanges them back: twice is the key itself, which is
not the result of once. Hence `flow_hash_from_keys`, called again on the key it
has just hashed, hashes other words: with a word hasher that returns the first
address word the second hash differs from the first. -/
theorem flow_hash_from_keys_twice_differs :
    key_v4_example.wf ∧
    __flow_hash_consistentify true key_v4_example = key_v4_example.reverse_v4 ∧
    __flow_hash_consistentify true (__flow_hash_consistentify true key_v4_example)
      = key_v4_example ∧
    __flow_hash_consistentify true (__flow_hash_consistentify true key_v4_example)
      ≠ __flow_hash_consistentify true key_v4_example ∧
    (flow_hash_from_keys true (fun words _ => words.getD 4 0) 0
        (flow_hash_from_keys true (fun words _ => words.getD 4 0) 0 key_v4_example).2).1
      ≠ (flow_hash_from_keys true (fun words _ => words.getD 4 0) 0 key_v4_example).1 := by
  decide

/-- C30: for keys whose `control.thoff` is a 16-bit value, `__skb_get_poff`
returns `thoff + 8` for UDP, UDP-Lite, ICMP, ICMPv6 and IGMP, `thoff + 12` for
DCCP and SCTP, and `thoff` for any ip-protocol other than these and TCP. For TCP
it returns `thoff + max 20 (4 * d)`, with `d` the high nibble of the byte at
`thoff + 12`, when that byte is readable, which lies between `thoff + 20` and
`thoff + 60`, and `thoff` when it is not readable. The result is never below
`thoff`. `skb_get_poff` returns 0 when the dissection of the packet fails, and
the value of `__skb_get_poff` on the dissected keys when it succeeds. -/
theorem __skb_get_poff_value (skb : Option sk_buff) (data : Nat → Nat) (keys : flow_keys)
    (hlen : Nat) (env : dissect_env) (pkt : sk_buff) (fuel : Nat) (t : flow_keys)
    (ht : keys.control.thoff < 65536) :
    ((keys.basic.ip_proto = IPPROTO_UDP ∨ keys.basic.ip_proto = IPPROTO_UDPLITE ∨
        keys.basic.ip_proto = IPPROTO_ICMP ∨ keys.basic.ip_proto = IPPROTO_ICMPV6 ∨
        keys.basic.ip_proto = IPPROTO_IGMP) →
      __skb_get_poff skb data keys hlen = keys.control.thoff + 8) ∧
    ((keys.basic.ip_proto = IPPROTO_DCCP ∨ keys.basic.ip_proto = IPPROTO_SCTP) →
      __skb_get_poff skb data keys hlen = keys.control.thoff + 12) ∧
    (keys.basic.ip_proto = IPPROTO_TCP →
      (∀ doff, (__skb_header_pointer skb (keys.control.thoff + 12) 1 data hlen).bytes
          = some doff →
        __skb_get_poff skb data keys hlen
          = keys.control.thoff + max 20 (4 * (u8_at doff 0 / 16)) ∧
        keys.control.thoff + 20 ≤ __skb_get_poff skb data keys hlen ∧
        __skb_get_poff skb data keys hlen ≤ keys.control.thoff + 60) ∧
      ((__skb_header_pointer skb (keys.control.thoff + 12) 1 data hlen).bytes = none →
        __skb_get_poff skb data keys hlen = keys.control.thoff)) ∧
    ((keys.basic.ip_proto ≠ IPPROTO_TCP ∧ keys.basic.ip_proto ≠ IPPROTO_UDP ∧
        keys.basic.ip_proto ≠ IPPROTO_UDPLITE ∧ keys.basic.ip_proto ≠ IPPROTO_ICMP ∧
        keys.basic.ip_proto ≠ IPPROTO_ICMPV6 ∧ keys.basic.ip_proto ≠ IPPROTO_IGMP ∧
        keys.basic.ip_proto ≠ IPPROTO_DCCP ∧ keys.basic.ip_proto ≠ IPPROTO_SCTP) →
      __skb_get_poff skb data keys hlen = keys.control.thoff) ∧
    keys.control.thoff ≤ __skb_get_poff skb data keys hlen ∧
    (skb_flow_dissect_flow_keys env pkt fuel = some (.returned false t) →
      skb_get_poff env pkt fuel = some 0) ∧
    (skb_flow_dissect_flow_keys env pkt fuel = some (.returned true t) →
      skb_get_poff env pkt fuel = some (__skb_get_poff (some pkt) pkt.data t pkt.headlen)) := by
  have hm : ∀ L, L ≤ 60 → (keys.control.thoff + L) % 4294967296 = keys.control.thoff + L := by
    intro L hL
    exact Nat.mod_eq_of_lt (by omega)
  have htcp : ∀ doff, (__skb_header_pointer skb (keys.control.thoff + 12) 1 data hlen).bytes
      = some doff → keys.basic.ip_proto = IPPROTO_TCP →
      __skb_get_poff skb data keys hlen
        = keys.control.thoff + max 20 (4 * (u8_at doff 0 / 16)) := by
    intro doff hd hp
    have hb : u8_at doff 0 < 256 := header_pointer_getD_lt _ _ _ _ _ doff hd 0
    have h60 := and_0xF0_shift_le (u8_at doff 0)
    simp only [__skb_get_poff, hp, if_true, hd, sizeof_tcphdr]
    rw [hm _ (by omega), and_0xF0_shift_eq _ hb]
  refine ⟨?_, ?_, ?_, ?_, ?_, ?_, ?_⟩
  · intro h
    simp only [IPPROTO_UDP, IPPROTO_UDPLITE, IPPROTO_ICMP, IPPROTO_ICMPV6, IPPROTO_IGMP] at h
    rcases h with h | h | h | h | h <;>
      simp [__skb_get_poff, h, IPPROTO_TCP, IPPROTO_UDP, IPPROTO_UDPLITE, IPPROTO_ICMP,
        IPPROTO_ICMPV6, IPPROTO_IGMP, sizeof_udphdr, sizeof_icmphdr, sizeof_icmp6hdr,
        sizeof_igmphdr] <;> omega
  · intro h
    simp only [IPPROTO_DCCP, IPPROTO_SCTP] at h
    rcases h with h | h <;>
      simp [__skb_get_poff, h, IPPROTO_TCP, IPPROTO_UDP, IPPROTO_UDPLITE, IPPROTO_ICMP,
        IPPROTO_ICMPV6, IPPROTO_IGMP, IPPROTO_DCCP, IPPROTO_SCTP, sizeof_dccp_hdr,
        sizeof_sctphdr] <;> omega
  · intro hp
    constructor
    · intro doff hd
      have hb : u8_at doff 0 < 256 := header_pointer_getD_lt _ _ _ _ _ doff hd 0
      rw [htcp doff hd hp]
      refine ⟨rfl, ?_, ?_⟩
      · have := le_max_left 20 (4 * (u8_at doff 0 / 16)); omega
      · have : max 20 (4 * (u8_at doff 0 / 16)) ≤ 60 := by
          apply max_le <;> omega
        omega
    · intro hn
      simp only [__skb_get_poff, hp, if_true, hn]
  · intro ⟨h1, h2, h3, h4, h5, h6, h7, h8⟩
    simp only [__skb_get_poff, h1, h2, h3, h4, h5, h6, h7, h8, if_false, false_or]
  · simp only [__skb_get_poff]
    split_ifs
    · split
      · exact Nat.le_refl _
      · rename_i doff hd
        have h60 := and_0xF0_shift_le (u8_at doff 0)
        have : max sizeof_tcphdr ((u8_at doff 0 &&& 0xF0) >>> 2) ≤ 60 := by
          apply max_le
          · simp [sizeof_tcphdr]
          · exact h60
        rw [hm _ this]
        omega
    all_goals first
      | exact Nat.le_refl _
      | (rw [hm _ (by simp [sizeof_udphdr, sizeof_icmphdr, sizeof_icmp6hdr, sizeof_igmphdr,
            sizeof_dccp_hdr, sizeof_sctphdr])]; omega)
  · intro h
    simp only [skb_get_poff, h]
  · intro h
    simp only [skb_get_poff, h]

/-- Witness of C30: the packet `ipv4_tcp_packet`, whose TCP header at offset 20
has the data offset 8, and an IPv4 packet cut after 10 bytes, whose dissection
fails. -/
theorem __skb_get_poff_value_witness :
    __skb_get_poff (some (linear_skb ipv4_tcp_packet ETH_P_IP))
        (linear_skb ipv4_tcp_packet ETH_P_IP).data
        { flow_keys.zero with control := ⟨20, 2⟩, basic := ⟨0x0800, 6, 0⟩ }
        (linear_skb ipv4_tcp_packet ETH_P_IP).headlen
      = 20 + max 20 (4 * (0x80 / 16)) ∧
    skb_get_poff zero_env (linear_skb (ipv4_tcp_packet.take 10) ETH_P_IP) 1 = some 0 := by
  have h := __skb_get_poff_value (some (linear_skb ipv4_tcp_packet ETH_P_IP))
    (linear_skb ipv4_tcp_packet ETH_P_IP).data
    { flow_keys.zero with control := ⟨20, 2⟩, basic := ⟨0x0800, 6, 0⟩ }
    (linear_skb ipv4_tcp_packet ETH_P_IP).headlen
    zero_env (linear_skb (ipv4_tcp_packet.take 10) ETH_P_IP) 1 flow_keys.zero (by decide)
  exact ⟨((h.2.2.1 (by decide)).1 [0x80] (by decide)).1, h.2.2.2.2.2.1 (by decide)⟩

end FlowDissector
